import Mathlib

/-!
# Shared tabletop scene: server store, socket layer and client replica

A shallow embedding of `server/src/server.js` (the in-memory `gameState`, the
REST handlers and the socket handlers), of the socket event handlers of
`client/src/App.jsx` and of `isVisibleToPlayers` of
`client/src/components/MapGrid.jsx`.

Conventions of the embedding.

* A JavaScript object used as a dictionary is an association list in insertion
  order (`Dict`); `obj[k]` is `Dict.get?`, `obj[k] = v` is `Dict.set` and
  `delete obj[k]` is `Dict.del`. These are the own entries of the object. For a
  key that names a member of `Object.prototype` (`objectPrototypeKeys`:
  `constructor`, `valueOf`, ...) the read `obj[k]` of the code finds the
  inherited member when there is no own entry, and its tests `if (obj[k])`
  pass; on every other key (`plainId`) the read is the own entry or
  `undefined`, as in the model. Statements that rely on a request for an id
  that is not stored being refused are therefore made for plain ids
  (`Op.plainIds`). The numeric-key reordering of `Object.keys` is not part of
  the model.
* Numbers are integers. Where the code computes with doubles on values that
  need not be small (`Math.sqrt`, `Math.pow`, `parseInt`), the rounding to the
  nearest double is part of the model (`roundToDouble`, `sqrtAtMost`).
* A JavaScript `Set` of ids is a list in insertion order (`setAdd`,
  `setDelete`).
* Request fields whose type the server never checks are `JsVal`s, with the
  JavaScript notion of truthiness.
* `uuidv4()` and `new Date().toISOString()` are inputs of the handlers.
* Every handler returns the new state, the ordered list of its effects
  (persistence attempts and socket emissions) and its HTTP response.
-/

namespace TT

/-! ## JavaScript values and dictionaries -/

/-- An untyped scalar taken from a request body or a socket payload. -/
inductive JsVal where
  | undefined
  | null
  | bool (b : Bool)
  | num (n : Int)
  | str (s : String)
  deriving DecidableEq, Repr

/-- JavaScript `ToBoolean`. -/
def JsVal.truthy : JsVal → Bool
  | .undefined => false
  | .null => false
  | .bool b => b
  | .num n => n != 0
  | .str s => s != ""

/-- The expression `v || d`. -/
def JsVal.orElse (v d : JsVal) : JsVal :=
  if v.truthy then v else d

/-- A plain JavaScript object used as a string-keyed dictionary. -/
abbrev Dict (α : Type) := List (String × α)

namespace Dict

variable {α : Type}

/-- The own entry read by `obj[k]` (`none` stands for no own entry: the read
is `undefined` unless `k` names a member of `Object.prototype`). -/
def get? (d : Dict α) (k : String) : Option α :=
  match d with
  | [] => none
  | (k', v) :: rest => if k' = k then some v else get? rest k

/-- The write `obj[k] = v`: an existing key keeps its place, a new one goes last. -/
def set (d : Dict α) (k : String) (v : α) : Dict α :=
  match d with
  | [] => [(k, v)]
  | (k', v') :: rest => if k' = k then (k, v) :: rest else (k', v') :: set rest k v

/-- The statement `delete obj[k]`. -/
def del (d : Dict α) (k : String) : Dict α :=
  match d with
  | [] => []
  | (k', v) :: rest => if k' = k then del rest k else (k', v) :: del rest k

/-- The array `Object.keys(obj)`. -/
def keys (d : Dict α) : List String := d.map Prod.fst

/-- The array `Object.values(obj)`. -/
def values (d : Dict α) : List α := d.map Prod.snd

end Dict

/-- The property names every plain object inherits from `Object.prototype`.
For such a name, and an object without an own entry of that name, `obj[name]`
is the inherited member (a function, or the prototype itself for `__proto__`),
which is truthy. -/
def objectPrototypeKeys : List String :=
  ["constructor", "__proto__", "hasOwnProperty", "isPrototypeOf", "propertyIsEnumerable",
   "toLocaleString", "toString", "valueOf", "__defineGetter__", "__defineSetter__",
   "__lookupGetter__", "__lookupSetter__"]

/-- An id that names no member of `Object.prototype`: on such an id the read
`obj[id]` is the own entry or `undefined`, which is what `Dict.get?` computes.
The ids `uuidv4` generates are of this kind. -/
def plainId (id : String) : Bool :=
  !objectPrototypeKeys.contains id

/-- The call `set.add(id)` on a `Set`. -/
def setAdd (s : List String) (id : String) : List String :=
  if id ∈ s then s else s ++ [id]

/-- The call `set.delete(id)` on a `Set`. -/
def setDelete (s : List String) (id : String) : List String :=
  s.filter (fun i => decide (i ≠ id))

/-- The constructor `new Set(array)`: later duplicates are dropped. -/
def setOfArray (xs : List String) : List String :=
  xs.foldl setAdd []

/-! ## Records -/

/-- The `gridSize` of a map. -/
structure GridSize where
  width : Int
  height : Int
  deriving DecidableEq, Repr

/-- A map record, as built by `POST /api/maps`. -/
structure MapRec where
  id : String
  name : JsVal
  gridSize : GridSize
  imageUrl : Option String
  createdAt : String
  deriving DecidableEq, Repr

/-- A point of interest, as built by `POST /api/maps/:mapId/poi`. -/
structure POI where
  id : String
  mapId : String
  name : JsVal
  x : Int
  y : Int
  description : JsVal
  type : JsVal
  visible : JsVal
  createdAt : String
  deriving DecidableEq, Repr

/-- An actor record, as built by `POST /api/actors`. -/
structure Actor where
  id : String
  name : JsVal
  color : JsVal
  icon : JsVal
  createdAt : String
  deriving DecidableEq, Repr

/-- A position `{ x, y }` stored in `actorPositions[mapId][actorId]`. -/
structure Pos where
  x : Int
  y : Int
  deriving DecidableEq, Repr

/-- The merged object `{ ...actor, x: position.x, y: position.y }`. -/
structure ActorOnMap where
  id : String
  name : JsVal
  color : JsVal
  icon : JsVal
  createdAt : String
  x : Int
  y : Int
  deriving DecidableEq, Repr

/-- The spread `{ ...actor, x, y }`. -/
def Actor.placed (a : Actor) (x y : Int) : ActorOnMap :=
  { id := a.id, name := a.name, color := a.color, icon := a.icon,
    createdAt := a.createdAt, x := x, y := y }

/-! ## Fog of war on the client (`MapGrid.jsx`) -/

/-- The `fogSettings` prop of `MapGrid`. -/
structure FogProps where
  fogEnabled : JsVal
  visionRadius : Int
  deriving DecidableEq, Repr

/-- The fallback `fogSettings || { fogEnabled: false, visionRadius: 5, ... }`. -/
def effectiveFogSettings (fogSettings : Option FogProps) : FogProps :=
  fogSettings.getD { fogEnabled := .bool false, visionRadius := 5 }

/-- The double nearest to a natural number, ties going to the even
significand: a number below 2^53 is a double; above, the 53 leading bits are
kept and the rest is rounded. (Overflow to `Infinity`, from 2^1024 on, is not
modelled.) -/
def roundToDouble (n : Nat) : Nat :=
  if n < 2 ^ 53 then n
  else
    let e := Nat.log 2 n - 52
    let q := n / 2 ^ e
    let rest := n % 2 ^ e
    if 2 * rest < 2 ^ e then q * 2 ^ e
    else if 2 * rest = 2 ^ e then (q + q % 2) * 2 ^ e
    else (q + 1) * 2 ^ e

/-- The comparison `Math.sqrt(d) <= r` for a double `d` with an integer value
and an integer `r` below 2^53, `Math.sqrt` returning the double nearest to the
real root. For `r ≥ 1` with `2^e ≤ r < 2^(e+1)` the next double above `r` is
`r + 2^(e-52)`, so the rounded root is at most `r` exactly when the real root
lies below the midpoint `r + 2^(e-53)`, that is when
`d * 4^(53-e) < (r * 2^(53-e) + 1)^2` (the root of an integer is never that
midpoint). For `r = 0` the root is at most `r` only when `d = 0`. -/
def sqrtAtMost (d r : Nat) : Bool :=
  if r = 0 then decide (d = 0)
  else decide (d * 4 ^ (53 - Nat.log 2 r) < (r * 2 ^ (53 - Nat.log 2 r) + 1) ^ 2)

/-- The test `Math.sqrt(Math.pow(dx, 2) + Math.pow(dy, 2)) <= radius` on
doubles, for the exact differences `dx = actor.x - x` and `dy = actor.y - y`:
the subtraction, each `Math.pow` and the sum round to the nearest double, and
the rounded root is compared with the radius (`sqrtAtMost`). The differences,
their squares and the sum are exact while the differences stay below 2^26 in
absolute value; the root is rounded whatever the magnitudes. -/
def distanceWithin (dx dy radius : Int) : Bool :=
  let px := roundToDouble (roundToDouble dx.natAbs * roundToDouble dx.natAbs)
  let py := roundToDouble (roundToDouble dy.natAbs * roundToDouble dy.natAbs)
  decide (0 ≤ radius) && sqrtAtMost (roundToDouble (px + py)) radius.toNat

/-- The function `isVisibleToPlayers(x, y)` of `MapGrid`, with the props it
closes over as explicit arguments. -/
def isVisibleToPlayers (isDM : Bool) (fogSettings : Option FogProps)
    (actors : List ActorOnMap) (x y : Int) : Bool :=
  if isDM || !(effectiveFogSettings fogSettings).fogEnabled.truthy then true
  else actors.any (fun actor =>
    distanceWithin (actor.x - x) (actor.y - y) (effectiveFogSettings fogSettings).visionRadius)

/-! ## The server state (`gameState` of `server.js`) -/

/-- The object `gameState.fogSettings`. -/
structure FogSettings where
  fogEnabled : JsVal
  visionRadius : JsVal
  showVisionCircles : JsVal
  deriving DecidableEq, Repr

/-- The module-level `gameState`. -/
structure GameState where
  maps : Dict MapRec
  currentMap : Option String
  pointsOfInterest : Dict POI
  visiblePOIs : List String
  actors : Dict Actor
  actorPositions : Dict (Dict Pos)
  fogSettings : FogSettings
  deriving DecidableEq, Repr

/-- The initial value of `gameState` (no saved file found). -/
def GameState.initial : GameState :=
  { maps := [], currentMap := none, pointsOfInterest := [], visiblePOIs := [],
    actors := [], actorPositions := [],
    fogSettings := { fogEnabled := .bool true, visionRadius := .num 5,
                     showVisionCircles := .bool true } }

/-- The payload of `'game-state'`, also the shape of the client's `gameState`. -/
structure Snapshot where
  currentMap : Option String
  map : Option MapRec
  visiblePOIs : List (Option POI)
  actors : List ActorOnMap
  deriving DecidableEq, Repr

/-- A socket.io event with its payload. -/
inductive Event where
  | gameState (snapshot : Snapshot)
  | mapChanged (mapId : String) (map : MapRec) (actors : List ActorOnMap)
  | poiVisibilityChanged (poiId : String) (visible : JsVal) (poi : POI)
  | actorMoved (actorId mapId : String) (x y : Int) (actor : Actor)
  | actorRemoved (actorId : String)
  | gameStateImported (maps : List MapRec) (currentMap : Option String)
  | dmFogSettings (payload : Dict JsVal)
  | playerFogSettings (payload : Dict JsVal)
  deriving DecidableEq, Repr

/-- The receivers of an emission: `io.emit`, `io.to(room).emit`, `socket.emit`. -/
inductive Audience where
  | all
  | room (name : String)
  | socket (id : String)
  deriving DecidableEq, Repr

/-- An observable effect of a handler, in program order. -/
inductive Effect where
  | save (state : GameState) (written : Bool)
  | backup (state : GameState) (written : Bool)
  | emit (dest : Audience) (event : Event)
  deriving DecidableEq, Repr

/-- The outcome of the file-system calls a handler makes: `writeOk` is whether
`fs.writeFileSync` inside `saveGameState` succeeds, `backupOk` whether the
backup write of the import handler succeeds, `unlinkOk` whether its
`fs.unlinkSync` succeeds. -/
structure Env where
  writeOk : Bool
  backupOk : Bool
  unlinkOk : Bool
  deriving DecidableEq, Repr

/-- An HTTP response: `res.json(body)` or `res.status(code).json({ error })`. -/
inductive Response (α : Type) where
  | ok (body : α)
  | error (status : Nat) (message : String)
  deriving DecidableEq, Repr

/-- The HTTP status code of a response. -/
def Response.status {α : Type} : Response α → Nat
  | .ok _ => 200
  | .error code _ => code

/-- What a REST handler leaves behind. -/
structure Outcome (α : Type) where
  state : GameState
  effects : List Effect
  response : Response α

/-- The broadcast events among a list of effects, in order. -/
def emitted (effects : List Effect) : List (Audience × Event) :=
  effects.filterMap (fun e =>
    match e with
    | .emit dest ev => some (dest, ev)
    | _ => none)

/-- The function `saveGameState`: one write attempt; a failing write is caught
and only logged, so the caller continues either way. -/
def saveGameState (env : Env) (s : GameState) : List Effect :=
  [.save s env.writeOk]

/-! ## Maps -/

/-- Whether a character is skipped by `parseInt` as leading white space. -/
def isJsWhiteSpace (c : Char) : Bool :=
  let n := c.toNat
  n = 0x09 || n = 0x0A || n = 0x0B || n = 0x0C || n = 0x0D || n = 0x20 || n = 0xA0 ||
  n = 0x1680 || (0x2000 ≤ n && n ≤ 0x200A) || n = 0x2028 || n = 0x2029 || n = 0x202F ||
  n = 0x205F || n = 0x3000 || n = 0xFEFF

/-- The value of a string of decimal digits. -/
def digitsValue (ds : List Char) : Nat :=
  ds.foldl (fun acc c => 10 * acc + (c.toNat - '0'.toNat)) 0

/-- The optional sign in front of the digits read by `parseInt`: whether it is
a minus, and what follows it. -/
def stripSign (s : List Char) : Bool × List Char :=
  match s with
  | '-' :: rest => (true, rest)
  | '+' :: rest => (false, rest)
  | _ => (false, s)

/-- The builtin `parseInt(text, 10)`; `none` stands for `NaN`. Leading white
space is skipped, then a sign and the longest run of decimal digits are read;
the result is the double nearest to the integer the digits denote (exact for
magnitudes up to 2^53; a run of more than 308 digits, which reads `Infinity`,
is not modelled). -/
def parseInt10 (text : String) : Option Int :=
  let signed := stripSign (text.toList.dropWhile isJsWhiteSpace)
  let ds := signed.2.takeWhile Char.isDigit
  if ds.isEmpty then none
  else some (if signed.1 then -(roundToDouble (digitsValue ds) : Int)
    else (roundToDouble (digitsValue ds) : Int))

/-- The expression `parseInt(field, 10) || dflt` on a form field that may be
absent: `NaN` and `0` are falsy. -/
def parseIntOr (field : Option String) (dflt : Int) : Int :=
  match field.bind parseInt10 with
  | some n => if n = 0 then dflt else n
  | none => dflt

/-- The handler `POST /api/maps`. -/
def createMap (env : Env) (s : GameState) (mapId now : String) (name : JsVal)
    (gridWidth gridHeight : Option String) (file : Option String) : Outcome MapRec :=
  let imageUrl := file.map (fun filename => "/uploads/" ++ filename)
  let newMap : MapRec :=
    { id := mapId, name := name,
      gridSize := { width := parseIntOr gridWidth 20, height := parseIntOr gridHeight 20 },
      imageUrl := imageUrl, createdAt := now }
  let s1 := { s with maps := s.maps.set mapId newMap }
  { state := s1, effects := saveGameState env s1, response := .ok newMap }

/-- One round of the `Object.entries(actorPositions[mapId]).forEach` loop: the
binding merged with its actor record, nothing when the actor is unknown. -/
def mergeActor (actors : Dict Actor) (entry : String × Pos) : Option ActorOnMap :=
  match actors.get? entry.1 with
  | some actor => some (actor.placed entry.2.x entry.2.y)
  | none => none

/-- The list built by the `Object.entries(actorPositions[mapId]).forEach` loop:
each binding whose actor exists, merged with its actor record. -/
def mapActors (s : GameState) (mapId : String) : List ActorOnMap :=
  match s.actorPositions.get? mapId with
  | none => []
  | some positions => positions.filterMap (mergeActor s.actors)

/-- The handler `POST /api/maps/:mapId/set-current`. -/
def setCurrentMap (env : Env) (s : GameState) (mapId : String) : Outcome String :=
  match s.maps.get? mapId with
  | some map =>
    let s1 := { s with currentMap := some mapId }
    { state := s1,
      effects := saveGameState env s1 ++ [.emit .all (.mapChanged mapId map (mapActors s1 mapId))],
      response := .ok mapId }
  | none => { state := s, effects := [], response := .error 404 "Map not found" }

/-- One round of the loop of `DELETE /api/maps/:mapId` over the POI ids. -/
def deleteMapPOI (mapId : String) (acc : Dict POI × List String) (poiId : String) :
    Dict POI × List String :=
  match acc.1.get? poiId with
  | some poi => if poi.mapId = mapId then (acc.1.del poiId, setDelete acc.2 poiId) else acc
  | none => acc

/-- The handler `DELETE /api/maps/:mapId`. -/
def deleteMap (env : Env) (s : GameState) (mapId : String) : Outcome Unit :=
  match s.maps.get? mapId with
  | some _ =>
    let swept := s.pointsOfInterest.keys.foldl (deleteMapPOI mapId)
      (s.pointsOfInterest, s.visiblePOIs)
    let s1 : GameState :=
      { s with
        maps := s.maps.del mapId
        pointsOfInterest := swept.1
        visiblePOIs := swept.2
        actorPositions := s.actorPositions.del mapId
        currentMap := if s.currentMap = some mapId then none else s.currentMap }
    { state := s1, effects := saveGameState env s1, response := .ok () }
  | none => { state := s, effects := [], response := .error 404 "Map not found" }

/-! ## Points of interest -/

/-- The handler `POST /api/maps/:mapId/poi`. -/
def createPOI (env : Env) (s : GameState) (poiId now mapId : String) (name : JsVal)
    (x y : Int) (description type : JsVal) : Outcome POI :=
  let newPOI : POI :=
    { id := poiId, mapId := mapId, name := name, x := x, y := y, description := description,
      type := type.orElse (.str "generic"), visible := .bool false, createdAt := now }
  let s1 := { s with pointsOfInterest := s.pointsOfInterest.set poiId newPOI }
  { state := s1, effects := saveGameState env s1, response := .ok newPOI }

/-- The handler `PUT /api/poi/:poiId/visibility`. -/
def setPOIVisibility (env : Env) (s : GameState) (poiId : String) (visible : JsVal) :
    Outcome POI :=
  match s.pointsOfInterest.get? poiId with
  | some poi =>
    let poi1 := { poi with visible := visible }
    let s1 : GameState :=
      { s with
        pointsOfInterest := s.pointsOfInterest.set poiId poi1
        visiblePOIs :=
          if visible.truthy then setAdd s.visiblePOIs poiId else setDelete s.visiblePOIs poiId }
    { state := s1,
      effects := saveGameState env s1 ++ [.emit .all (.poiVisibilityChanged poiId visible poi1)],
      response := .ok poi1 }
  | none => { state := s, effects := [], response := .error 404 "POI not found" }

/-! ## Actors -/

/-- The handler `POST /api/actors`. -/
def createActor (env : Env) (s : GameState) (actorId now : String) (name color icon : JsVal) :
    Outcome Actor :=
  let newActor : Actor :=
    { id := actorId, name := name, color := color.orElse (.str "#007bff"),
      icon := icon.orElse (.str "ðŸ‘¤"), createdAt := now }
  let s1 := { s with actors := s.actors.set actorId newActor }
  { state := s1, effects := saveGameState env s1, response := .ok newActor }

/-- One round of the loop of `DELETE /api/actors/:actorId` over the map ids. -/
def removeActorFrom (actorId : String) (positions : Dict (Dict Pos)) (mapId : String) :
    Dict (Dict Pos) :=
  match positions.get? mapId with
  | some onMap =>
    if (onMap.get? actorId).isSome then positions.set mapId (onMap.del actorId) else positions
  | none => positions

/-- The handler `DELETE /api/actors/:actorId`. -/
def deleteActor (env : Env) (s : GameState) (actorId : String) : Outcome Unit :=
  match s.actors.get? actorId with
  | some _ =>
    let s1 : GameState :=
      { s with
        actors := s.actors.del actorId
        actorPositions :=
          s.actorPositions.keys.foldl (removeActorFrom actorId) s.actorPositions }
    { state := s1,
      effects := saveGameState env s1 ++ [.emit .all (.actorRemoved actorId)],
      response := .ok () }
  | none => { state := s, effects := [], response := .error 404 "Actor not found" }

/-- The handler `PUT /api/actors/:actorId/position`. -/
def setActorPosition (env : Env) (s : GameState) (actorId mapId : String) (x y : Int) :
    Outcome Pos :=
  match s.actors.get? actorId with
  | none => { state := s, effects := [], response := .error 404 "Actor not found" }
  | some actor =>
    match s.maps.get? mapId with
    | none => { state := s, effects := [], response := .error 404 "Map not found" }
    | some _ =>
      let onMap := (s.actorPositions.get? mapId).getD []
      let s1 : GameState :=
        { s with
          actorPositions := s.actorPositions.set mapId (onMap.set actorId { x := x, y := y }) }
      { state := s1,
        effects := saveGameState env s1 ++ [.emit .all (.actorMoved actorId mapId x y actor)],
        response := .ok { x := x, y := y } }

/-! ## Export and import -/

/-- A state document: the JSON written by export and read by import. A field
is `none` when the document lacks it or holds a falsy value there. -/
structure StateDoc where
  maps : Option (Dict MapRec)
  currentMap : Option String
  pointsOfInterest : Option (Dict POI)
  visiblePOIs : Option (List String)
  actors : Option (Dict Actor)
  actorPositions : Option (Dict (Dict Pos))
  exportedAt : Option String
  version : Option String
  deriving DecidableEq, Repr

/-- The handler `GET /api/export`: the document it sends. -/
def exportState (s : GameState) (now : String) : StateDoc :=
  { maps := some s.maps, currentMap := s.currentMap,
    pointsOfInterest := some s.pointsOfInterest, visiblePOIs := some s.visiblePOIs,
    actors := some s.actors, actorPositions := some s.actorPositions,
    exportedAt := some now, version := some "1.0" }

/-- The expression `id || null` on an id that may be absent. -/
def orNull (id : Option String) : Option String :=
  match id with
  | some v => if v = "" then none else some v
  | none => none

/-- What reaches the import handler: no file (`req.file` unset), or a file
whose content `JSON.parse` either rejects (`none`) or reads as a document. -/
inductive Upload where
  | missing
  | file (parsed : Option StateDoc)
  deriving DecidableEq, Repr

/-- The counts reported by a successful import. -/
structure ImportSummary where
  mapsCount : Nat
  poisCount : Nat
  actorsCount : Nat
  deriving DecidableEq, Repr

/-- The handler of `POST /api/import`, after the upload middleware. -/
def importState (env : Env) (s : GameState) (upload : Upload) : Outcome ImportSummary :=
  match upload with
  | .missing => { state := s, effects := [], response := .error 400 "No file uploaded" }
  | .file none =>
    { state := s, effects := [], response := .error 500 "Failed to import game state" }
  | .file (some doc) =>
    if doc.maps.isNone || doc.pointsOfInterest.isNone then
      { state := s, effects := [], response := .error 400 "Invalid game state file format" }
    else if !env.backupOk then
      { state := s, effects := [.backup s false],
        response := .error 500 "Failed to import game state" }
    else
      let s1 : GameState :=
        { s with
          maps := doc.maps.getD []
          currentMap := orNull doc.currentMap
          pointsOfInterest := doc.pointsOfInterest.getD []
          visiblePOIs := setOfArray (doc.visiblePOIs.getD [])
          actors := doc.actors.getD []
          actorPositions := doc.actorPositions.getD [] }
      if !env.unlinkOk then
        { state := s1, effects := .backup s true :: saveGameState env s1,
          response := .error 500 "Failed to import game state" }
      else
        { state := s1,
          effects := .backup s true :: saveGameState env s1 ++
            [.emit .all (.gameStateImported s1.maps.values s1.currentMap)],
          response := .ok { mapsCount := s1.maps.keys.length,
                            poisCount := s1.pointsOfInterest.keys.length,
                            actorsCount := s1.actors.keys.length } }

/-! ## Socket layer -/

/-- The object `gameState.fogSettings` as a payload, key by key. -/
def FogSettings.payload (f : FogSettings) : Dict JsVal :=
  [("fogEnabled", f.fogEnabled), ("visionRadius", f.visionRadius),
   ("showVisionCircles", f.showVisionCircles)]

/-- The truthiness test `gameState.currentMap ? ... : ...`. -/
def truthyId (id : Option String) : Bool :=
  match id with
  | some v => v != ""
  | none => false

/-- The payload of `'game-state'` built in `io.on('connection')`. -/
def connectSnapshot (s : GameState) : Snapshot :=
  { currentMap := s.currentMap
    map := if truthyId s.currentMap then s.currentMap.bind s.maps.get? else none
    visiblePOIs := s.visiblePOIs.map s.pointsOfInterest.get?
    actors := if truthyId s.currentMap then (s.currentMap.map (mapActors s)).getD [] else [] }

/-- The server with its socket.io rooms: `rooms` lists the pairs
(room, socket id) made by `socket.join`. -/
structure Hub where
  game : GameState
  rooms : List (String × String)
  deriving DecidableEq, Repr

/-- The call `socket.join(room)`. -/
def joinRoom (rooms : List (String × String)) (room socketId : String) :
    List (String × String) :=
  if (room, socketId) ∈ rooms then rooms else rooms ++ [(room, socketId)]

/-- A message a socket sends to the server. -/
inductive SocketMsg where
  | joinAsDm
  | dmRequestFogSettings
  | joinAsPlayer
  | playerRequestFogSettings
  | dmUpdateFogSettings (settings : FogSettings)
  | disconnect
  deriving DecidableEq, Repr

/-- The body of `io.on('connection', ...)` up to the registration of the
listeners: the snapshot is sent to the new socket alone. -/
def onConnection (h : Hub) (socketId : String) : Hub × List Effect :=
  (h, [.emit (.socket socketId) (.gameState (connectSnapshot h.game))])

/-- The socket listeners registered in `io.on('connection', ...)`. -/
def onMessage (env : Env) (h : Hub) (socketId : String) : SocketMsg → Hub × List Effect
  | .joinAsDm =>
    ({ h with rooms := joinRoom h.rooms "dm" socketId },
     [.emit (.socket socketId) (.dmFogSettings h.game.fogSettings.payload)])
  | .dmRequestFogSettings =>
    (h, [.emit (.socket socketId) (.dmFogSettings h.game.fogSettings.payload)])
  | .joinAsPlayer =>
    ({ h with rooms := joinRoom h.rooms "players" socketId },
     [.emit (.socket socketId) (.playerFogSettings h.game.fogSettings.payload)])
  | .playerRequestFogSettings =>
    (h, [.emit (.socket socketId) (.playerFogSettings h.game.fogSettings.payload)])
  | .dmUpdateFogSettings settings =>
    let g : GameState :=
      { h.game with
        fogSettings :=
          { fogEnabled := settings.fogEnabled
            visionRadius := settings.visionRadius
            showVisionCircles := settings.showVisionCircles.orElse (.bool true) } }
    ({ h with game := g },
     saveGameState env g ++
       [.emit (.room "players")
         (.playerFogSettings
           [("fogEnabled", settings.fogEnabled), ("visionRadius", settings.visionRadius)])])
  | .disconnect =>
    ({ h with rooms := h.rooms.filter (fun m => decide (m.2 ≠ socketId)) }, [])

/-- Whether the socket `socketId` is among the receivers of an emission. -/
def receives (rooms : List (String × String)) (socketId : String) : Audience → Bool
  | .all => true
  | .room name => decide ((name, socketId) ∈ rooms)
  | .socket id => decide (id = socketId)

/-- Run a list of socket messages, each with its sender, collecting the effects. -/
def runMessages (env : Env) (h : Hub) : List (String × SocketMsg) → Hub × List Effect
  | [] => (h, [])
  | (socketId, msg) :: rest =>
    let r := onMessage env h socketId msg
    let r2 := runMessages env r.1 rest
    (r2.1, r.2 ++ r2.2)

/-! ## The client replica (`App.jsx`) -/

/-- The initial `gameState` of `App`. -/
def initialClientState : Snapshot :=
  { currentMap := none, map := none, visiblePOIs := [], actors := [] }

/-- The expression `visiblePOIs.filter(p => p.id !== poiId)`; reading `p.id` on
an `undefined` entry throws, which is `none` here. -/
def withoutPOI (pois : List (Option POI)) (poiId : String) : Option (List (Option POI)) :=
  match pois with
  | [] => some []
  | none :: _ => none
  | some p :: rest =>
    (withoutPOI rest poiId).map (fun kept => if p.id ≠ poiId then some p :: kept else kept)

/-- The socket listeners of `App`: the next `gameState` of the client, `none`
when the state updater throws. The `'game-state-imported'` listener reloads the
page, which puts `App` back in its initial state. -/
def clientHandle (c : Snapshot) : Event → Option Snapshot
  | .gameState snapshot => some snapshot
  | .mapChanged mapId map actors =>
    some { c with currentMap := some mapId, map := some map, actors := actors }
  | .poiVisibilityChanged poiId visible poi =>
    (withoutPOI c.visiblePOIs poiId).map (fun kept =>
      { c with visiblePOIs := if visible.truthy then kept ++ [some poi] else kept })
  | .actorMoved actorId _ x y actor =>
    some { c with actors := c.actors.map (fun a => if a.id = actorId then actor.placed x y else a) }
  | .actorRemoved actorId =>
    some { c with actors := c.actors.filter (fun a => decide (a.id ≠ actorId)) }
  | .gameStateImported _ _ => some initialClientState
  | .dmFogSettings _ => some c
  | .playerFogSettings _ => some c

/-- Fold the listeners of `App` over the events received, in order. -/
def clientRun (c : Snapshot) : List Event → Option Snapshot
  | [] => some c
  | ev :: rest => (clientHandle c ev).bind (fun c1 => clientRun c1 rest)

/-- The events of a list of effects that go to every session (`io.emit`). -/
def broadcasts (effects : List Effect) : List Event :=
  effects.filterMap (fun e =>
    match e with
    | .emit .all ev => some ev
    | _ => none)

/-! ## Sequences of store operations -/

/-- A request to the REST interface of the store. -/
inductive Op where
  | createMap (mapId now : String) (name : JsVal) (gridWidth gridHeight : Option String)
      (file : Option String)
  | createPOI (poiId now mapId : String) (name : JsVal) (x y : Int) (description type : JsVal)
  | setPOIVisibility (poiId : String) (visible : JsVal)
  | setCurrentMap (mapId : String)
  | deleteMap (mapId : String)
  | createActor (actorId now : String) (name color icon : JsVal)
  | deleteActor (actorId : String)
  | setActorPosition (actorId mapId : String) (x y : Int)
  | importState (upload : Upload)
  deriving DecidableEq, Repr

/-- The state, effects and status code a request leaves behind. -/
structure Step where
  state : GameState
  effects : List Effect
  status : Nat
  deriving DecidableEq, Repr

/-- Forget the body of the response. -/
def Outcome.step {α : Type} (o : Outcome α) : Step :=
  { state := o.state, effects := o.effects, status := o.response.status }

/-- Dispatch a request to its handler. -/
def Op.run (env : Env) (s : GameState) : Op → Step
  | .createMap mapId now name w h file => (TT.createMap env s mapId now name w h file).step
  | .createPOI poiId now mapId name x y d t => (TT.createPOI env s poiId now mapId name x y d t).step
  | .setPOIVisibility poiId visible => (TT.setPOIVisibility env s poiId visible).step
  | .setCurrentMap mapId => (TT.setCurrentMap env s mapId).step
  | .deleteMap mapId => (TT.deleteMap env s mapId).step
  | .createActor actorId now name color icon => (TT.createActor env s actorId now name color icon).step
  | .deleteActor actorId => (TT.deleteActor env s actorId).step
  | .setActorPosition actorId mapId x y => (TT.setActorPosition env s actorId mapId x y).step
  | .importState upload => (TT.importState env s upload).step

/-- Run requests one after the other, each with the outcome of its file-system
calls; the result is the final state and all effects in order. -/
def runOps (s : GameState) : List (Env × Op) → GameState × List Effect
  | [] => (s, [])
  | (env, op) :: rest =>
    let r := op.run env s
    let r2 := runOps r.state rest
    (r2.1, r.effects ++ r2.2)

/-! ## Predicates used in the statements -/

/-- An actor token standing on the cell `(x, y)`. -/
def sampleActorAt (x y : Int) : ActorOnMap :=
  { id := "rogue", name := .str "Rogue", color := .str "#007bff", icon := .str "R",
    createdAt := "2024-01-01T00:00:00.000Z", x := x, y := y }

/-- The set `visiblePOIs` holds exactly the ids of the stored POIs whose
`visible` flag is `true`. -/
def VisiblePOIsInv (s : GameState) : Prop :=
  ∀ id, id ∈ s.visiblePOIs ↔ ∃ poi, s.pointsOfInterest.get? id = some poi ∧ poi.visible = .bool true

/-- The check `!importedData.maps || !importedData.pointsOfInterest` does not reject. -/
def StateDoc.passesValidation (doc : StateDoc) : Bool :=
  doc.maps.isSome && doc.pointsOfInterest.isSome

/-- The `visiblePOIs` array of a document lists exactly the ids of its POIs
whose `visible` flag is `true`. -/
def StateDoc.visibleConsistent (doc : StateDoc) : Prop :=
  ∀ id, id ∈ doc.visiblePOIs.getD [] ↔
    ∃ poi, (doc.pointsOfInterest.getD []).get? id = some poi ∧ poi.visible = .bool true

/-- The requests of the `visiblePOIs` invariant as the specification states it: `uuidv4`
returns an unused POI id, the visibility flag is a boolean, and an import
uploads a document that passes the validation of the import handler. -/
def Op.validated (s : GameState) : Op → Prop
  | .createPOI poiId _ _ _ _ _ _ _ => s.pointsOfInterest.get? poiId = none
  | .setPOIVisibility _ visible => ∃ b, visible = .bool b
  | .importState upload => ∃ doc, upload = .file (some doc) ∧ doc.passesValidation = true
  | _ => True

/-- The requests under which the `visiblePOIs` invariant is kept: `uuidv4`
returns an unused POI id, the visibility flag is a boolean, and an imported
document is itself consistent. -/
def Op.keepsVisible (s : GameState) : Op → Prop
  | .createPOI poiId _ _ _ _ _ _ _ => s.pointsOfInterest.get? poiId = none
  | .setPOIVisibility _ visible => ∃ b, visible = .bool b
  | .importState upload => ∀ doc, upload = .file (some doc) → doc.visibleConsistent
  | _ => True

/-- Every request of a sequence satisfies `ok` in the state it is run in. -/
def OpsAdmissible (ok : GameState → Op → Prop) (s : GameState) : List (Env × Op) → Prop
  | [] => True
  | (env, op) :: rest => ok s op ∧ OpsAdmissible ok (op.run env s).state rest

/-- The ids a request uses as dictionary keys, route parameters and generated
ids alike, are plain: none names a member of `Object.prototype`. On such
requests the existence tests of the handlers, `if (obj[id])`, pass exactly for
the stored ids. An imported document brings own entries only. -/
def Op.plainIds : Op → Bool
  | .createMap mapId _ _ _ _ _ => plainId mapId
  | .createPOI poiId _ _ _ _ _ _ _ => plainId poiId
  | .setPOIVisibility poiId _ => plainId poiId
  | .setCurrentMap mapId => plainId mapId
  | .deleteMap mapId => plainId mapId
  | .createActor actorId _ _ _ _ => plainId actorId
  | .deleteActor actorId => plainId actorId
  | .setActorPosition actorId mapId _ _ => plainId actorId && plainId mapId
  | .importState _ => true

/-- All file-system calls succeed. -/
def Env.healthy : Env := { writeOk := true, backupOk := true, unlinkOk := true }

/-- A document that passes the import validation although its `visiblePOIs`
array names a POI whose flag is `false`. -/
def inconsistentDoc : StateDoc :=
  { maps := some [], currentMap := none,
    pointsOfInterest := some [("chest",
      { id := "chest", mapId := "dungeon", name := .str "Chest", x := 3, y := 3,
        description := .str "", type := .str "treasure", visible := .bool false,
        createdAt := "2024-01-01T00:00:00.000Z" })],
    visiblePOIs := some ["chest"], actors := some [], actorPositions := some [],
    exportedAt := none, version := none }

/-! ## Sample scene -/

/-- A 20 by 20 map. -/
def dungeonMap : MapRec :=
  { id := "dungeon", name := .str "Dungeon", gridSize := { width := 20, height := 20 },
    imageUrl := none, createdAt := "t0" }

/-- A second map. -/
def forestMap : MapRec :=
  { id := "forest", name := .str "Forest", gridSize := { width := 30, height := 10 },
    imageUrl := some "/uploads/forest.png", createdAt := "t1" }

/-- A visible POI on the first map. -/
def chestPOI : POI :=
  { id := "chest", mapId := "dungeon", name := .str "Chest", x := 3, y := 3,
    description := .str "", type := .str "treasure", visible := .bool true, createdAt := "t2" }

/-- A visible POI on the second map. -/
def wellPOI : POI :=
  { id := "well", mapId := "forest", name := .str "Well", x := 7, y := 1,
    description := .str "", type := .str "generic", visible := .bool true, createdAt := "t3" }

/-- An actor record. -/
def rogueActor : Actor :=
  { id := "rogue", name := .str "Rogue", color := .str "#007bff", icon := .str "R",
    createdAt := "t4" }

/-- A state with two maps, the first current, a visible POI on each and one
actor placed on both. -/
def sceneTwoMaps : GameState :=
  { maps := [("dungeon", dungeonMap), ("forest", forestMap)]
    currentMap := some "dungeon"
    pointsOfInterest := [("chest", chestPOI), ("well", wellPOI)]
    visiblePOIs := ["chest", "well"]
    actors := [("rogue", rogueActor)]
    actorPositions := [("dungeon", [("rogue", ⟨0, 0⟩)]), ("forest", [("rogue", ⟨2, 2⟩)])]
    fogSettings := GameState.initial.fogSettings }

/-- Every emission of the list comes after a `saveGameState` attempt of the
same list; `saved` tells whether an attempt was already seen. -/
def savedBeforeEmit (saved : Bool) : List Effect → Bool
  | [] => true
  | .save _ _ :: rest => savedBeforeEmit true rest
  | .backup _ _ :: rest => savedBeforeEmit saved rest
  | .emit _ _ :: rest => saved && savedBeforeEmit saved rest

/-- The write of `saveGameState` fails; the other file-system calls succeed. -/
def Env.diskFull : Env := { writeOk := false, backupOk := true, unlinkOk := true }

/-- The state right after `createPOI` of a chest on a map created before. -/
def sceneHiddenChest : GameState :=
  { GameState.initial with
    maps := [("dungeon", dungeonMap)]
    pointsOfInterest := [("chest", { chestPOI with visible := .bool false })] }

/-! ## The replica relation -/

/-- Two client states show the same scene: same current map and map record,
same actors with the same positions, same set of visible POIs. -/
def Snapshot.sameScene (a b : Snapshot) : Prop :=
  a.currentMap = b.currentMap ∧ a.map = b.map ∧ a.actors = b.actors ∧
    ∀ p, p ∈ a.visiblePOIs ↔ p ∈ b.visiblePOIs

/-- Shape of the states the store builds: records carry their own key as
`id`, every visible id is a stored POI, a position table has each actor once,
the current map is not the empty id, and the ids the connect snapshot looks up
(the current map and the actors of the position tables) are plain. -/
structure SceneWF (s : GameState) : Prop where
  poiIds : ∀ k p, s.pointsOfInterest.get? k = some p → p.id = k
  actorIds : ∀ k a, s.actors.get? k = some a → a.id = k
  visibleStored : ∀ id, id ∈ s.visiblePOIs → ∃ p, s.pointsOfInterest.get? id = some p
  tablesNodup : ∀ m t, s.actorPositions.get? m = some t → (Dict.keys t).Nodup
  currentNonempty : s.currentMap ≠ some ""
  currentPlain : ∀ cm, s.currentMap = some cm → plainId cm = true
  tablesPlain : ∀ m t, s.actorPositions.get? m = some t → ∀ a ∈ Dict.keys t, plainId a = true

/-- Whether the actor has a binding on the current map. -/
def onCurrentMap (s : GameState) (actorId : String) : Bool :=
  match s.currentMap with
  | some cm => ((s.actorPositions.get? cm).bind (fun t => t.get? actorId)).isSome
  | none => false

/-- The requests after which the client replica agrees with a fresh snapshot:
`setCurrentMap` (the route parameter is not empty), `setPOIVisibility`,
`deleteActor`, `createPOI` with an unused id, and `setActorPosition` when it
moves an actor already on the current map within that map, or places on
another map an actor that is not on the current one. -/
def Op.replicaSafe (s : GameState) : Op → Prop
  | .setCurrentMap mapId => mapId ≠ ""
  | .setPOIVisibility _ _ => True
  | .deleteActor _ => True
  | .createPOI poiId _ _ _ _ _ _ _ => s.pointsOfInterest.get? poiId = none
  | .setActorPosition actorId mapId _ _ =>
    (s.currentMap = some mapId ∧ onCurrentMap s actorId = true) ∨
    (s.currentMap ≠ some mapId ∧ onCurrentMap s actorId = false)
  | _ => False

/-- The sample scene with the actor not yet placed on the current map. -/
def sceneUnplaced : GameState :=
  { sceneTwoMaps with actorPositions := [("forest", [("rogue", ⟨2, 2⟩)])] }

/-! ## Position bindings -/

/-- The read `actorPositions[mapId][actorId]`: `none` when the map has no
position table or the table has no entry for the actor. -/
def binding (s : GameState) (mapId actorId : String) : Option Pos :=
  (s.actorPositions.get? mapId).bind (fun t => t.get? actorId)

/-- Whether a request is one of the store operations proper, the bulk import
left out. -/
def Op.isStoreOp : Op → Bool
  | .importState _ => false
  | _ => true

/-- Every position binding refers to a stored map and a stored actor. -/
def BindingsRefer (s : GameState) : Prop :=
  ∀ m a pos, binding s m a = some pos →
    (s.maps.get? m).isSome = true ∧ (s.actors.get? a).isSome = true

/-- Every position table lists an actor at most once. -/
def TablesNodup (s : GameState) : Prop :=
  ∀ m t, s.actorPositions.get? m = some t → (Dict.keys t).Nodup

/-- Two maps and one actor, the actor placed on the first map. -/
def placeOnFirstMap : List (Env × Op) :=
  [(Env.healthy, .createMap "dungeon" "t0" (.str "Dungeon") (some "20") (some "20") none),
   (Env.healthy, .createMap "forest" "t1" (.str "Forest") (some "30") (some "10") none),
   (Env.healthy, .createActor "rogue" "t2" (.str "Rogue") .undefined .undefined),
   (Env.healthy, .setActorPosition "rogue" "dungeon" 0 0)]

/-- The same run, with the actor then placed on the second map. -/
def placeOnTwoMaps : List (Env × Op) :=
  placeOnFirstMap ++ [(Env.healthy, .setActorPosition "rogue" "forest" 2 2)]

/-! ## Fog settings on the server -/

/-- Whether a stored vision radius is an integer between 2 and 10. -/
def radiusInRange (visionRadius : JsVal) : Bool :=
  match visionRadius with
  | .num n => decide (2 ≤ n) && decide (n ≤ 10)
  | _ => false

/-- Whether a message, if it is a fog-settings update, carries a vision radius
that is an integer between 2 and 10. -/
def SocketMsg.radiusOk : SocketMsg → Bool
  | .dmUpdateFogSettings settings => radiusInRange settings.visionRadius
  | _ => true

/-- A server in its initial state with one session, `"viewer"`, that joined as
player and none that joined as director. -/
def hubOneViewer : Hub :=
  { game := GameState.initial, rooms := [("players", "viewer")] }

/-! ## POI icons (`MapGrid.jsx`) -/

/-- The function `getPOITypeIcon(type)` of `MapGrid`; the icon literals are
the ones of the source file (three of them start with the character U+F8FF). -/
def getPOITypeIcon (type : JsVal) : String :=
  if type = .str "treasure" then "\uF8FFüí∞"
  else if type = .str "enemy" then "‚öîÔ∏è"
  else if type = .str "npc" then "\uF8FFüë§"
  else "\uF8FFüìç"

/-- The scenario of the specification up to the creation of the chest: a 20 by
20 map "Dungeon", an actor "Rogue" placed at (0,0), a POI "Chest" at (3,3) of
type treasure. -/
def chestScenario : List (Env × Op) :=
  [(Env.healthy, .createMap "dungeon" "t0" (.str "Dungeon") (some "20") (some "20") none),
   (Env.healthy, .createActor "rogue" "t1" (.str "Rogue") .undefined .undefined),
   (Env.healthy, .setActorPosition "rogue" "dungeon" 0 0),
   (Env.healthy, .createPOI "chest" "t2" "dungeon" (.str "Chest") 3 3 (.str "")
      (.str "treasure"))]

/-- The chest of the scenario once made visible. -/
def visibleChest : POI :=
  { id := "chest", mapId := "dungeon", name := .str "Chest", x := 3, y := 3,
    description := .str "", type := .str "treasure", visible := .bool true, createdAt := "t2" }

/-! ## Rendering on the client (`MapGrid.jsx`) -/

/-- The POIs `MapGrid` draws: `pois.filter(poi => isVisibleToPlayers(poi.x, poi.y))`. -/
def renderedPOIs (isDM : Bool) (fogSettings : Option FogProps) (actors : List ActorOnMap)
    (pois : List POI) : List POI :=
  pois.filter (fun poi => isVisibleToPlayers isDM fogSettings actors poi.x poi.y)

/-! ## The upload stage (`multer`) -/

/-- A file part of a multipart request: its content type as the upload stage
reports it in `file.mimetype`, its size in bytes, and what `JSON.parse` makes
of its content. -/
structure UploadedFile where
  mimetype : String
  size : Nat
  parsed : Option StateDoc
  deriving DecidableEq, Repr

/-- The `fileFilter` of the one `upload` instance: `file.mimetype.startsWith('image/')`. -/
def fileFilter (mimetype : String) : Bool :=
  "image/".toList.isPrefixOf mimetype.toList

/-- The `limits.fileSize` of the `upload` instance: 10 MB. -/
def maxFileSize : Nat := 10 * 1024 * 1024

/-- The route `POST /api/import` as a whole: `upload.single('gameStateFile')`
and then the handler. A file that the filter refuses or that is too large
makes the middleware fail, the handler is not run and Express answers 500.
The upload stage stops a file once it has read `fileSize` bytes of it, so a
file of exactly that size is refused as well. -/
def importEndpoint (env : Env) (s : GameState) (file : Option UploadedFile) :
    Outcome ImportSummary :=
  match file with
  | none => importState env s .missing
  | some f =>
    if !fileFilter f.mimetype then
      { state := s, effects := [], response := .error 500 "Only image files are allowed!" }
    else if f.size ≥ maxFileSize then
      { state := s, effects := [], response := .error 500 "File too large" }
    else importState env s (.file f.parsed)

/-- Two maps and a placed actor, then the first map made current and deleted,
then the second map made current. -/
def currentMapRun : List (Env × Op) :=
  placeOnTwoMaps ++
    [(Env.healthy, .setCurrentMap "dungeon"), (Env.healthy, .deleteMap "dungeon"),
     (Env.healthy, .setCurrentMap "forest")]

/-- The id that `uuidv4` returned to `createMap` is not the empty string. -/
def Op.nonemptyMapId : Op → Bool
  | .createMap mapId _ _ _ _ _ => mapId != ""
  | _ => true

/-! ## Lemmas on dictionaries and sets -/

namespace Dict

variable {α : Type}

@[simp] theorem get?_nil (k : String) : get? ([] : Dict α) k = none := rfl

theorem get?_cons (k' : String) (v : α) (rest : Dict α) (k : String) :
    get? ((k', v) :: rest) k = if k' = k then some v else get? rest k := rfl

@[simp] theorem get?_set_self (d : Dict α) (k : String) (v : α) :
    get? (set d k v) k = some v := by
  induction d with
  | nil => simp [set, get?_cons]
  | cons e rest ih =>
    obtain ⟨k', v'⟩ := e
    by_cases h : k' = k
    · simp [set, h, get?_cons]
    · simp [set, h, get?_cons, ih]

theorem get?_set_ne (d : Dict α) {k k2 : String} (v : α) (h : k ≠ k2) :
    get? (set d k v) k2 = get? d k2 := by
  induction d with
  | nil => simp [set, get?_cons, h]
  | cons e rest ih =>
    obtain ⟨k', v'⟩ := e
    by_cases h1 : k' = k
    · subst h1
      simp [set, get?_cons, h]
    · simp [set, h1, get?_cons, ih]

theorem get?_set (d : Dict α) (k k2 : String) (v : α) :
    get? (set d k v) k2 = if k = k2 then some v else get? d k2 := by
  by_cases h : k = k2
  · subst h
    simp
  · simp [h, get?_set_ne d v h]

@[simp] theorem get?_del_self (d : Dict α) (k : String) : get? (del d k) k = none := by
  induction d with
  | nil => rfl
  | cons e rest ih =>
    obtain ⟨k', v'⟩ := e
    by_cases h : k' = k
    · simpa [del, h] using ih
    · simp [del, h, get?_cons, ih]

theorem get?_del_ne (d : Dict α) {k k2 : String} (h : k ≠ k2) :
    get? (del d k) k2 = get? d k2 := by
  induction d with
  | nil => rfl
  | cons e rest ih =>
    obtain ⟨k', v'⟩ := e
    by_cases h1 : k' = k
    · subst h1
      simp [del, get?_cons, h, ih]
    · simp [del, h1, get?_cons, ih]

theorem get?_del (d : Dict α) (k k2 : String) :
    get? (del d k) k2 = if k = k2 then none else get? d k2 := by
  by_cases h : k = k2
  · subst h
    simp
  · simp [h, get?_del_ne d h]

theorem mem_keys_of_get? {d : Dict α} {k : String} {v : α} (h : get? d k = some v) :
    k ∈ keys d := by
  induction d with
  | nil => simp at h
  | cons e rest ih =>
    obtain ⟨k', v'⟩ := e
    by_cases h1 : k' = k
    · simp [keys, h1]
    · simp only [get?_cons, h1, if_false] at h
      have := ih h
      simp only [keys] at this
      simp [keys, this]

theorem get?_eq_none_of_not_mem_keys {d : Dict α} {k : String} (h : k ∉ keys d) :
    get? d k = none := by
  cases hg : get? d k with
  | none => rfl
  | some v => exact absurd (mem_keys_of_get? hg) h

theorem mem_of_get? {d : Dict α} {k : String} {v : α} (h : get? d k = some v) :
    (k, v) ∈ d := by
  induction d with
  | nil => simp at h
  | cons e rest ih =>
    obtain ⟨k', v'⟩ := e
    by_cases h1 : k' = k
    · simp only [get?_cons, h1, if_true, Option.some.injEq] at h
      simp [h1, h]
    · simp only [get?_cons, h1, if_false] at h
      exact List.mem_cons_of_mem _ (ih h)

end Dict

theorem mem_setAdd (s : List String) (id x : String) :
    x ∈ setAdd s id ↔ x ∈ s ∨ x = id := by
  unfold setAdd
  split
  · constructor
    · exact Or.inl
    · rintro (h | h)
      · exact h
      · subst h
        assumption
  · simp

theorem mem_setDelete (s : List String) (id x : String) :
    x ∈ setDelete s id ↔ x ∈ s ∧ x ≠ id := by
  simp [setDelete]

theorem mem_foldl_setAdd (xs acc : List String) (x : String) :
    x ∈ xs.foldl setAdd acc ↔ x ∈ acc ∨ x ∈ xs := by
  induction xs generalizing acc with
  | nil => simp
  | cons y ys ih =>
    simp only [List.foldl_cons, ih, mem_setAdd, List.mem_cons]
    tauto

theorem mem_setOfArray (xs : List String) (x : String) : x ∈ setOfArray xs ↔ x ∈ xs := by
  simp [setOfArray, mem_foldl_setAdd]

/-! ## Lemmas on the fog test -/

theorem roundToDouble_of_lt {n : Nat} (h : n < 2 ^ 53) : roundToDouble n = n := by
  unfold roundToDouble
  rw [if_pos h]

/-- The rounding of the model on the first integer that is not a double:
2^53 + 1 is read as 2^53. -/
theorem roundToDouble_first_inexact : roundToDouble 9007199254740993 = 9007199254740992 := by
  have hlog : Nat.log 2 9007199254740993 = 53 := by
    rw [Nat.log_eq_iff (by decide)]
    norm_num
  unfold roundToDouble
  rw [if_neg (by norm_num)]
  simp only [hlog]
  norm_num

/-- The comparison of `sqrtAtMost` over the reals: for `r ≥ 1` it holds exactly
when the real square root of `d` lies below `r + 1 / 2^(53 - e)`, the midpoint
between `r` and the next double, where `2^e ≤ r < 2^(e+1)`. -/
theorem sqrtAtMost_iff_sqrt (d r : Nat) (hr : r ≠ 0) :
    sqrtAtMost d r = true ↔
      Real.sqrt (d : ℝ) < (r : ℝ) + 1 / 2 ^ (53 - Nat.log 2 r) := by
  unfold sqrtAtMost
  simp only [hr, if_false, decide_eq_true_eq]
  generalize 53 - Nat.log 2 r = k
  have hpos : (0 : ℝ) < (r : ℝ) + 1 / 2 ^ k := by positivity
  rw [Real.sqrt_lt' hpos]
  have h4 : ((4 : ℝ)) ^ k = (2 ^ k) ^ 2 := by
    rw [← pow_mul, mul_comm, pow_mul]; norm_num
  have hexp : ((r : ℝ) + 1 / 2 ^ k) ^ 2 = ((r : ℝ) * 2 ^ k + 1) ^ 2 / (2 ^ k) ^ 2 := by
    field_simp
  rw [hexp, lt_div_iff₀ (by positivity), ← h4]
  constructor
  · intro h
    have : ((d * 4 ^ k : Nat) : ℝ) < (((r * 2 ^ k + 1) ^ 2 : Nat) : ℝ) := by exact_mod_cast h
    push_cast at this
    exact this
  · intro h
    have : ((d * 4 ^ k : Nat) : ℝ) < (((r * 2 ^ k + 1) ^ 2 : Nat) : ℝ) := by
      push_cast
      exact h
    exact_mod_cast this

/-- Below 2^26 the rounded root is at most `r` exactly when `d ≤ r²`: the
midpoint above `r` is closer to `r` than the root of `r² + 1`. -/
theorem sqrtAtMost_iff_of_small (d r : Nat) (hr : r < 2 ^ 26) :
    sqrtAtMost d r = true ↔ d ≤ r * r := by
  unfold sqrtAtMost
  by_cases h0 : r = 0
  · subst h0; simp
  · simp only [h0, if_false, decide_eq_true_eq]
    have hlo : 2 ^ Nat.log 2 r ≤ r := Nat.pow_log_le_self 2 h0
    have hhi : r < 2 ^ (Nat.log 2 r + 1) := Nat.lt_pow_succ_log_self (by decide) r
    have he : Nat.log 2 r < 26 := by
      by_contra hge
      have : 2 ^ 26 ≤ 2 ^ Nat.log 2 r := Nat.pow_le_pow_right (by decide) (by omega)
      omega
    obtain ⟨k, hk⟩ : ∃ k, 53 - Nat.log 2 r = k := ⟨_, rfl⟩
    rw [hk]
    have hK : 2 * r + 1 ≤ 2 ^ k := by
      have h1 : 2 ^ (Nat.log 2 r + 2) ≤ 2 ^ k := Nat.pow_le_pow_right (by decide) (by omega)
      have h2 : 2 ^ (Nat.log 2 r + 2) = 2 * 2 ^ (Nat.log 2 r + 1) := by ring
      omega
    have h4 : (4 : Nat) ^ k = 2 ^ k * 2 ^ k := by
      rw [← Nat.mul_pow]
    rw [h4]
    generalize (2 : Nat) ^ k = K at hK ⊢
    constructor
    · intro h
      by_contra hlt
      have hd : r * r + 1 ≤ d := by omega
      have : (r * r + 1) * (K * K) ≤ d * (K * K) := Nat.mul_le_mul_right _ hd
      nlinarith
    · intro h
      have : d * (K * K) ≤ r * r * (K * K) := Nat.mul_le_mul_right _ h
      nlinarith

/-- The rounded-root test is monotone in the radius. -/
theorem sqrtAtMost_mono (d : Nat) {r r2 : Nat} (hr : r ≤ r2) (h : sqrtAtMost d r = true) :
    sqrtAtMost d r2 = true := by
  unfold sqrtAtMost at h ⊢
  by_cases h0 : r = 0
  · subst h0
    simp only [if_true, decide_eq_true_eq] at h
    subst h
    by_cases h2 : r2 = 0
    · simp [h2]
    · simp [h2]
  · have h2 : r2 ≠ 0 := by omega
    simp only [h0, h2, if_false, decide_eq_true_eq] at h ⊢
    have hlog : Nat.log 2 r ≤ Nat.log 2 r2 := Nat.log_mono_right hr
    obtain ⟨k, hk⟩ : ∃ k, 53 - Nat.log 2 r = k := ⟨_, rfl⟩
    obtain ⟨k2, hk2⟩ : ∃ k2, 53 - Nat.log 2 r2 = k2 := ⟨_, rfl⟩
    rw [hk] at h
    rw [hk2]
    have hkk : k2 ≤ k := by omega
    obtain ⟨m, rfl⟩ : ∃ m, k = k2 + m := ⟨k - k2, by omega⟩
    have h4 : (4 : Nat) ^ (k2 + m) = 4 ^ k2 * (2 ^ m) ^ 2 := by
      rw [pow_add, ← pow_mul, mul_comm m 2, pow_mul]; norm_num
    have hM : 1 ≤ 2 ^ m := Nat.one_le_two_pow
    have hle : r * 2 ^ (k2 + m) + 1 ≤ (r2 * 2 ^ k2 + 1) * 2 ^ m := by
      rw [pow_add]
      have : r * (2 ^ k2 * 2 ^ m) ≤ r2 * (2 ^ k2 * 2 ^ m) := Nat.mul_le_mul_right _ hr
      nlinarith
    have hsq : (r * 2 ^ (k2 + m) + 1) ^ 2 ≤ ((r2 * 2 ^ k2 + 1) * 2 ^ m) ^ 2 :=
      Nat.pow_le_pow_left hle 2
    have hlt : d * 4 ^ k2 * (2 ^ m) ^ 2 < (r2 * 2 ^ k2 + 1) ^ 2 * (2 ^ m) ^ 2 := by
      calc d * 4 ^ k2 * (2 ^ m) ^ 2 = d * 4 ^ (k2 + m) := by rw [h4]; ring
        _ < (r * 2 ^ (k2 + m) + 1) ^ 2 := h
        _ ≤ ((r2 * 2 ^ k2 + 1) * 2 ^ m) ^ 2 := hsq
        _ = (r2 * 2 ^ k2 + 1) ^ 2 * (2 ^ m) ^ 2 := by ring
    exact Nat.lt_of_mul_lt_mul_right hlt

/-- The fog test is monotone in the radius. -/
theorem distanceWithin_mono (dx dy : Int) {r r2 : Int} (hr : r ≤ r2)
    (h : distanceWithin dx dy r = true) : distanceWithin dx dy r2 = true := by
  simp only [distanceWithin, Bool.and_eq_true, decide_eq_true_eq] at h ⊢
  exact ⟨by omega, sqrtAtMost_mono _ (Int.toNat_le_toNat hr) h.2⟩

/-- While the differences and the radius stay below 2^26, the fog test is the
comparison of squares. -/
theorem distanceWithin_iff_of_small (dx dy r : Int) (hx : |dx| < 2 ^ 26) (hy : |dy| < 2 ^ 26)
    (hr : r < 2 ^ 26) :
    distanceWithin dx dy r = true ↔ 0 ≤ r ∧ dx * dx + dy * dy ≤ r * r := by
  have hxn : dx.natAbs < 2 ^ 26 := by
    have : (dx.natAbs : Int) < 2 ^ 26 := by rw [Int.natCast_natAbs]; exact hx
    exact_mod_cast this
  have hyn : dy.natAbs < 2 ^ 26 := by
    have : (dy.natAbs : Int) < 2 ^ 26 := by rw [Int.natCast_natAbs]; exact hy
    exact_mod_cast this
  have hxx : dx.natAbs * dx.natAbs < 2 ^ 52 := by
    calc dx.natAbs * dx.natAbs ≤ dx.natAbs * 2 ^ 26 := Nat.mul_le_mul_left _ hxn.le
      _ < 2 ^ 26 * 2 ^ 26 := Nat.mul_lt_mul_of_pos_right hxn (by positivity)
      _ = 2 ^ 52 := by norm_num
  have hyy : dy.natAbs * dy.natAbs < 2 ^ 52 := by
    calc dy.natAbs * dy.natAbs ≤ dy.natAbs * 2 ^ 26 := Nat.mul_le_mul_left _ hyn.le
      _ < 2 ^ 26 * 2 ^ 26 := Nat.mul_lt_mul_of_pos_right hyn (by positivity)
      _ = 2 ^ 52 := by norm_num
  have e1 : roundToDouble dx.natAbs = dx.natAbs := roundToDouble_of_lt (by omega)
  have e2 : roundToDouble dy.natAbs = dy.natAbs := roundToDouble_of_lt (by omega)
  have e3 : roundToDouble (dx.natAbs * dx.natAbs) = dx.natAbs * dx.natAbs :=
    roundToDouble_of_lt (by omega)
  have e4 : roundToDouble (dy.natAbs * dy.natAbs) = dy.natAbs * dy.natAbs :=
    roundToDouble_of_lt (by omega)
  have e5 : roundToDouble (dx.natAbs * dx.natAbs + dy.natAbs * dy.natAbs)
      = dx.natAbs * dx.natAbs + dy.natAbs * dy.natAbs := roundToDouble_of_lt (by omega)
  simp only [distanceWithin, e1, e2, e3, e4, e5, Bool.and_eq_true, decide_eq_true_eq]
  constructor
  · rintro ⟨h0, h⟩
    refine ⟨h0, ?_⟩
    rw [sqrtAtMost_iff_of_small _ _ (by omega)] at h
    have hz : ((dx.natAbs * dx.natAbs + dy.natAbs * dy.natAbs : Nat) : Int)
        ≤ ((r.toNat * r.toNat : Nat) : Int) := by exact_mod_cast h
    push_cast at hz
    rw [Int.toNat_of_nonneg h0, abs_mul_abs_self, abs_mul_abs_self] at hz
    exact hz
  · rintro ⟨h0, h⟩
    refine ⟨h0, ?_⟩
    rw [sqrtAtMost_iff_of_small _ _ (by omega)]
    have hz : ((dx.natAbs * dx.natAbs + dy.natAbs * dy.natAbs : Nat) : Int)
        ≤ ((r.toNat * r.toNat : Nat) : Int) := by
      push_cast
      rw [Int.toNat_of_nonneg h0, abs_mul_abs_self, abs_mul_abs_self]
      exact h
    exact_mod_cast hz

theorem log_two_pow_26 : Nat.log 2 67108864 = 26 := by
  rw [Nat.log_eq_iff (by decide)]
  norm_num

/-- At radius 2^26 the rounded root of 2^52 + 1 is 2^26. -/
theorem sqrtAtMost_at_limit : sqrtAtMost 4503599627370497 67108864 = true := by
  unfold sqrtAtMost
  rw [if_neg (by norm_num), log_two_pow_26]
  norm_num

theorem distanceWithin_at_limit : distanceWithin (-67108864) (-1) 67108864 = true := by
  have e1 : roundToDouble 67108864 = 67108864 := roundToDouble_of_lt (by norm_num)
  have e2 : roundToDouble 1 = 1 := roundToDouble_of_lt (by norm_num)
  have e3 : roundToDouble 4503599627370496 = 4503599627370496 := roundToDouble_of_lt (by norm_num)
  have e4 : roundToDouble 4503599627370497 = 4503599627370497 := roundToDouble_of_lt (by norm_num)
  have n1 : Int.natAbs (-67108864) = 67108864 := by norm_num
  have n2 : Int.natAbs (-1) = 1 := by norm_num
  have n3 : Int.toNat 67108864 = 67108864 := rfl
  have m1 : 67108864 * 67108864 = 4503599627370496 := by norm_num
  have m2 : 4503599627370496 + 1 = 4503599627370497 := by norm_num
  unfold distanceWithin
  simp only [n1, n2, n3, e1, e2, m1, Nat.mul_one, e3, m2, e4, sqrtAtMost_at_limit]
  decide

/-- C1, in the form that holds: for a viewer with fog enabled, cells and
actors at integer coordinates of absolute value below 2^25 and an integer
radius `0 ≤ r < 2^26`, a cell is disclosed exactly when some actor of the list
is within straight-line distance `r` of it, boundary included:
`(ax - x)² + (ay - y)² ≤ r²`. -/
theorem C1_isVisibleToPlayers_iff (fogEnabled : JsVal) (r x y : Int)
    (actors : List ActorOnMap) (hfog : fogEnabled.truthy = true) (hr : 0 ≤ r)
    (hr2 : r < 2 ^ 26) (hx : |x| < 2 ^ 25) (hy : |y| < 2 ^ 25)
    (hactors : ∀ a ∈ actors, |a.x| < 2 ^ 25 ∧ |a.y| < 2 ^ 25) :
    isVisibleToPlayers false (some { fogEnabled := fogEnabled, visionRadius := r }) actors x y
        = true ↔
      ∃ a ∈ actors, (a.x - x) ^ 2 + (a.y - y) ^ 2 ≤ r ^ 2 := by
  simp only [isVisibleToPlayers, effectiveFogSettings, Option.getD_some, hfog, Bool.not_true,
    Bool.or_self, Bool.false_eq_true, if_false, List.any_eq_true]
  have hsmall : ∀ a ∈ actors, |a.x - x| < 2 ^ 26 ∧ |a.y - y| < 2 ^ 26 := by
    intro a ha
    obtain ⟨h1, h2⟩ := hactors a ha
    have hx1 := abs_lt.mp hx
    have hy1 := abs_lt.mp hy
    have h11 := abs_lt.mp h1
    have h21 := abs_lt.mp h2
    constructor
    · rw [abs_lt]
      constructor <;> norm_num at * <;> omega
    · rw [abs_lt]
      constructor <;> norm_num at * <;> omega
  constructor
  · rintro ⟨a, ha, h⟩
    obtain ⟨h1, h2⟩ := hsmall a ha
    rw [distanceWithin_iff_of_small _ _ _ h1 h2 hr2] at h
    exact ⟨a, ha, by simpa [pow_two] using h.2⟩
  · rintro ⟨a, ha, h⟩
    obtain ⟨h1, h2⟩ := hsmall a ha
    refine ⟨a, ha, ?_⟩
    rw [distanceWithin_iff_of_small _ _ _ h1 h2 hr2]
    exact ⟨hr, by simpa [pow_two] using h⟩

/-- C1 at the cells of the specification: an actor at (5,5) with radius 5
discloses (10,5) and not (11,5); an actor at (0,0) with radius 2 does not
disclose (5,5). -/
theorem C1_isVisibleToPlayers_witness :
    isVisibleToPlayers false (some { fogEnabled := .bool true, visionRadius := 5 })
        [sampleActorAt 5 5] 10 5 = true ∧
    isVisibleToPlayers false (some { fogEnabled := .bool true, visionRadius := 5 })
        [sampleActorAt 5 5] 11 5 = false ∧
    isVisibleToPlayers false (some { fogEnabled := .bool true, visionRadius := 2 })
        [sampleActorAt 0 0] 5 5 = false := by
  have hb5 : ∀ a ∈ [sampleActorAt 5 5], |a.x| < (2 : Int) ^ 25 ∧ |a.y| < (2 : Int) ^ 25 := by
    intro a ha
    rw [List.mem_singleton] at ha
    subst ha
    constructor <;> simp [sampleActorAt, abs_lt]
  have hb0 : ∀ a ∈ [sampleActorAt 0 0], |a.x| < (2 : Int) ^ 25 ∧ |a.y| < (2 : Int) ^ 25 := by
    intro a ha
    rw [List.mem_singleton] at ha
    subst ha
    constructor <;> simp [sampleActorAt]
  refine ⟨?_, ?_, ?_⟩
  · exact (C1_isVisibleToPlayers_iff (.bool true) 5 10 5 [sampleActorAt 5 5] rfl
      (by decide) (by decide) (by simp [abs_lt]) (by simp [abs_lt]) hb5).mpr
      ⟨sampleActorAt 5 5, List.mem_singleton.mpr rfl, by decide⟩
  · rw [Bool.eq_false_iff]
    intro h
    obtain ⟨a, ha, hle⟩ := (C1_isVisibleToPlayers_iff (.bool true) 5 11 5 [sampleActorAt 5 5] rfl
      (by decide) (by decide) (by simp [abs_lt]) (by simp [abs_lt]) hb5).mp h
    rw [List.mem_singleton] at ha
    subst ha
    revert hle
    decide
  · rw [Bool.eq_false_iff]
    intro h
    obtain ⟨a, ha, hle⟩ := (C1_isVisibleToPlayers_iff (.bool true) 2 5 5 [sampleActorAt 0 0] rfl
      (by decide) (by decide) (by simp [abs_lt]) (by simp [abs_lt]) hb0).mp h
    rw [List.mem_singleton] at ha
    subst ha
    revert hle
    decide

/-- C1, counterexample to the specification's statement: with the radius
2^26 = 67108864 an actor at (0,0) discloses the cell (67108864, 1), although
its squared distance 2^52 + 1 exceeds the squared radius 2^52: the double
nearest to the square root of 2^52 + 1 is 2^26 itself. -/
theorem C1_rounded_root_discloses :
    isVisibleToPlayers false (some { fogEnabled := .bool true, visionRadius := 67108864 })
        [sampleActorAt 0 0] 67108864 1 = true ∧
    ¬ ∃ a ∈ [sampleActorAt 0 0],
        (a.x - 67108864) ^ 2 + (a.y - 1) ^ 2 ≤ (67108864 : Int) ^ 2 := by
  constructor
  · simp only [isVisibleToPlayers, effectiveFogSettings, Option.getD_some, JsVal.truthy,
      Bool.not_true, Bool.or_self, Bool.false_eq_true, if_false, List.any_eq_true]
    refine ⟨sampleActorAt 0 0, List.mem_singleton.mpr rfl, ?_⟩
    exact distanceWithin_at_limit
  · rintro ⟨a, ha, h⟩
    rw [List.mem_singleton] at ha
    subst ha
    revert h
    decide

/-! ## The `visiblePOIs` invariant -/

theorem deleteMapPOI_foldl_get? (m : String) (ks : List String) (P : Dict POI)
    (V : List String) (id : String) (p : POI) :
    (ks.foldl (deleteMapPOI m) (P, V)).1.get? id = some p ↔
      P.get? id = some p ∧ ¬ (id ∈ ks ∧ p.mapId = m) := by
  induction ks generalizing P V with
  | nil => simp
  | cons k ks ih =>
    rw [List.foldl_cons]
    cases hk : P.get? k with
    | none =>
      have hstep : deleteMapPOI m (P, V) k = (P, V) := by simp [deleteMapPOI, hk]
      rw [hstep, ih]
      by_cases hid : id = k
      · subst hid
        simp [hk]
      · simp [hid]
    | some q =>
      by_cases hq : q.mapId = m
      · have hstep : deleteMapPOI m (P, V) k = (P.del k, setDelete V k) := by
          simp [deleteMapPOI, hk, hq]
        rw [hstep, ih]
        by_cases hid : id = k
        · subst hid
          simp only [Dict.get?_del_self, hk, Option.some.injEq, List.mem_cons,
            true_or, true_and]
          constructor
          · rintro ⟨h, -⟩
            cases h
          · rintro ⟨rfl, h⟩
            exact absurd hq h
        · rw [Dict.get?_del_ne _ (Ne.symm hid)]
          simp [hid]
      · have hstep : deleteMapPOI m (P, V) k = (P, V) := by simp [deleteMapPOI, hk, hq]
        rw [hstep, ih]
        by_cases hid : id = k
        · subst hid
          simp only [hk, Option.some.injEq, List.mem_cons, true_or, true_and, not_and]
          constructor
          · rintro ⟨rfl, -⟩
            exact ⟨rfl, hq⟩
          · rintro ⟨rfl, -⟩
            exact ⟨rfl, fun _ => hq⟩
        · simp [hid]

theorem deleteMapPOI_foldl_mem (m : String) (ks : List String) (P : Dict POI)
    (V : List String) (id : String) :
    id ∈ (ks.foldl (deleteMapPOI m) (P, V)).2 ↔
      id ∈ V ∧ ¬ (id ∈ ks ∧ ∃ p, P.get? id = some p ∧ p.mapId = m) := by
  induction ks generalizing P V with
  | nil => simp
  | cons k ks ih =>
    rw [List.foldl_cons]
    cases hk : P.get? k with
    | none =>
      have hstep : deleteMapPOI m (P, V) k = (P, V) := by simp [deleteMapPOI, hk]
      rw [hstep, ih]
      by_cases hid : id = k
      · subst hid
        simp [hk]
      · simp [hid]
    | some q =>
      by_cases hq : q.mapId = m
      · have hstep : deleteMapPOI m (P, V) k = (P.del k, setDelete V k) := by
          simp [deleteMapPOI, hk, hq]
        rw [hstep, ih, mem_setDelete]
        by_cases hid : id = k
        · subst hid
          simp [hk, hq]
        · rw [Dict.get?_del_ne _ (Ne.symm hid)]
          simp [hid]
      · have hstep : deleteMapPOI m (P, V) k = (P, V) := by simp [deleteMapPOI, hk, hq]
        rw [hstep, ih]
        by_cases hid : id = k
        · subst hid
          simp [hk, hq]
        · simp [hid]

theorem visibleInv_of_eq {s s1 : GameState} (hP : s1.pointsOfInterest = s.pointsOfInterest)
    (hV : s1.visiblePOIs = s.visiblePOIs) (h : VisiblePOIsInv s) : VisiblePOIsInv s1 := by
  intro id
  rw [hP, hV]
  exact h id

theorem visibleInv_initial : VisiblePOIsInv GameState.initial := by
  intro id
  simp [GameState.initial]

theorem visibleInv_createPOI (env : Env) (s : GameState) (poiId now mapId : String)
    (name : JsVal) (x y : Int) (description type : JsVal)
    (hfresh : s.pointsOfInterest.get? poiId = none) (h : VisiblePOIsInv s) :
    VisiblePOIsInv (createPOI env s poiId now mapId name x y description type).state := by
  intro id
  simp only [createPOI, Dict.get?_set]
  by_cases hid : poiId = id
  · subst hid
    simp only [if_true, Option.some.injEq]
    rw [h poiId, hfresh]
    constructor
    · rintro ⟨poi, hp, -⟩
      cases hp
    · rintro ⟨poi, hp, hv⟩
      subst hp
      cases hv
  · simp only [hid, if_false]
    exact h id

theorem visibleInv_setPOIVisibility (env : Env) (s : GameState) (poiId : String) (b : Bool)
    (h : VisiblePOIsInv s) :
    VisiblePOIsInv (setPOIVisibility env s poiId (.bool b)).state := by
  unfold setPOIVisibility
  cases hp : s.pointsOfInterest.get? poiId with
  | none => exact h
  | some poi =>
    intro id
    simp only [Dict.get?_set, JsVal.truthy]
    by_cases hid : poiId = id
    · subst hid
      cases b
      · simp [mem_setDelete]
      · simp [mem_setAdd]
    · simp only [hid, if_false]
      rw [← h id]
      cases b
      · simp [mem_setDelete, Ne.symm hid]
      · simp [mem_setAdd, Ne.symm hid]

theorem visibleInv_deleteMap (env : Env) (s : GameState) (mapId : String)
    (h : VisiblePOIsInv s) : VisiblePOIsInv (deleteMap env s mapId).state := by
  unfold deleteMap
  cases hm : s.maps.get? mapId with
  | none => exact h
  | some map =>
    intro id
    simp only [deleteMapPOI_foldl_mem, deleteMapPOI_foldl_get?]
    constructor
    · rintro ⟨hV, hn⟩
      obtain ⟨poi, hp, hv⟩ := (h id).mp hV
      exact ⟨poi, ⟨hp, fun hk => hn ⟨hk.1, poi, hp, hk.2⟩⟩, hv⟩
    · rintro ⟨poi, ⟨hp, hn⟩, hv⟩
      refine ⟨(h id).mpr ⟨poi, hp, hv⟩, ?_⟩
      rintro ⟨hk, q, hq, hqm⟩
      rw [hp] at hq
      cases hq
      exact hn ⟨hk, hqm⟩

theorem visibleInv_importState (env : Env) (s : GameState) (upload : Upload)
    (hdoc : ∀ doc, upload = .file (some doc) → doc.visibleConsistent) (h : VisiblePOIsInv s) :
    VisiblePOIsInv (importState env s upload).state := by
  unfold importState
  cases upload with
  | missing => exact h
  | file parsed =>
    cases parsed with
    | none => exact h
    | some doc =>
      have hc := hdoc doc rfl
      dsimp only
      split
      · exact h
      · split
        · exact h
        · split <;>
          · intro id
            simp only [mem_setOfArray]
            exact hc id

theorem visibleInv_run (env : Env) (s : GameState) (op : Op) (hok : op.keepsVisible s)
    (h : VisiblePOIsInv s) : VisiblePOIsInv (op.run env s).state := by
  cases op with
  | createMap mapId now name w ht file => exact visibleInv_of_eq rfl rfl h
  | createPOI poiId now mapId name x y d t =>
    exact visibleInv_createPOI env s poiId now mapId name x y d t hok h
  | setPOIVisibility poiId visible =>
    obtain ⟨b, rfl⟩ := hok
    exact visibleInv_setPOIVisibility env s poiId b h
  | setCurrentMap mapId =>
    simp only [Op.run, Outcome.step, setCurrentMap]
    cases s.maps.get? mapId <;> exact h
  | deleteMap mapId => exact visibleInv_deleteMap env s mapId h
  | createActor actorId now name color icon => exact visibleInv_of_eq rfl rfl h
  | deleteActor actorId =>
    simp only [Op.run, Outcome.step, deleteActor]
    cases s.actors.get? actorId <;> exact h
  | setActorPosition actorId mapId x y =>
    simp only [Op.run, Outcome.step, setActorPosition]
    cases s.actors.get? actorId with
    | none => exact h
    | some actor => cases s.maps.get? mapId <;> exact h
  | importState upload => exact visibleInv_importState env s upload hok h

theorem visibleInv_runOps (ops : List (Env × Op)) (s : GameState)
    (hok : OpsAdmissible (fun s op => op.keepsVisible s ∧ op.plainIds = true) s ops)
    (h : VisiblePOIsInv s) : VisiblePOIsInv (runOps s ops).1 := by
  induction ops generalizing s with
  | nil => exact h
  | cons eo rest ih =>
    obtain ⟨env, op⟩ := eo
    exact ih (op.run env s).state hok.2 (visibleInv_run env s op hok.1.1 h)

/-- C2, in the form that holds: starting from the initial state, after every
sequence of store requests with plain ids in which generated POI ids are
unused, visibility flags are booleans and every imported document lists in
`visiblePOIs` exactly its POIs flagged visible, `visiblePOIs` is exactly the set
of ids of stored POIs whose `visible` flag is `true`. -/
theorem C2_visiblePOIs_invariant (ops : List (Env × Op))
    (hok : OpsAdmissible (fun s op => op.keepsVisible s ∧ op.plainIds = true)
      GameState.initial ops) :
    VisiblePOIsInv (runOps GameState.initial ops).1 :=
  visibleInv_runOps ops GameState.initial hok visibleInv_initial

/-- C2 on a concrete run: a map, a POI on it, the POI made visible, a second
POI, then the map deleted. -/
theorem C2_visiblePOIs_invariant_witness :
    VisiblePOIsInv (runOps GameState.initial
      [(Env.healthy, .createMap "dungeon" "t0" (.str "Dungeon") (some "20") (some "20") none),
       (Env.healthy, .createPOI "chest" "t1" "dungeon" (.str "Chest") 3 3 (.str "") (.str "treasure")),
       (Env.healthy, .setPOIVisibility "chest" (.bool true)),
       (Env.healthy, .createPOI "door" "t2" "dungeon" (.str "Door") 1 1 (.str "") .undefined),
       (Env.healthy, .deleteMap "dungeon")]).1 :=
  C2_visiblePOIs_invariant _
    ⟨⟨trivial, by decide⟩, ⟨by unfold Op.keepsVisible; decide, by decide⟩,
      ⟨⟨true, rfl⟩, by decide⟩, ⟨by unfold Op.keepsVisible; decide, by decide⟩,
      ⟨trivial, by decide⟩, trivial⟩

/-- C2, counterexample to the specification's statement: importing a document that
passes the import validation but names in `visiblePOIs` a POI whose flag is
`false` leaves `visiblePOIs` different from the set of POIs flagged visible. -/
theorem C2_import_breaks_invariant :
    OpsAdmissible Op.validated GameState.initial
        [(Env.healthy, .importState (.file (some inconsistentDoc)))] ∧
      ¬ VisiblePOIsInv (runOps GameState.initial
        [(Env.healthy, .importState (.file (some inconsistentDoc)))]).1 := by
  refine ⟨⟨⟨inconsistentDoc, rfl, by decide⟩, trivial⟩, ?_⟩
  intro h
  obtain ⟨poi, hp, hv⟩ := (h "chest").mp (by decide)
  have hp2 : (runOps GameState.initial
      [(Env.healthy, .importState (.file (some inconsistentDoc)))]).1.pointsOfInterest.get? "chest"
      = some { id := "chest", mapId := "dungeon", name := .str "Chest", x := 3, y := 3,
               description := .str "", type := .str "treasure", visible := .bool false,
               createdAt := "2024-01-01T00:00:00.000Z" } := by decide
  rw [hp2] at hp
  cases hp
  cases hv

/-! ## Fog settings sent to viewers -/

/-- C3, divergence of the code from the specification: the reply to
`join-as-player` and the reply to `player-request-fog-settings` are the whole
`gameState.fogSettings` object, `showVisionCircles` included; only the
broadcast to the players room after `dm-update-fog-settings` is cut down to
`fogEnabled` and `visionRadius`. -/
theorem C3_viewer_replies_carry_showVisionCircles (env : Env) (h : Hub) (socketId : String)
    (settings : FogSettings) :
    (onMessage env h socketId .joinAsPlayer).2 =
        [.emit (.socket socketId) (.playerFogSettings
          [("fogEnabled", h.game.fogSettings.fogEnabled),
           ("visionRadius", h.game.fogSettings.visionRadius),
           ("showVisionCircles", h.game.fogSettings.showVisionCircles)])] ∧
    (onMessage env h socketId .playerRequestFogSettings).2 =
        [.emit (.socket socketId) (.playerFogSettings
          [("fogEnabled", h.game.fogSettings.fogEnabled),
           ("visionRadius", h.game.fogSettings.visionRadius),
           ("showVisionCircles", h.game.fogSettings.showVisionCircles)])] ∧
    emitted (onMessage env h socketId (.dmUpdateFogSettings settings)).2 =
        [(.room "players", .playerFogSettings
          [("fogEnabled", settings.fogEnabled), ("visionRadius", settings.visionRadius)])] ∧
    (onMessage env ⟨GameState.initial, []⟩ "viewer" .joinAsPlayer).2 =
        [.emit (.socket "viewer") (.playerFogSettings
          [("fogEnabled", .bool true), ("visionRadius", .num 5),
           ("showVisionCircles", .bool true)])] := by
  refine ⟨rfl, rfl, ?_, rfl⟩
  simp [onMessage, saveGameState, emitted]

/-! ## Deleting a map -/

/-- C4: `deleteMap` on an existing map removes the map, every POI of that map
(also from `visiblePOIs`) and the position table of the map, clears
`currentMap` when it was that map, and leaves the actors, the fog settings, the
other maps, and the POIs, `visiblePOIs` members and position tables of every
other map as they were. -/
theorem C4_deleteMap_cascade (env : Env) (s : GameState) (mapId : String) (map : MapRec)
    (hmap : s.maps.get? mapId = some map) :
    (deleteMap env s mapId).response = .ok () ∧
    (deleteMap env s mapId).state.maps.get? mapId = none ∧
    (∀ id poi, (deleteMap env s mapId).state.pointsOfInterest.get? id = some poi →
      poi.mapId ≠ mapId) ∧
    (∀ id poi, s.pointsOfInterest.get? id = some poi → poi.mapId = mapId →
      id ∉ (deleteMap env s mapId).state.visiblePOIs) ∧
    (deleteMap env s mapId).state.actorPositions.get? mapId = none ∧
    (deleteMap env s mapId).state.currentMap =
      (if s.currentMap = some mapId then none else s.currentMap) ∧
    (deleteMap env s mapId).state.actors = s.actors ∧
    (deleteMap env s mapId).state.fogSettings = s.fogSettings ∧
    (∀ other, other ≠ mapId →
      (deleteMap env s mapId).state.maps.get? other = s.maps.get? other) ∧
    (∀ id poi, poi.mapId ≠ mapId →
      ((deleteMap env s mapId).state.pointsOfInterest.get? id = some poi ↔
        s.pointsOfInterest.get? id = some poi)) ∧
    (∀ id, (∀ poi, s.pointsOfInterest.get? id = some poi → poi.mapId ≠ mapId) →
      (id ∈ (deleteMap env s mapId).state.visiblePOIs ↔ id ∈ s.visiblePOIs)) ∧
    (∀ other, other ≠ mapId →
      (deleteMap env s mapId).state.actorPositions.get? other = s.actorPositions.get? other) := by
  simp only [deleteMap, hmap]
  refine ⟨trivial, Dict.get?_del_self _ _, ?_, ?_, Dict.get?_del_self _ _, trivial, trivial,
    trivial, ?_, ?_, ?_, ?_⟩
  · intro id poi hp
    rw [deleteMapPOI_foldl_get?] at hp
    intro hm
    exact hp.2 ⟨Dict.mem_keys_of_get? hp.1, hm⟩
  · intro id poi hp hm hmem
    rw [deleteMapPOI_foldl_mem] at hmem
    exact hmem.2 ⟨Dict.mem_keys_of_get? hp, poi, hp, hm⟩
  · intro other hne
    exact Dict.get?_del_ne _ (Ne.symm hne)
  · intro id poi hne
    rw [deleteMapPOI_foldl_get?]
    constructor
    · exact fun h => h.1
    · exact fun h => ⟨h, fun hk => hne hk.2⟩
  · intro id hother
    rw [deleteMapPOI_foldl_mem]
    constructor
    · exact fun h => h.1
    · refine fun h => ⟨h, ?_⟩
      rintro ⟨-, p, hp, hm⟩
      exact hother p hp hm
  · intro other hne
    exact Dict.get?_del_ne _ (Ne.symm hne)

/-- C4 on a concrete state: a current map with a visible POI and a placed
actor, next to a second map with its own visible POI. -/
theorem C4_deleteMap_cascade_witness :
    (deleteMap Env.healthy sceneTwoMaps "dungeon").state =
      { maps := [("forest", forestMap)], currentMap := none,
        pointsOfInterest := [("well", wellPOI)], visiblePOIs := ["well"],
        actors := [("rogue", rogueActor)], actorPositions := [("forest", [("rogue", ⟨2, 2⟩)])],
        fogSettings := GameState.initial.fogSettings } ∧
    (deleteMap Env.healthy sceneTwoMaps "dungeon").state.maps.get? "dungeon" = none := by
  refine ⟨by decide, ?_⟩
  exact (C4_deleteMap_cascade Env.healthy sceneTwoMaps "dungeon" dungeonMap (by decide)).2.1

/-! ## Export and import -/

/-- C5: importing, in any prior state, the document exported from a state `s`
is accepted and yields the maps, actors, POIs, position tables and current map
of `s` and the same set of visible POI ids, provided the backup write and the
removal of the uploaded file succeed and the current map of `s` is not the
empty id (which `currentMap || null` would read as no map). The fog settings
stay those of the prior state. -/
theorem C5_export_import_round_trip (env : Env) (s prior : GameState) (now : String)
    (hbackup : env.backupOk = true) (hunlink : env.unlinkOk = true)
    (hcur : s.currentMap ≠ some "") :
    (importState env prior (.file (some (exportState s now)))).response.status = 200 ∧
    (importState env prior (.file (some (exportState s now)))).state.maps = s.maps ∧
    (importState env prior (.file (some (exportState s now)))).state.actors = s.actors ∧
    (importState env prior (.file (some (exportState s now)))).state.pointsOfInterest
      = s.pointsOfInterest ∧
    (∀ id, id ∈ (importState env prior (.file (some (exportState s now)))).state.visiblePOIs ↔
      id ∈ s.visiblePOIs) ∧
    (importState env prior (.file (some (exportState s now)))).state.actorPositions
      = s.actorPositions ∧
    (importState env prior (.file (some (exportState s now)))).state.currentMap = s.currentMap ∧
    (importState env prior (.file (some (exportState s now)))).state.fogSettings
      = prior.fogSettings := by
  have hc : orNull s.currentMap = s.currentMap := by
    cases h : s.currentMap with
    | none => rfl
    | some v =>
      have : v ≠ "" := fun hv => hcur (by rw [h, hv])
      simp [orNull, this]
  simp only [importState, exportState, Option.isNone_some, Bool.or_self, Bool.false_eq_true,
    if_false, hbackup, hunlink, Bool.not_true, Option.getD_some, hc]
  refine ⟨?_, ?_, ?_, ?_, fun id => mem_setOfArray _ _, ?_, ?_, ?_⟩ <;> trivial

/-- C5 on a concrete state, imported over the initial state. -/
theorem C5_export_import_round_trip_witness :
    (importState Env.healthy GameState.initial
      (.file (some (exportState sceneTwoMaps "t9")))).state = sceneTwoMaps ∧
    (importState Env.healthy GameState.initial
      (.file (some (exportState sceneTwoMaps "t9")))).state.maps = sceneTwoMaps.maps := by
  refine ⟨by decide, ?_⟩
  exact (C5_export_import_round_trip Env.healthy sceneTwoMaps GameState.initial "t9" rfl rfl
    (by decide)).2.1

/-! ## Persistence and broadcast -/

theorem savedBeforeEmit_run (env : Env) (s : GameState) (op : Op) :
    savedBeforeEmit false (op.run env s).effects = true := by
  cases op with
  | createMap mapId now name w ht file => rfl
  | createPOI poiId now mapId name x y d t => rfl
  | setPOIVisibility poiId visible =>
    simp only [Op.run, Outcome.step, setPOIVisibility]
    cases s.pointsOfInterest.get? poiId <;> rfl
  | setCurrentMap mapId =>
    simp only [Op.run, Outcome.step, setCurrentMap]
    cases s.maps.get? mapId <;> rfl
  | deleteMap mapId =>
    simp only [Op.run, Outcome.step, deleteMap]
    cases s.maps.get? mapId <;> rfl
  | createActor actorId now name color icon => rfl
  | deleteActor actorId =>
    simp only [Op.run, Outcome.step, deleteActor]
    cases s.actors.get? actorId <;> rfl
  | setActorPosition actorId mapId x y =>
    simp only [Op.run, Outcome.step, setActorPosition]
    cases s.actors.get? actorId with
    | none => rfl
    | some actor => cases s.maps.get? mapId <;> rfl
  | importState upload =>
    simp only [Op.run, Outcome.step, importState]
    cases upload with
    | missing => rfl
    | file parsed =>
      cases parsed with
      | none => rfl
      | some doc =>
        dsimp only
        split
        · rfl
        · split
          · rfl
          · split <;> rfl

theorem run_writeOk_irrelevant (env : Env) (w : Bool) (s : GameState) (op : Op) :
    (op.run { env with writeOk := w } s).state = (op.run env s).state ∧
    (op.run { env with writeOk := w } s).status = (op.run env s).status ∧
    emitted (op.run { env with writeOk := w } s).effects = emitted (op.run env s).effects := by
  cases op with
  | createMap mapId now name w ht file => exact ⟨rfl, rfl, rfl⟩
  | createPOI poiId now mapId name x y d t => exact ⟨rfl, rfl, rfl⟩
  | setPOIVisibility poiId visible =>
    simp only [Op.run, Outcome.step, setPOIVisibility]
    cases s.pointsOfInterest.get? poiId <;> exact ⟨rfl, rfl, rfl⟩
  | setCurrentMap mapId =>
    simp only [Op.run, Outcome.step, setCurrentMap]
    cases s.maps.get? mapId <;> exact ⟨rfl, rfl, rfl⟩
  | deleteMap mapId =>
    simp only [Op.run, Outcome.step, deleteMap]
    cases s.maps.get? mapId <;> exact ⟨rfl, rfl, rfl⟩
  | createActor actorId now name color icon => exact ⟨rfl, rfl, rfl⟩
  | deleteActor actorId =>
    simp only [Op.run, Outcome.step, deleteActor]
    cases s.actors.get? actorId <;> exact ⟨rfl, rfl, rfl⟩
  | setActorPosition actorId mapId x y =>
    simp only [Op.run, Outcome.step, setActorPosition]
    cases s.actors.get? actorId with
    | none => exact ⟨rfl, rfl, rfl⟩
    | some actor => cases s.maps.get? mapId <;> exact ⟨rfl, rfl, rfl⟩
  | importState upload =>
    simp only [Op.run, Outcome.step, importState]
    cases upload with
    | missing => exact ⟨rfl, rfl, rfl⟩
    | file parsed =>
      cases parsed with
      | none => exact ⟨rfl, rfl, rfl⟩
      | some doc =>
        dsimp only
        split
        · exact ⟨rfl, rfl, rfl⟩
        · split
          · exact ⟨rfl, rfl, rfl⟩
          · split <;> exact ⟨rfl, rfl, rfl⟩

/-- C7, in the form that holds: in every REST mutation and in the fog-settings
update the write attempt of `saveGameState` comes before every emission, and a
failing write is caught inside `saveGameState`: the state, the status code and
the emitted events are the same whether the write succeeds or fails. -/
theorem C7_persist_attempt_precedes_broadcast (env : Env) (w : Bool) (s : GameState) (op : Op)
    (h : Hub) (socketId : String) (settings : FogSettings) :
    savedBeforeEmit false (op.run env s).effects = true ∧
    (op.run { env with writeOk := w } s).state = (op.run env s).state ∧
    (op.run { env with writeOk := w } s).status = (op.run env s).status ∧
    emitted (op.run { env with writeOk := w } s).effects = emitted (op.run env s).effects ∧
    savedBeforeEmit false (onMessage env h socketId (.dmUpdateFogSettings settings)).2 = true ∧
    (onMessage { env with writeOk := w } h socketId (.dmUpdateFogSettings settings)).1 =
      (onMessage env h socketId (.dmUpdateFogSettings settings)).1 ∧
    emitted (onMessage { env with writeOk := w } h socketId (.dmUpdateFogSettings settings)).2 =
      emitted (onMessage env h socketId (.dmUpdateFogSettings settings)).2 :=
  ⟨savedBeforeEmit_run env s op, (run_writeOk_irrelevant env w s op).1,
    (run_writeOk_irrelevant env w s op).2.1, (run_writeOk_irrelevant env w s op).2.2,
    rfl, rfl, rfl⟩

/-- C7, counterexample to the specification's statement: with the write of
`saveGameState` failing, `setPOIVisibility` still emits
`'poi-visibility-changed'` to every session, and `setActorPosition`,
`setCurrentMap` and `deleteActor` still emit their events. -/
theorem C7_broadcast_after_failed_write :
    (setPOIVisibility Env.diskFull sceneHiddenChest "chest" (.bool true)).effects =
      [.save (setPOIVisibility Env.diskFull sceneHiddenChest "chest" (.bool true)).state false,
       .emit .all (.poiVisibilityChanged "chest" (.bool true) chestPOI)] ∧
    emitted (setActorPosition Env.diskFull sceneTwoMaps "rogue" "dungeon" 4 4).effects =
      [(.all, .actorMoved "rogue" "dungeon" 4 4 rogueActor)] ∧
    emitted (setCurrentMap Env.diskFull sceneTwoMaps "forest").effects =
      [(.all, .mapChanged "forest" forestMap [rogueActor.placed 2 2])] ∧
    emitted (deleteActor Env.diskFull sceneTwoMaps "rogue").effects =
      [(.all, .actorRemoved "rogue")] := by
  decide

/-! ## Creating a POI -/

/-- C8, divergence of the code from the specification: `createPOI` never looks the
map up. On the initial state, which has no map, it answers 200 with the new POI
and stores it under a `mapId` that refers to no map. -/
theorem C8_createPOI_accepts_unknown_map :
    GameState.initial.maps.get? "nowhere" = none ∧
    (createPOI Env.healthy GameState.initial "chest" "t0" "nowhere" (.str "Chest") 3 3
      (.str "") (.str "treasure")).response.status = 200 ∧
    (createPOI Env.healthy GameState.initial "chest" "t0" "nowhere" (.str "Chest") 3 3
      (.str "") (.str "treasure")).state.pointsOfInterest =
      [("chest", { id := "chest", mapId := "nowhere", name := .str "Chest", x := 3, y := 3,
                   description := .str "", type := .str "treasure", visible := .bool false,
                   createdAt := "t0" })] := by
  decide

/-! ## Creating a map -/

theorem digitChar_spec (k : Nat) (hk : k < 10) :
    (Nat.digitChar k).isDigit = true ∧ (Nat.digitChar k).toNat - '0'.toNat = k := by
  interval_cases k <;> decide

theorem digitsValue_append_singleton (l : List Char) (c : Char) :
    digitsValue (l ++ [c]) = 10 * digitsValue l + (c.toNat - '0'.toNat) := by
  simp [digitsValue, List.foldl_append]

theorem toDigitsCore_spec (fuel n : Nat) (ds : List Char) (h : n < fuel) :
    ∃ l, Nat.toDigitsCore 10 fuel n ds = l ++ ds ∧ l ≠ [] ∧
      (∀ c ∈ l, c.isDigit = true) ∧ digitsValue l = n := by
  induction fuel generalizing n ds with
  | zero => omega
  | succ fuel ih =>
    have hd := digitChar_spec (n % 10) (Nat.mod_lt _ (by decide))
    simp only [Nat.toDigitsCore]
    by_cases h0 : n / 10 = 0
    · refine ⟨[Nat.digitChar (n % 10)], by simp [h0], by simp, ?_, ?_⟩
      · intro c hc
        rw [List.mem_singleton] at hc
        rw [hc]
        exact hd.1
      · have : digitsValue [Nat.digitChar (n % 10)] = (Nat.digitChar (n % 10)).toNat - '0'.toNat := by
          simp [digitsValue]
        rw [this, hd.2]
        omega
    · have hlt : n / 10 < fuel := by omega
      obtain ⟨l, hl, hne, hall, hval⟩ := ih (n / 10) (Nat.digitChar (n % 10) :: ds) hlt
      refine ⟨l ++ [Nat.digitChar (n % 10)], by simp [h0, hl], by simp, ?_, ?_⟩
      · intro c hc
        rcases List.mem_append.mp hc with hc | hc
        · exact hall c hc
        · rw [List.mem_singleton] at hc
          rw [hc]
          exact hd.1
      · rw [digitsValue_append_singleton, hval, hd.2]
        omega

theorem isJsWhiteSpace_of_isDigit (c : Char) (h : c.isDigit = true) : isJsWhiteSpace c = false := by
  simp only [Char.isDigit, Bool.and_eq_true, decide_eq_true_eq] at h
  have h1 : 48 ≤ c.toNat := by
    have := h.1
    exact this
  have h2 : c.toNat ≤ 57 := by
    have := h.2
    exact this
  simp only [isJsWhiteSpace]
  simp
  omega
theorem takeWhile_eq_self_of_all {α : Type} (p : α → Bool) (l : List α) (h : ∀ c ∈ l, p c = true) :
    l.takeWhile p = l := by
  induction l with
  | nil => rfl
  | cons c rest ih =>
    simp [List.takeWhile_cons, h c (List.mem_cons_self _ _),
      ih (fun d hd => h d (List.mem_cons_of_mem _ hd))]

theorem parseInt10_digits (l : List Char) (hne : l ≠ []) (hall : ∀ c ∈ l, c.isDigit = true) :
    parseInt10 (String.mk l) = some (roundToDouble (digitsValue l) : Int) ∧
    parseInt10 (String.mk ('-' :: l)) = some (-(roundToDouble (digitsValue l) : Int)) := by
  cases l with
  | nil => exact absurd rfl hne
  | cons c rest =>
    have hc : c.isDigit = true := hall c (List.mem_cons_self _ _)
    have hws : isJsWhiteSpace c = false := isJsWhiteSpace_of_isDigit c hc
    have hminus : c ≠ '-' := by
      rintro rfl
      revert hc
      decide
    have hplus : c ≠ '+' := by
      rintro rfl
      revert hc
      decide
    have htake := takeWhile_eq_self_of_all Char.isDigit (c :: rest) hall
    have hstrip : stripSign (c :: rest) = (false, c :: rest) := by
      unfold stripSign
      split
      · rename_i h
        exact absurd (List.cons.inj h).1 hminus
      · rename_i h
        exact absurd (List.cons.inj h).1 hplus
      · rfl
    constructor
    · simp [parseInt10, String.toList, List.dropWhile_cons, hws, hstrip, htake]
    · have hm : isJsWhiteSpace '-' = false := by decide
      have hs : stripSign ('-' :: c :: rest) = (true, c :: rest) := rfl
      simp [parseInt10, String.toList, List.dropWhile_cons, hm, hs, htake]

/-- The decimal text of an integer of magnitude below 2^53 is read back as
that integer. -/
theorem parseInt10_toString (n : Int) (hn : |n| < 2 ^ 53) : parseInt10 (toString n) = some n := by
  have hlt := abs_lt.mp hn
  cases n with
  | ofNat m =>
    obtain ⟨l, hl, hne, hall, hval⟩ := toDigitsCore_spec (m + 1) m [] (Nat.lt_succ_self m)
    have ht : toString (Int.ofNat m) = String.mk l := by
      show Nat.repr m = _
      simp [Nat.repr, Nat.toDigits, hl, List.asString]
    have hm : m < 2 ^ 53 := by
      have := hlt.2
      simp only [Int.ofNat_eq_coe] at this
      exact_mod_cast this
    rw [ht, (parseInt10_digits l hne hall).1, hval, roundToDouble_of_lt hm]
    rfl
  | negSucc m =>
    obtain ⟨l, hl, hne, hall, hval⟩ := toDigitsCore_spec (m + 1 + 1) (m + 1) [] (Nat.lt_succ_self _)
    have ht : toString (Int.negSucc m) = String.mk ('-' :: l) := by
      show "-" ++ Nat.repr (m + 1) = _
      simp [Nat.repr, Nat.toDigits, hl, List.asString]
      rfl
    have hm : m + 1 < 2 ^ 53 := by
      have := hlt.1
      rw [Int.negSucc_eq] at this
      omega
    rw [ht, (parseInt10_digits l hne hall).2, hval, roundToDouble_of_lt hm]
    rfl

/-- Beyond 2^53 the text of an integer need not read back as that integer:
"9007199254740993" reads 9007199254740992. -/
theorem parseInt10_first_inexact :
    parseInt10 "9007199254740993" = some 9007199254740992 := by
  have h := (parseInt10_digits "9007199254740993".toList (by decide) (by decide)).1
  have hv : digitsValue "9007199254740993".toList = 9007199254740993 := by decide
  rw [hv, roundToDouble_first_inexact] at h
  exact h

theorem parseIntOr_of_nonzero {field : Option String} {n : Int}
    (h : field.bind parseInt10 = some n) (hn : n ≠ 0) (dflt : Int) :
    parseIntOr field dflt = n := by
  simp [parseIntOr, h, hn]

theorem parseIntOr_of_zero {field : Option String}
    (h : field.bind parseInt10 = some 0) (dflt : Int) : parseIntOr field dflt = dflt := by
  simp [parseIntOr, h]

theorem parseIntOr_of_nan {field : Option String}
    (h : field.bind parseInt10 = none) (dflt : Int) : parseIntOr field dflt = dflt := by
  simp [parseIntOr, h]

/-- C9, in the form that holds: `createMap` stores the new map under its id
and answers with it, and for the width as for the height it stores the integer
the request field holds whenever that integer is not zero, whatever side of
[5,100] it lies on: a field holding the decimal text of a non-zero integer of
magnitude below 2^53 is stored as that integer. The default 20 is stored when
the field is missing, unparseable or reads zero. -/
theorem C9_createMap_gridSize (env : Env) (s : GameState) (mapId now : String) (name : JsVal)
    (gridWidth gridHeight : Option String) (file : Option String) (stored : MapRec)
    (hstored : (createMap env s mapId now name gridWidth gridHeight file).state.maps.get? mapId
      = some stored) :
    (createMap env s mapId now name gridWidth gridHeight file).response = .ok stored ∧
    (∀ n : Int, n ≠ 0 → |n| < 2 ^ 53 → gridWidth = some (toString n) →
      stored.gridSize.width = n) ∧
    (∀ n : Int, n ≠ 0 → |n| < 2 ^ 53 → gridHeight = some (toString n) →
      stored.gridSize.height = n) ∧
    (gridWidth.bind parseInt10 = none ∨ gridWidth.bind parseInt10 = some 0 →
      stored.gridSize.width = 20) ∧
    (gridHeight.bind parseInt10 = none ∨ gridHeight.bind parseInt10 = some 0 →
      stored.gridSize.height = 20) := by
  simp only [createMap, Dict.get?_set_self, Option.some.injEq] at hstored
  subst hstored
  refine ⟨rfl, ?_, ?_, ?_, ?_⟩
  · intro n hn hb h
    exact parseIntOr_of_nonzero (by rw [h]; exact parseInt10_toString n hb) hn 20
  · intro n hn hb h
    exact parseIntOr_of_nonzero (by rw [h]; exact parseInt10_toString n hb) hn 20
  · rintro (h | h)
    · exact parseIntOr_of_nan h 20
    · exact parseIntOr_of_zero h 20
  · rintro (h | h)
    · exact parseIntOr_of_nan h 20
    · exact parseIntOr_of_zero h 20

/-- C9 on a concrete request: width "7" and a height that does not parse; the
stored map is the one sent back, 7 wide and 20 high. -/
theorem C9_createMap_gridSize_witness :
    (createMap Env.healthy GameState.initial "dungeon" "t0" (.str "Dungeon") (some "7")
      (some "tall") none).state.maps.get? "dungeon" =
      some { id := "dungeon", name := .str "Dungeon", gridSize := { width := 7, height := 20 },
             imageUrl := none, createdAt := "t0" } ∧
    (createMap Env.healthy GameState.initial "dungeon" "t0" (.str "Dungeon") (some "7")
      (some "tall") none).response =
      .ok { id := "dungeon", name := .str "Dungeon", gridSize := { width := 7, height := 20 },
            imageUrl := none, createdAt := "t0" } := by
  refine ⟨by decide, ?_⟩
  exact (C9_createMap_gridSize Env.healthy GameState.initial "dungeon" "t0" (.str "Dungeon")
    (some "7") (some "tall") none
    { id := "dungeon", name := .str "Dungeon", gridSize := { width := 7, height := 20 },
      imageUrl := none, createdAt := "t0" } (by decide)).1

/-- C9, counterexample to the specification's statement: requested sizes 3, 500 and
-4 lie outside [5,100] and are stored as given, not replaced by 20. -/
theorem C9_out_of_range_stored :
    (createMap Env.healthy GameState.initial "dungeon" "t0" (.str "Dungeon") (some "3")
      (some "500") none).response =
      .ok { id := "dungeon", name := .str "Dungeon", gridSize := { width := 3, height := 500 },
            imageUrl := none, createdAt := "t0" } ∧
    ((createMap Env.healthy GameState.initial "dungeon" "t0" (.str "Dungeon") (some "-4")
      (some "20") none).state.maps.get? "dungeon").map (fun m => m.gridSize) =
      some { width := -4, height := 20 } := by
  decide

/-! ## NotFound leaves no trace -/

/-- C10: whenever a store request is answered 404 (`setCurrentMap`, `deleteMap`,
`deleteActor`, `setActorPosition` and `setPOIVisibility` are the handlers that
can answer so), the state after the call is the state before it and the
handler has no effect at all: no save, no emission. -/
theorem C10_notFound_atomic (env : Env) (s : GameState) (op : Op)
    (h404 : (op.run env s).status = 404) :
    (op.run env s).state = s ∧ (op.run env s).effects = [] := by
  cases op with
  | createMap mapId now name w ht file => simp [Op.run, Outcome.step, createMap, Response.status] at h404
  | createPOI poiId now mapId name x y d t =>
    simp [Op.run, Outcome.step, createPOI, Response.status] at h404
  | setPOIVisibility poiId visible =>
    simp only [Op.run, Outcome.step, setPOIVisibility] at h404 ⊢
    cases hp : s.pointsOfInterest.get? poiId with
    | none => exact ⟨rfl, rfl⟩
    | some poi => simp [hp, Response.status] at h404
  | setCurrentMap mapId =>
    simp only [Op.run, Outcome.step, setCurrentMap] at h404 ⊢
    cases hp : s.maps.get? mapId with
    | none => exact ⟨rfl, rfl⟩
    | some map => simp [hp, Response.status] at h404
  | deleteMap mapId =>
    simp only [Op.run, Outcome.step, deleteMap] at h404 ⊢
    cases hp : s.maps.get? mapId with
    | none => exact ⟨rfl, rfl⟩
    | some map => simp [hp, Response.status] at h404
  | createActor actorId now name color icon =>
    simp [Op.run, Outcome.step, createActor, Response.status] at h404
  | deleteActor actorId =>
    simp only [Op.run, Outcome.step, deleteActor] at h404 ⊢
    cases hp : s.actors.get? actorId with
    | none => exact ⟨rfl, rfl⟩
    | some actor => simp [hp, Response.status] at h404
  | setActorPosition actorId mapId x y =>
    simp only [Op.run, Outcome.step, setActorPosition] at h404 ⊢
    cases ha : s.actors.get? actorId with
    | none => exact ⟨rfl, rfl⟩
    | some actor =>
      cases hm : s.maps.get? mapId with
      | none => exact ⟨rfl, rfl⟩
      | some map => simp [ha, hm, Response.status] at h404
  | importState upload =>
    exfalso
    revert h404
    simp only [Op.run, Outcome.step, importState]
    cases upload with
    | missing => simp [Response.status]
    | file parsed =>
      cases parsed with
      | none => simp [Response.status]
      | some doc =>
        dsimp only
        split
        · simp [Response.status]
        · split
          · simp [Response.status]
          · split <;> simp [Response.status]

/-- C10 on concrete requests: each of the five handlers answers 404 on a
missing id and leaves the sample state alone. -/
theorem C10_notFound_atomic_witness :
    (Op.run Env.healthy sceneTwoMaps (.setCurrentMap "nowhere")).status = 404 ∧
    (Op.run Env.healthy sceneTwoMaps (.deleteMap "nowhere")).status = 404 ∧
    (Op.run Env.healthy sceneTwoMaps (.deleteActor "nobody")).status = 404 ∧
    (Op.run Env.healthy sceneTwoMaps (.setActorPosition "nobody" "dungeon" 1 1)).status = 404 ∧
    (Op.run Env.healthy sceneTwoMaps (.setActorPosition "rogue" "nowhere" 1 1)).status = 404 ∧
    (Op.run Env.healthy sceneTwoMaps (.setPOIVisibility "nothing" (.bool true))).status = 404 ∧
    (Op.run Env.healthy sceneTwoMaps (.setCurrentMap "nowhere")).state = sceneTwoMaps ∧
    (Op.run Env.healthy sceneTwoMaps (.setCurrentMap "nowhere")).effects = [] := by
  refine ⟨by decide, by decide, by decide, by decide, by decide, by decide, ?_⟩
  exact C10_notFound_atomic Env.healthy sceneTwoMaps (.setCurrentMap "nowhere") (by decide)

/-! ## The client replica -/

theorem broadcasts_append (a b : List Effect) :
    broadcasts (a ++ b) = broadcasts a ++ broadcasts b := by
  simp [broadcasts, List.filterMap_append]

theorem clientRun_append (c : Snapshot) (a b : List Event) :
    clientRun c (a ++ b) = (clientRun c a).bind (fun c1 => clientRun c1 b) := by
  induction a generalizing c with
  | nil => rfl
  | cons ev rest ih =>
    simp only [List.cons_append, clientRun]
    cases clientHandle c ev with
    | none => rfl
    | some c1 => simpa using ih c1

namespace Dict

variable {α : Type}

theorem del_eq_self_of_get?_none (d : Dict α) (k : String) (h : get? d k = none) :
    del d k = d := by
  induction d with
  | nil => rfl
  | cons e rest ih =>
    obtain ⟨k', v'⟩ := e
    by_cases h1 : k' = k
    · simp [get?_cons, h1] at h
    · simp only [get?_cons, h1, if_false] at h
      simp [del, h1, ih h]

theorem mem_keys_del {d : Dict α} {k x : String} (h : x ∈ keys (del d k)) : x ∈ keys d := by
  induction d with
  | nil => simp [del, keys] at h
  | cons e rest ih =>
    obtain ⟨k', v'⟩ := e
    by_cases h1 : k' = k
    · simp only [del, h1, if_true] at h
      simp only [keys, List.map_cons, List.mem_cons]
      exact Or.inr (ih h)
    · simp only [del, h1, if_false, keys, List.map_cons, List.mem_cons] at h ⊢
      rcases h with h | h
      · exact Or.inl h
      · exact Or.inr (ih h)

theorem nodup_keys_del {d : Dict α} (k : String) (h : (keys d).Nodup) :
    (keys (del d k)).Nodup := by
  induction d with
  | nil => simp [del, keys]
  | cons e rest ih =>
    obtain ⟨k', v'⟩ := e
    simp only [keys, List.map_cons, List.nodup_cons] at h
    by_cases h1 : k' = k
    · simp only [del, h1, if_true]
      exact ih h.2
    · simp only [del, h1, if_false, keys, List.map_cons, List.nodup_cons]
      exact ⟨fun hm => h.1 (mem_keys_del hm), ih h.2⟩

theorem keys_set_of_mem {d : Dict α} {k : String} (v : α) (h : k ∈ keys d) :
    keys (set d k v) = keys d := by
  induction d with
  | nil => simp [keys] at h
  | cons e rest ih =>
    obtain ⟨k', v'⟩ := e
    by_cases h1 : k' = k
    · simp [set, h1, keys]
    · simp only [keys, List.map_cons, List.mem_cons] at h
      have hr : k ∈ keys rest := by
        rcases h with h | h
        · exact absurd h.symm h1
        · exact h
      have := ih hr
      simp only [keys] at this
      simp [set, h1, keys, this]

theorem keys_set_of_not_mem {d : Dict α} {k : String} (v : α) (h : k ∉ keys d) :
    keys (set d k v) = keys d ++ [k] := by
  induction d with
  | nil => simp [set, keys]
  | cons e rest ih =>
    obtain ⟨k', v'⟩ := e
    simp only [keys, List.map_cons, List.mem_cons, not_or] at h
    have := ih h.2
    simp only [keys] at this
    simp [set, Ne.symm h.1, keys, this]

theorem nodup_keys_set {d : Dict α} (k : String) (v : α) (h : (keys d).Nodup) :
    (keys (set d k v)).Nodup := by
  by_cases hk : k ∈ keys d
  · rw [keys_set_of_mem v hk]
    exact h
  · rw [keys_set_of_not_mem v hk]
    exact List.Nodup.append h (List.nodup_singleton k) (by simpa using hk)

theorem mem_keys_set {d : Dict α} {k x : String} {v : α} (h : x ∈ keys (set d k v)) :
    x = k ∨ x ∈ keys d := by
  by_cases hk : k ∈ keys d
  · rw [keys_set_of_mem v hk] at h
    exact Or.inr h
  · rw [keys_set_of_not_mem v hk] at h
    rcases List.mem_append.mp h with h | h
    · exact Or.inr h
    · exact Or.inl (List.mem_singleton.mp h)

theorem get?_isSome_of_mem_keys {d : Dict α} {k : String} (h : k ∈ keys d) :
    ∃ v, get? d k = some v := by
  induction d with
  | nil => simp [keys] at h
  | cons e rest ih =>
    obtain ⟨k', v'⟩ := e
    by_cases h1 : k' = k
    · exact ⟨v', by simp [get?_cons, h1]⟩
    · simp only [keys, List.map_cons, List.mem_cons] at h
      rcases h with h | h
      · exact absurd h.symm h1
      · obtain ⟨v, hv⟩ := ih h
        exact ⟨v, by simp [get?_cons, h1, hv]⟩

end Dict

theorem removeActorFrom_get? (a : String) (P : Dict (Dict Pos)) (k m : String) :
    (removeActorFrom a P k).get? m =
      if k = m then (P.get? m).map (fun t => t.del a) else P.get? m := by
  unfold removeActorFrom
  cases hk : P.get? k with
  | none =>
    by_cases hkm : k = m
    · subst hkm
      simp [hk]
    · simp [hkm]
  | some t =>
    cases ha : t.get? a with
    | none =>
      by_cases hkm : k = m
      · subst hkm
        simp [hk, ha, Dict.del_eq_self_of_get?_none t a ha]
      · simp [hkm, ha]
    | some pos =>
      by_cases hkm : k = m
      · subst hkm
        simp [hk, ha]
      · simp [hkm, ha, Dict.get?_set_ne _ _ hkm]

theorem removeActorFrom_foldl_get? (a : String) (ks : List String) (P : Dict (Dict Pos))
    (m : String) :
    (ks.foldl (removeActorFrom a) P).get? m =
      (P.get? m).map (fun t => if m ∈ ks then t.del a else t) := by
  induction ks generalizing P with
  | nil => simp
  | cons k ks ih =>
    rw [List.foldl_cons, ih, removeActorFrom_get?]
    by_cases hkm : k = m
    · subst hkm
      cases P.get? k with
      | none => simp
      | some t =>
        simp only [if_true, Option.map_some', List.mem_cons, true_or]
        by_cases hmem : k ∈ ks
        · simp [hmem, Dict.del_eq_self_of_get?_none (t.del a) a (Dict.get?_del_self t a)]
        · simp [hmem]
    · have hmk : ¬ m = k := fun h => hkm h.symm
      simp [hkm, hmk]

theorem deleteActor_positions_get? (a : String) (P : Dict (Dict Pos)) (m : String) :
    ((Dict.keys P).foldl (removeActorFrom a) P).get? m = (P.get? m).map (fun t => t.del a) := by
  rw [removeActorFrom_foldl_get?]
  cases h : P.get? m with
  | none => rfl
  | some t => simp [Dict.mem_keys_of_get? h]

theorem mergeActor_id {A : Dict Actor} (hids : ∀ k a, A.get? k = some a → a.id = k)
    {entry : String × Pos} {e : ActorOnMap} (h : mergeActor A entry = some e) :
    e.id = entry.1 := by
  unfold mergeActor at h
  cases hg : A.get? entry.1 with
  | none => simp [hg] at h
  | some actor =>
    simp only [hg, Option.some.injEq] at h
    subst h
    exact hids _ _ hg

theorem filterMap_mergeActor_del (A : Dict Actor) (hids : ∀ k a, A.get? k = some a → a.id = k)
    (a : String) (t : Dict Pos) :
    (t.del a).filterMap (mergeActor (A.del a)) =
      (t.filterMap (mergeActor A)).filter (fun e => decide (e.id ≠ a)) := by
  induction t with
  | nil => rfl
  | cons entry rest ih =>
    obtain ⟨k, p⟩ := entry
    by_cases hk : k = a
    · subst hk
      simp only [Dict.del, if_true, List.filterMap_cons]
      rw [ih]
      cases hm : mergeActor A (k, p) with
      | none => rfl
      | some e =>
        have := mergeActor_id hids hm
        simp [List.filter_cons, this]
    · have hmerge : mergeActor (A.del a) (k, p) = mergeActor A (k, p) := by
        simp [mergeActor, Dict.get?_del_ne A (Ne.symm hk)]
      simp only [Dict.del, hk, if_false, List.filterMap_cons, hmerge]
      rw [ih]
      cases hm : mergeActor A (k, p) with
      | none => rfl
      | some e =>
        have hid := mergeActor_id hids hm
        have : e.id ≠ a := by
          rw [hid]
          exact hk
        simp [List.filter_cons, this]

theorem map_replace_of_not_mem_keys (A : Dict Actor)
    (hids : ∀ k a, A.get? k = some a → a.id = k) (a : String) (new : ActorOnMap)
    (t : Dict Pos) (h : a ∉ Dict.keys t) :
    (t.filterMap (mergeActor A)).map (fun e => if e.id = a then new else e) =
      t.filterMap (mergeActor A) := by
  induction t with
  | nil => rfl
  | cons entry rest ih =>
    obtain ⟨k, p⟩ := entry
    simp only [Dict.keys, List.map_cons, List.mem_cons, not_or] at h
    have ihr := ih (by simpa [Dict.keys] using h.2)
    simp only [List.filterMap_cons]
    cases hm : mergeActor A (k, p) with
    | none => exact ihr
    | some e =>
      have hid := mergeActor_id hids hm
      have : ¬ e.id = a := by
        rw [hid]
        exact fun hk => h.1 hk.symm
      simp [this, ihr]

theorem filterMap_mergeActor_set (A : Dict Actor)
    (hids : ∀ k a, A.get? k = some a → a.id = k) (a : String) (actor : Actor)
    (hactor : A.get? a = some actor) (x y : Int) (t : Dict Pos) (hnodup : (Dict.keys t).Nodup)
    (hmem : a ∈ Dict.keys t) :
    (t.set a ⟨x, y⟩).filterMap (mergeActor A) =
      (t.filterMap (mergeActor A)).map (fun e => if e.id = a then actor.placed x y else e) := by
  induction t with
  | nil => simp [Dict.keys] at hmem
  | cons entry rest ih =>
    obtain ⟨k, p⟩ := entry
    simp only [Dict.keys, List.map_cons, List.nodup_cons] at hnodup
    by_cases hk : k = a
    · subst hk
      have hnot : k ∉ Dict.keys rest := hnodup.1
      have hnew : mergeActor A (k, (⟨x, y⟩ : Pos)) = some (actor.placed x y) := by
        simp [mergeActor, hactor]
      have hold : mergeActor A (k, p) = some (actor.placed p.x p.y) := by
        simp [mergeActor, hactor]
      have hid : (actor.placed p.x p.y).id = k := hids _ _ hactor
      simp only [Dict.set, if_true, List.filterMap_cons, hnew, hold, List.map_cons, hid]
      rw [map_replace_of_not_mem_keys A hids k _ rest hnot]
    · simp only [Dict.keys, List.map_cons, List.mem_cons] at hmem
      have hr : a ∈ Dict.keys rest := by
        rcases hmem with h | h
        · exact absurd h.symm hk
        · exact h
      have ihr := ih hnodup.2 hr
      simp only [Dict.set, hk, if_false, List.filterMap_cons]
      cases hm : mergeActor A (k, p) with
      | none => exact ihr
      | some e =>
        have hid := mergeActor_id hids hm
        have : ¬ e.id = a := by
          rw [hid]
          exact hk
        simp [this, ihr]

theorem truthyId_of_ne {id : Option String} (h : id ≠ some "") : truthyId id = id.isSome := by
  cases id with
  | none => rfl
  | some v =>
    have : v ≠ "" := fun hv => h (by rw [hv])
    simp [truthyId, this]

theorem connectSnapshot_of_wf {s : GameState} (h : s.currentMap ≠ some "") :
    connectSnapshot s =
      { currentMap := s.currentMap
        map := s.currentMap.bind s.maps.get?
        visiblePOIs := s.visiblePOIs.map s.pointsOfInterest.get?
        actors := (s.currentMap.map (mapActors s)).getD [] } := by
  unfold connectSnapshot
  rw [truthyId_of_ne h]
  cases s.currentMap <;> rfl

theorem withoutPOI_of_defined (l : List (Option POI)) (poiId : String)
    (hdef : ∀ e ∈ l, e ≠ none) :
    ∃ kept, withoutPOI l poiId = some kept ∧
      ∀ e, e ∈ kept ↔ e ∈ l ∧ ∀ q, e = some q → q.id ≠ poiId := by
  induction l with
  | nil => exact ⟨[], rfl, by simp⟩
  | cons x rest ih =>
    obtain ⟨kept, hk, hmem⟩ := ih (fun e he => hdef e (List.mem_cons_of_mem _ he))
    cases x with
    | none => exact absurd rfl (hdef none (List.mem_cons_self _ _))
    | some p =>
      by_cases hp : p.id = poiId
      · refine ⟨kept, by simp [withoutPOI, hk, hp], ?_⟩
        intro e
        rw [hmem, List.mem_cons]
        constructor
        · rintro ⟨h1, h2⟩
          exact ⟨Or.inr h1, h2⟩
        · rintro ⟨h1 | h1, h2⟩
          · exact absurd hp (h2 p h1)
          · exact ⟨h1, h2⟩
      · refine ⟨some p :: kept, by simp [withoutPOI, hk, hp], ?_⟩
        intro e
        rw [List.mem_cons, hmem, List.mem_cons]
        constructor
        · rintro (h1 | ⟨h1, h2⟩)
          · refine ⟨Or.inl h1, ?_⟩
            intro q hq
            rw [h1] at hq
            cases hq
            exact hp
          · exact ⟨Or.inr h1, h2⟩
        · rintro ⟨h1 | h1, h2⟩
          · exact Or.inl h1
          · exact Or.inr ⟨h1, h2⟩

theorem replica_setCurrentMap (env : Env) (s : GameState) (c : Snapshot) (mapId : String)
    (hwf : SceneWF s) (hR : c.sameScene (connectSnapshot s)) (hne : mapId ≠ "")
    (hplain : plainId mapId = true) :
    SceneWF (setCurrentMap env s mapId).state ∧
    ∃ c1, clientRun c (broadcasts (setCurrentMap env s mapId).effects) = some c1 ∧
      c1.sameScene (connectSnapshot (setCurrentMap env s mapId).state) := by
  unfold setCurrentMap
  cases hm : s.maps.get? mapId with
  | none => exact ⟨hwf, c, rfl, hR⟩
  | some map =>
    have hcur : (some mapId : Option String) ≠ some "" := fun h => hne (Option.some.inj h)
    have hcp : ∀ cm, (some mapId : Option String) = some cm → plainId cm = true := by
      intro cm h
      rw [← Option.some.inj h]
      exact hplain
    refine ⟨⟨hwf.poiIds, hwf.actorIds, hwf.visibleStored, hwf.tablesNodup, hcur, hcp,
      hwf.tablesPlain⟩, ?_⟩
    refine ⟨_, rfl, ?_⟩
    rw [connectSnapshot_of_wf hcur]
    rw [connectSnapshot_of_wf hwf.currentNonempty] at hR
    exact ⟨rfl, by simp [hm], rfl, hR.2.2.2⟩

theorem replica_visible_defined {s : GameState} {c : Snapshot} (hwf : SceneWF s)
    (hR : c.sameScene (connectSnapshot s)) : ∀ e ∈ c.visiblePOIs, e ≠ none := by
  intro e he hnone
  have h1 := (hR.2.2.2 e).mp he
  rw [connectSnapshot_of_wf hwf.currentNonempty] at h1
  obtain ⟨id, hid, hget⟩ := List.mem_map.mp h1
  obtain ⟨p, hp⟩ := hwf.visibleStored id hid
  rw [hp, hnone] at hget
  cases hget

theorem replica_setPOIVisibility (env : Env) (s : GameState) (c : Snapshot) (poiId : String)
    (visible : JsVal) (hwf : SceneWF s) (hR : c.sameScene (connectSnapshot s)) :
    SceneWF (setPOIVisibility env s poiId visible).state ∧
    ∃ c1, clientRun c (broadcasts (setPOIVisibility env s poiId visible).effects) = some c1 ∧
      c1.sameScene (connectSnapshot (setPOIVisibility env s poiId visible).state) := by
  unfold setPOIVisibility
  cases hp : s.pointsOfInterest.get? poiId with
  | none => exact ⟨hwf, c, rfl, hR⟩
  | some poi =>
    have hpoi : poi.id = poiId := hwf.poiIds _ _ hp
    have hwf1 : SceneWF
        { s with
          pointsOfInterest := s.pointsOfInterest.set poiId { poi with visible := visible }
          visiblePOIs :=
            if visible.truthy then setAdd s.visiblePOIs poiId
            else setDelete s.visiblePOIs poiId } := by
      refine ⟨?_, hwf.actorIds, ?_, hwf.tablesNodup, hwf.currentNonempty, hwf.currentPlain,
        hwf.tablesPlain⟩
      · intro k p hk
        simp only [Dict.get?_set] at hk
        by_cases hkk : poiId = k
        · simp only [hkk, if_true, Option.some.injEq] at hk
          rw [← hk, ← hkk]
          exact hpoi
        · simp only [hkk, if_false] at hk
          exact hwf.poiIds k p hk
      · intro id hid
        simp only [Dict.get?_set]
        by_cases hkk : poiId = id
        · exact ⟨{ poi with visible := visible }, by simp [hkk]⟩
        · simp only [hkk, if_false]
          apply hwf.visibleStored
          split at hid
          · rcases (mem_setAdd _ _ _).mp hid with h | h
            · exact h
            · exact absurd h.symm hkk
          · exact ((mem_setDelete _ _ _).mp hid).1
    refine ⟨hwf1, ?_⟩
    obtain ⟨kept, hkept, hmem⟩ :=
      withoutPOI_of_defined c.visiblePOIs poiId (replica_visible_defined hwf hR)
    have hrun : clientRun c (broadcasts
        (saveGameState env
            { s with
              pointsOfInterest := s.pointsOfInterest.set poiId { poi with visible := visible }
              visiblePOIs :=
                if visible.truthy then setAdd s.visiblePOIs poiId
                else setDelete s.visiblePOIs poiId } ++
          [.emit .all (.poiVisibilityChanged poiId visible { poi with visible := visible })])) =
        some { c with visiblePOIs :=
          if visible.truthy then kept ++ [some { poi with visible := visible }] else kept } := by
      simp [broadcasts, saveGameState, clientRun, clientHandle, hkept]
    refine ⟨_, hrun, ?_⟩
    rw [connectSnapshot_of_wf hwf1.currentNonempty]
    rw [connectSnapshot_of_wf hwf.currentNonempty] at hR
    refine ⟨hR.1, hR.2.1, hR.2.2.1, ?_⟩
    have hold : ∀ e, e ∈ c.visiblePOIs ↔ ∃ id ∈ s.visiblePOIs, s.pointsOfInterest.get? id = e := by
      intro e
      rw [hR.2.2.2 e]
      exact List.mem_map
    intro e
    simp only [List.mem_map, Dict.get?_set]
    by_cases hv : visible.truthy = true
    · simp only [hv, if_true, List.mem_append, List.mem_singleton, hmem, hold, mem_setAdd]
      constructor
      · rintro (⟨⟨id, hid, hget⟩, hne⟩ | h)
        · obtain ⟨q, hq⟩ := hwf.visibleStored id hid
          have hqid : q.id = id := hwf.poiIds _ _ hq
          have hidne : ¬ poiId = id := by
            intro h
            rw [hq] at hget
            exact hne q hget.symm (by rw [hqid, h])
          exact ⟨id, Or.inl hid, by simp [hidne, hget]⟩
        · exact ⟨poiId, Or.inr rfl, by simp [h]⟩
      · rintro ⟨id, hid, hget⟩
        by_cases hidp : poiId = id
        · right
          simp only [hidp, if_true] at hget
          exact hget.symm
        · left
          simp only [hidp, if_false] at hget
          have hidV : id ∈ s.visiblePOIs := by
            rcases hid with h | h
            · exact h
            · exact absurd h.symm hidp
          refine ⟨⟨id, hidV, hget⟩, ?_⟩
          intro q hq
          rw [hq] at hget
          rw [hwf.poiIds _ _ hget]
          exact fun h => hidp h.symm
    · simp only [hv, if_false, hmem, hold, mem_setDelete, Bool.false_eq_true]
      constructor
      · rintro ⟨⟨id, hid, hget⟩, hne⟩
        obtain ⟨q, hq⟩ := hwf.visibleStored id hid
        have hqid : q.id = id := hwf.poiIds _ _ hq
        have hidne : ¬ poiId = id := by
          intro h
          rw [hq] at hget
          exact hne q hget.symm (by rw [hqid, h])
        exact ⟨id, ⟨hid, fun h => hidne h.symm⟩, by simp [hidne, hget]⟩
      · rintro ⟨id, ⟨hid, hidne⟩, hget⟩
        have hidp : ¬ poiId = id := fun h => hidne h.symm
        simp only [hidp, if_false] at hget
        refine ⟨⟨id, hid, hget⟩, ?_⟩
        intro q hq
        rw [hq] at hget
        rw [hwf.poiIds _ _ hget]
        exact hidne

theorem replica_createPOI (env : Env) (s : GameState) (c : Snapshot) (poiId now mapId : String)
    (name : JsVal) (x y : Int) (description type : JsVal) (hwf : SceneWF s)
    (hR : c.sameScene (connectSnapshot s)) (hfresh : s.pointsOfInterest.get? poiId = none) :
    SceneWF (createPOI env s poiId now mapId name x y description type).state ∧
    ∃ c1, clientRun c
        (broadcasts (createPOI env s poiId now mapId name x y description type).effects) = some c1 ∧
      c1.sameScene (connectSnapshot
        (createPOI env s poiId now mapId name x y description type).state) := by
  unfold createPOI
  have hne : ∀ id, id ∈ s.visiblePOIs → ¬ poiId = id := by
    intro id hid h
    obtain ⟨p, hp⟩ := hwf.visibleStored id hid
    rw [← h, hfresh] at hp
    cases hp
  have hwf1 : SceneWF
      { s with
        pointsOfInterest := s.pointsOfInterest.set poiId
          { id := poiId, mapId := mapId, name := name, x := x, y := y,
            description := description, type := type.orElse (.str "generic"),
            visible := .bool false, createdAt := now } } := by
    refine ⟨?_, hwf.actorIds, ?_, hwf.tablesNodup, hwf.currentNonempty, hwf.currentPlain,
      hwf.tablesPlain⟩
    · intro k p hk
      simp only [Dict.get?_set] at hk
      by_cases hkk : poiId = k
      · simp only [hkk, if_true, Option.some.injEq] at hk
        rw [← hk, ← hkk]
      · simp only [hkk, if_false] at hk
        exact hwf.poiIds k p hk
    · intro id hid
      simp only [Dict.get?_set, hne id hid, if_false]
      exact hwf.visibleStored id hid
  refine ⟨hwf1, c, rfl, ?_⟩
  rw [connectSnapshot_of_wf hwf1.currentNonempty]
  rw [connectSnapshot_of_wf hwf.currentNonempty] at hR
  refine ⟨hR.1, hR.2.1, hR.2.2.1, ?_⟩
  intro e
  rw [hR.2.2.2 e]
  simp only [List.mem_map, Dict.get?_set]
  constructor
  · rintro ⟨id, hid, hget⟩
    exact ⟨id, hid, by simp [hne id hid, hget]⟩
  · rintro ⟨id, hid, hget⟩
    simp only [hne id hid, if_false] at hget
    exact ⟨id, hid, hget⟩

theorem replica_deleteActor (env : Env) (s : GameState) (c : Snapshot) (actorId : String)
    (hwf : SceneWF s) (hR : c.sameScene (connectSnapshot s)) :
    SceneWF (deleteActor env s actorId).state ∧
    ∃ c1, clientRun c (broadcasts (deleteActor env s actorId).effects) = some c1 ∧
      c1.sameScene (connectSnapshot (deleteActor env s actorId).state) := by
  unfold deleteActor
  cases ha : s.actors.get? actorId with
  | none => exact ⟨hwf, c, rfl, hR⟩
  | some actor =>
    have hwf1 : SceneWF
        { s with
          actors := s.actors.del actorId
          actorPositions :=
            (Dict.keys s.actorPositions).foldl (removeActorFrom actorId) s.actorPositions } := by
      refine ⟨hwf.poiIds, ?_, hwf.visibleStored, ?_, hwf.currentNonempty, hwf.currentPlain, ?_⟩
      · intro k a hk
        simp only [Dict.get?_del] at hk
        by_cases hkk : actorId = k
        · simp [hkk] at hk
        · simp only [hkk, if_false] at hk
          exact hwf.actorIds k a hk
      · intro m t ht
        simp only [deleteActor_positions_get?] at ht
        cases hm : s.actorPositions.get? m with
        | none => simp [hm] at ht
        | some t0 =>
          simp only [hm, Option.map_some', Option.some.injEq] at ht
          rw [← ht]
          exact Dict.nodup_keys_del actorId (hwf.tablesNodup m t0 hm)
      · intro m t ht a hmem
        simp only [deleteActor_positions_get?] at ht
        cases hm : s.actorPositions.get? m with
        | none => simp [hm] at ht
        | some t0 =>
          simp only [hm, Option.map_some', Option.some.injEq] at ht
          rw [← ht] at hmem
          exact hwf.tablesPlain m t0 hm a (Dict.mem_keys_del hmem)
    refine ⟨hwf1, _, rfl, ?_⟩
    rw [connectSnapshot_of_wf hwf1.currentNonempty]
    rw [connectSnapshot_of_wf hwf.currentNonempty] at hR
    refine ⟨hR.1, hR.2.1, ?_, hR.2.2.2⟩
    show c.actors.filter (fun a => decide (a.id ≠ actorId)) = _
    rw [hR.2.2.1]
    cases hcur : s.currentMap with
    | none => rfl
    | some cm =>
      simp only [Option.map_some', Option.getD_some, mapActors, deleteActor_positions_get?]
      cases s.actorPositions.get? cm with
      | none => rfl
      | some t =>
        simp only [Option.map_some']
        exact (filterMap_mergeActor_del s.actors hwf.actorIds actorId t).symm

theorem replica_setActorPosition (env : Env) (s : GameState) (c : Snapshot)
    (actorId mapId : String) (x y : Int) (hwf : SceneWF s)
    (hR : c.sameScene (connectSnapshot s))
    (hok : (s.currentMap = some mapId ∧ onCurrentMap s actorId = true) ∨
      (s.currentMap ≠ some mapId ∧ onCurrentMap s actorId = false))
    (hplain : plainId actorId = true) :
    SceneWF (setActorPosition env s actorId mapId x y).state ∧
    ∃ c1, clientRun c (broadcasts (setActorPosition env s actorId mapId x y).effects) = some c1 ∧
      c1.sameScene (connectSnapshot (setActorPosition env s actorId mapId x y).state) := by
  unfold setActorPosition
  cases ha : s.actors.get? actorId with
  | none => exact ⟨hwf, c, rfl, hR⟩
  | some actor =>
    cases hm : s.maps.get? mapId with
    | none => exact ⟨hwf, c, rfl, hR⟩
    | some map =>
      have hwf1 : SceneWF
          { s with
            actorPositions := s.actorPositions.set mapId
              (((s.actorPositions.get? mapId).getD []).set actorId { x := x, y := y }) } := by
        refine ⟨hwf.poiIds, hwf.actorIds, hwf.visibleStored, ?_, hwf.currentNonempty,
          hwf.currentPlain, ?_⟩
        · intro m t ht
          simp only [Dict.get?_set] at ht
          by_cases hmm : mapId = m
          · simp only [hmm, if_true, Option.some.injEq] at ht
            rw [← ht]
            apply Dict.nodup_keys_set
            cases hg : s.actorPositions.get? m with
            | none => simp [Dict.keys]
            | some t0 => exact hwf.tablesNodup m t0 hg
          · simp only [hmm, if_false] at ht
            exact hwf.tablesNodup m t ht
        · intro m t ht a hmem
          simp only [Dict.get?_set] at ht
          by_cases hmm : mapId = m
          · simp only [hmm, if_true, Option.some.injEq] at ht
            rw [← ht] at hmem
            rcases Dict.mem_keys_set hmem with h | h
            · rw [h]
              exact hplain
            · cases hg : s.actorPositions.get? m with
              | none => simp [hg, Dict.keys] at h
              | some t0 =>
                rw [hg] at h
                exact hwf.tablesPlain m t0 hg a h
          · simp only [hmm, if_false] at ht
            exact hwf.tablesPlain m t ht a hmem
      refine ⟨hwf1, _, rfl, ?_⟩
      rw [connectSnapshot_of_wf hwf1.currentNonempty]
      rw [connectSnapshot_of_wf hwf.currentNonempty] at hR
      refine ⟨hR.1, hR.2.1, ?_, hR.2.2.2⟩
      show c.actors.map (fun a => if a.id = actorId then actor.placed x y else a) = _
      rw [hR.2.2.1]
      rcases hok with ⟨hcur, hon⟩ | ⟨hcur, hon⟩
      · simp only [onCurrentMap, hcur] at hon
        cases hg : s.actorPositions.get? mapId with
        | none => simp [hg] at hon
        | some t =>
          simp only [hg, Option.bind_some] at hon
          obtain ⟨pos, hpos⟩ := Option.isSome_iff_exists.mp hon
          simp only [hcur, Option.map_some', Option.getD_some, mapActors, hg,
            Dict.get?_set_self]
          exact (filterMap_mergeActor_set s.actors hwf.actorIds actorId actor ha x y t
            (hwf.tablesNodup mapId t hg) (Dict.mem_keys_of_get? hpos)).symm
      · cases hc : s.currentMap with
        | none => rfl
        | some cm =>
          have hcm : ¬ mapId = cm := by
            intro h
            exact hcur (by rw [hc, h])
          simp only [onCurrentMap, hc] at hon
          simp only [Option.map_some', Option.getD_some, mapActors, Dict.get?_set_ne _ _ hcm]
          cases hg : s.actorPositions.get? cm with
          | none => rfl
          | some t =>
            simp only [hg, Option.bind_some] at hon
            have hnot : actorId ∉ Dict.keys t := by
              intro hmem
              obtain ⟨v, hv⟩ := Dict.get?_isSome_of_mem_keys hmem
              simp [hv] at hon
            exact map_replace_of_not_mem_keys s.actors hwf.actorIds actorId _ t hnot

theorem replica_step (env : Env) (s : GameState) (c : Snapshot) (op : Op) (hwf : SceneWF s)
    (hR : c.sameScene (connectSnapshot s)) (hok : op.replicaSafe s)
    (hplain : op.plainIds = true) :
    SceneWF (op.run env s).state ∧
    ∃ c1, clientRun c (broadcasts (op.run env s).effects) = some c1 ∧
      c1.sameScene (connectSnapshot (op.run env s).state) := by
  cases op with
  | createMap mapId now name w ht file => exact absurd hok id
  | createPOI poiId now mapId name x y d t =>
    exact replica_createPOI env s c poiId now mapId name x y d t hwf hR hok
  | setPOIVisibility poiId visible => exact replica_setPOIVisibility env s c poiId visible hwf hR
  | setCurrentMap mapId => exact replica_setCurrentMap env s c mapId hwf hR hok hplain
  | deleteMap mapId => exact absurd hok id
  | createActor actorId now name color icon => exact absurd hok id
  | deleteActor actorId => exact replica_deleteActor env s c actorId hwf hR
  | setActorPosition actorId mapId x y =>
    have hp : plainId actorId = true := by
      simp only [Op.plainIds, Bool.and_eq_true] at hplain
      exact hplain.1
    exact replica_setActorPosition env s c actorId mapId x y hwf hR hok hp
  | importState upload => exact absurd hok id

theorem replica_runOps (ops : List (Env × Op)) (s : GameState) (c : Snapshot) (hwf : SceneWF s)
    (hR : c.sameScene (connectSnapshot s))
    (hok : OpsAdmissible (fun s op => op.replicaSafe s ∧ op.plainIds = true) s ops) :
    ∃ c1, clientRun c (broadcasts (runOps s ops).2) = some c1 ∧
      c1.sameScene (connectSnapshot (runOps s ops).1) := by
  induction ops generalizing s c with
  | nil => exact ⟨c, rfl, hR⟩
  | cons eo rest ih =>
    obtain ⟨env, op⟩ := eo
    obtain ⟨hwf1, c1, hc1, hR1⟩ := replica_step env s c op hwf hR hok.1.1 hok.1.2
    obtain ⟨c2, hc2, hR2⟩ := ih (op.run env s).state c1 hwf1 hR1 hok.2
    refine ⟨c2, ?_, hR2⟩
    simp only [runOps, broadcasts_append, clientRun_append, hc1]
    exact hc2

/-- C6, in the form that holds: from every well-formed state, a client that
starts from the `'game-state'` snapshot and folds the listeners of `App` over
the events broadcast by a sequence of `setCurrentMap`, `setPOIVisibility`,
`deleteActor`, `createPOI` requests and of `setActorPosition` requests that
move an actor already shown on the current map (or place elsewhere an actor
that is not shown), all of them with plain ids, ends in the scene a fresh
snapshot would give: same current map and map record, same actors with the
same positions, same set of visible POIs. -/
theorem C6_replica_follows_server (s : GameState) (ops : List (Env × Op)) (hwf : SceneWF s)
    (hok : OpsAdmissible (fun s op => op.replicaSafe s ∧ op.plainIds = true) s ops) :
    ∃ c, clientRun initialClientState
        (.gameState (connectSnapshot s) :: broadcasts (runOps s ops).2) = some c ∧
      c.sameScene (connectSnapshot (runOps s ops).1) :=
  replica_runOps ops s (connectSnapshot s) hwf ⟨rfl, rfl, rfl, fun _ => Iff.rfl⟩ hok

theorem sceneTwoMaps_wf : SceneWF sceneTwoMaps := by
  refine ⟨?_, ?_, ?_, ?_, by decide, ?_, ?_⟩
  · intro k p h
    simp only [sceneTwoMaps, Dict.get?_cons, Dict.get?_nil] at h
    split_ifs at h with h1 h2
    · cases h
      exact h1
    · cases h
      exact h2
  · intro k a h
    simp only [sceneTwoMaps, Dict.get?_cons, Dict.get?_nil] at h
    split_ifs at h with h1
    cases h
    exact h1
  · intro id hid
    simp only [sceneTwoMaps, List.mem_cons, List.mem_singleton, List.not_mem_nil, or_false] at hid
    rcases hid with h | h
    · exact ⟨chestPOI, by rw [h]; rfl⟩
    · exact ⟨wellPOI, by rw [h]; rfl⟩
  · intro m t h
    simp only [sceneTwoMaps, Dict.get?_cons, Dict.get?_nil] at h
    split_ifs at h with h1 h2
    · cases h
      decide
    · cases h
      decide
  · intro cm h
    have hcm : cm = "dungeon" := (Option.some.inj h).symm
    rw [hcm]
    decide
  · intro m t h
    simp only [sceneTwoMaps, Dict.get?_cons, Dict.get?_nil] at h
    split_ifs at h with h1 h2
    · cases h
      decide
    · cases h
      decide

/-- C6 on a concrete run from the sample scene: switch to the forest map, hide
the chest, move the rogue on the forest map, add a hidden POI, remove the
rogue. The folded client state is the fresh snapshot itself. -/
theorem C6_replica_follows_server_witness :
    clientRun initialClientState
        (.gameState (connectSnapshot sceneTwoMaps) :: broadcasts (runOps sceneTwoMaps
          [(Env.healthy, .setCurrentMap "forest"),
           (Env.healthy, .setPOIVisibility "chest" (.bool false)),
           (Env.diskFull, .setActorPosition "rogue" "forest" 5 5),
           (Env.healthy, .createPOI "door" "t5" "forest" (.str "Door") 1 1 .undefined .undefined),
           (Env.healthy, .deleteActor "rogue")]).2) =
      some (connectSnapshot (runOps sceneTwoMaps
          [(Env.healthy, .setCurrentMap "forest"),
           (Env.healthy, .setPOIVisibility "chest" (.bool false)),
           (Env.diskFull, .setActorPosition "rogue" "forest" 5 5),
           (Env.healthy, .createPOI "door" "t5" "forest" (.str "Door") 1 1 .undefined .undefined),
           (Env.healthy, .deleteActor "rogue")]).1) ∧
    ∃ c, clientRun initialClientState
        (.gameState (connectSnapshot sceneTwoMaps) :: broadcasts (runOps sceneTwoMaps
          [(Env.healthy, .setCurrentMap "forest"),
           (Env.healthy, .setPOIVisibility "chest" (.bool false)),
           (Env.diskFull, .setActorPosition "rogue" "forest" 5 5),
           (Env.healthy, .createPOI "door" "t5" "forest" (.str "Door") 1 1 .undefined .undefined),
           (Env.healthy, .deleteActor "rogue")]).2) = some c ∧
      c.sameScene (connectSnapshot (runOps sceneTwoMaps
          [(Env.healthy, .setCurrentMap "forest"),
           (Env.healthy, .setPOIVisibility "chest" (.bool false)),
           (Env.diskFull, .setActorPosition "rogue" "forest" 5 5),
           (Env.healthy, .createPOI "door" "t5" "forest" (.str "Door") 1 1 .undefined .undefined),
           (Env.healthy, .deleteActor "rogue")]).1) := by
  refine ⟨by decide, ?_⟩
  exact C6_replica_follows_server sceneTwoMaps _ sceneTwoMaps_wf
    ⟨⟨by unfold Op.replicaSafe; decide, by decide⟩, ⟨trivial, by decide⟩,
      ⟨by unfold Op.replicaSafe; decide, by decide⟩,
      ⟨by unfold Op.replicaSafe; decide, by decide⟩, ⟨trivial, by decide⟩, trivial⟩

/-- C6, counterexample to the specification's statement, on two accepted requests.
Placing an actor that was not yet on the current map broadcasts
`'actor-moved'`, which the client maps over its actor list without adding to
it: the client shows no actor where a fresh snapshot shows the rogue at (1,1).
Deleting the current map broadcasts nothing: the client keeps the map and its
POIs where a fresh snapshot has no current map. -/
theorem C6_replica_diverges :
    (Op.run Env.healthy sceneUnplaced (.setActorPosition "rogue" "dungeon" 1 1)).status = 200 ∧
    (Op.run Env.healthy sceneTwoMaps (.deleteMap "dungeon")).status = 200 ∧
    (clientRun initialClientState
        (.gameState (connectSnapshot sceneUnplaced) :: broadcasts (runOps sceneUnplaced
          [(Env.healthy, .setActorPosition "rogue" "dungeon" 1 1)]).2)).map (·.actors)
      = some [] ∧
    (connectSnapshot (runOps sceneUnplaced
          [(Env.healthy, .setActorPosition "rogue" "dungeon" 1 1)]).1).actors
      = [rogueActor.placed 1 1] ∧
    (clientRun initialClientState
        (.gameState (connectSnapshot sceneTwoMaps) :: broadcasts (runOps sceneTwoMaps
          [(Env.healthy, .deleteMap "dungeon")]).2)).map (·.currentMap)
      = some (some "dungeon") ∧
    (connectSnapshot (runOps sceneTwoMaps [(Env.healthy, .deleteMap "dungeon")]).1).currentMap
      = none ∧
    (clientRun initialClientState
        (.gameState (connectSnapshot sceneTwoMaps) :: broadcasts (runOps sceneTwoMaps
          [(Env.healthy, .deleteMap "dungeon")]).2)).map (·.visiblePOIs)
      = some [some chestPOI, some wellPOI] ∧
    (connectSnapshot (runOps sceneTwoMaps [(Env.healthy, .deleteMap "dungeon")]).1).visiblePOIs
      = [some wellPOI] := by
  decide

/-! ## Placing an actor -/

/-- Placing an actor, for plain ids: `setActorPosition` answers 404 exactly
when the actor or the map is not stored, and otherwise answers with the
position it was given, whatever the coordinates: the map's grid size is never
consulted. On the sample scene, whose first map is 20 by 20, the rogue is
placed at (-3, 500). (For an id that names a member of `Object.prototype` the
tests of the handler pass without a stored record.) -/
theorem setActorPosition_notFound_iff_of_plain (env : Env) (s : GameState)
    (actorId mapId : String) (x y : Int)
    (_hplain : plainId actorId = true ∧ plainId mapId = true) :
    ((setActorPosition env s actorId mapId x y).response.status = 404 ↔
      s.actors.get? actorId = none ∨ s.maps.get? mapId = none) ∧
    ((setActorPosition env s actorId mapId x y).response.status = 404 ∨
      ((setActorPosition env s actorId mapId x y).response = .ok { x := x, y := y } ∧
        binding (setActorPosition env s actorId mapId x y).state mapId actorId
          = some { x := x, y := y })) ∧
    (setActorPosition Env.healthy sceneTwoMaps "rogue" "dungeon" (-3) 500).response
      = .ok { x := -3, y := 500 } := by
  refine ⟨?_, ?_, by decide⟩
  · unfold setActorPosition
    cases ha : s.actors.get? actorId with
    | none => simp [Response.status]
    | some actor =>
      cases hm : s.maps.get? mapId with
      | none => simp [Response.status]
      | some map => simp [Response.status]
  · unfold setActorPosition
    cases ha : s.actors.get? actorId with
    | none => exact Or.inl rfl
    | some actor =>
      cases hm : s.maps.get? mapId with
      | none => exact Or.inl rfl
      | some map =>
        right
        refine ⟨rfl, ?_⟩
        simp [binding]

/-- C12: an accepted `setActorPosition` binds the actor on the map to exactly
`(x, y)`, whether or not it was bound there before, leaves every other binding
as it was, and changes neither maps, actors, POIs, `visiblePOIs`, `currentMap`
nor the fog settings. -/
theorem C12_setActorPosition_upsert (env : Env) (s : GameState) (actorId mapId : String)
    (x y : Int) (actor : Actor) (map : MapRec) (hactor : s.actors.get? actorId = some actor)
    (hmap : s.maps.get? mapId = some map) :
    binding (setActorPosition env s actorId mapId x y).state mapId actorId
      = some { x := x, y := y } ∧
    (∀ m a, m ≠ mapId ∨ a ≠ actorId →
      binding (setActorPosition env s actorId mapId x y).state m a = binding s m a) ∧
    (setActorPosition env s actorId mapId x y).state.maps = s.maps ∧
    (setActorPosition env s actorId mapId x y).state.actors = s.actors ∧
    (setActorPosition env s actorId mapId x y).state.pointsOfInterest = s.pointsOfInterest ∧
    (setActorPosition env s actorId mapId x y).state.visiblePOIs = s.visiblePOIs ∧
    (setActorPosition env s actorId mapId x y).state.currentMap = s.currentMap ∧
    (setActorPosition env s actorId mapId x y).state.fogSettings = s.fogSettings := by
  simp only [setActorPosition, hactor, hmap]
  refine ⟨by simp [binding], ?_, trivial, trivial, trivial, trivial, trivial, trivial⟩
  intro m a hne
  simp only [binding, Dict.get?_set]
  by_cases hm : mapId = m
  · subst hm
    have ha : ¬ actorId = a := by
      rcases hne with h | h
      · exact absurd rfl h
      · exact fun h2 => h h2.symm
    cases s.actorPositions.get? mapId with
    | none => simp [Dict.get?_set, ha]
    | some t => simp [Dict.get?_set, ha]
  · simp [hm]

/-- C12 on the sample scene: the rogue, bound at (0,0) on the first map, is
moved to (4,7) there; its binding on the second map stays (2,2). -/
theorem C12_setActorPosition_upsert_witness :
    binding (setActorPosition Env.healthy sceneTwoMaps "rogue" "dungeon" 4 7).state
      "dungeon" "rogue" = some { x := 4, y := 7 } ∧
    binding (setActorPosition Env.healthy sceneTwoMaps "rogue" "dungeon" 4 7).state
      "forest" "rogue" = some { x := 2, y := 2 } ∧
    binding (setActorPosition Env.healthy sceneUnplaced "rogue" "dungeon" 4 7).state
      "dungeon" "rogue" = some { x := 4, y := 7 } := by
  refine ⟨?_, by decide, ?_⟩
  · exact (C12_setActorPosition_upsert Env.healthy sceneTwoMaps "rogue" "dungeon" 4 7
      rogueActor dungeonMap (by decide) (by decide)).1
  · exact (C12_setActorPosition_upsert Env.healthy sceneUnplaced "rogue" "dungeon" 4 7
      rogueActor dungeonMap (by decide) (by decide)).1

/-! ## Deleting an actor -/

/-- C13: `deleteActor` on an existing actor answers success for every shape of
the position tables, removes the actor record and the actor's binding on every
map, and leaves the other actors, the bindings of the other actors, the set of
maps that have a position table, and maps, POIs, `visiblePOIs`, `currentMap`
and fog settings as they were. -/
theorem C13_deleteActor_cascade (env : Env) (s : GameState) (actorId : String) (actor : Actor)
    (hactor : s.actors.get? actorId = some actor) :
    (deleteActor env s actorId).response = .ok () ∧
    (deleteActor env s actorId).state.actors.get? actorId = none ∧
    (∀ m, binding (deleteActor env s actorId).state m actorId = none) ∧
    (∀ a, a ≠ actorId → (deleteActor env s actorId).state.actors.get? a = s.actors.get? a) ∧
    (∀ m a, a ≠ actorId → binding (deleteActor env s actorId).state m a = binding s m a) ∧
    (∀ m, ((deleteActor env s actorId).state.actorPositions.get? m).isSome
      = (s.actorPositions.get? m).isSome) ∧
    (deleteActor env s actorId).state.maps = s.maps ∧
    (deleteActor env s actorId).state.pointsOfInterest = s.pointsOfInterest ∧
    (deleteActor env s actorId).state.visiblePOIs = s.visiblePOIs ∧
    (deleteActor env s actorId).state.currentMap = s.currentMap ∧
    (deleteActor env s actorId).state.fogSettings = s.fogSettings := by
  simp only [deleteActor, hactor]
  refine ⟨trivial, Dict.get?_del_self _ _, ?_, ?_, ?_, ?_, trivial, trivial, trivial, trivial,
    trivial⟩
  · intro m
    simp only [binding, deleteActor_positions_get?]
    cases s.actorPositions.get? m with
    | none => rfl
    | some t => simp
  · intro a ha
    exact Dict.get?_del_ne _ (Ne.symm ha)
  · intro m a ha
    simp only [binding, deleteActor_positions_get?]
    cases s.actorPositions.get? m with
    | none => rfl
    | some t => simp [Dict.get?_del_ne t (Ne.symm ha)]
  · intro m
    simp only [deleteActor_positions_get?]
    cases s.actorPositions.get? m <;> rfl

/-- C13 on the sample scene, where the rogue stands on both maps. -/
theorem C13_deleteActor_cascade_witness :
    (deleteActor Env.healthy sceneTwoMaps "rogue").state.actorPositions
      = [("dungeon", []), ("forest", [])] ∧
    (deleteActor Env.healthy sceneTwoMaps "rogue").state.actors.get? "rogue" = none := by
  refine ⟨by decide, ?_⟩
  exact (C13_deleteActor_cascade Env.healthy sceneTwoMaps "rogue" rogueActor (by decide)).2.1

/-! ## Invariants of the position bindings -/

theorem Dict.isSome_get?_set {α : Type} (d : Dict α) (k k2 : String) (v : α)
    (h : (d.get? k2).isSome = true) : ((d.set k v).get? k2).isSome = true := by
  rw [Dict.get?_set]
  split
  · rfl
  · exact h

theorem binding_setActorPosition (P : Dict (Dict Pos)) (mapId actorId : String) (pos : Pos)
    (m a : String) :
    ((P.set mapId (((P.get? mapId).getD []).set actorId pos)).get? m).bind
        (fun t => t.get? a) =
      if mapId = m ∧ actorId = a then some pos else (P.get? m).bind (fun t => t.get? a) := by
  rw [Dict.get?_set]
  by_cases hm : mapId = m
  · subst hm
    by_cases ha : actorId = a
    · subst ha
      simp
    · cases P.get? mapId with
      | none => simp [Dict.get?_set, ha]
      | some t => simp [Dict.get?_set, ha]
  · simp [hm]

theorem bindingsRefer_run (env : Env) (s : GameState) (op : Op) (hop : op.isStoreOp = true)
    (h : BindingsRefer s) : BindingsRefer (op.run env s).state := by
  cases op with
  | createMap mapId now name w ht file =>
    intro m a pos hb
    have := h m a pos hb
    exact ⟨Dict.isSome_get?_set _ _ _ _ this.1, this.2⟩
  | createPOI poiId now mapId name x y d t => exact h
  | setPOIVisibility poiId visible =>
    simp only [Op.run, Outcome.step, setPOIVisibility]
    cases s.pointsOfInterest.get? poiId <;> exact h
  | setCurrentMap mapId =>
    simp only [Op.run, Outcome.step, setCurrentMap]
    cases s.maps.get? mapId <;> exact h
  | deleteMap mapId =>
    simp only [Op.run, Outcome.step, deleteMap]
    cases hm : s.maps.get? mapId with
    | none => exact h
    | some map =>
      intro m a pos hb
      simp only [binding, Dict.get?_del] at hb
      by_cases hmm : mapId = m
      · simp [hmm] at hb
      · simp only [hmm, if_false] at hb
        have := h m a pos hb
        refine ⟨?_, this.2⟩
        show ((s.maps.del mapId).get? m).isSome = true
        rw [Dict.get?_del_ne _ hmm]
        exact this.1
  | createActor actorId now name color icon =>
    intro m a pos hb
    have := h m a pos hb
    exact ⟨this.1, Dict.isSome_get?_set _ _ _ _ this.2⟩
  | deleteActor actorId =>
    simp only [Op.run, Outcome.step, deleteActor]
    cases ha : s.actors.get? actorId with
    | none => exact h
    | some actor =>
      intro m a pos hb
      simp only [binding, deleteActor_positions_get?] at hb
      cases ht : s.actorPositions.get? m with
      | none => simp [ht] at hb
      | some t =>
        simp only [ht, Option.map_some', Option.some_bind, Dict.get?_del] at hb
        by_cases haa : actorId = a
        · simp [haa] at hb
        · simp only [haa, if_false] at hb
          have := h m a pos (by simp [binding, ht, hb])
          refine ⟨this.1, ?_⟩
          show ((s.actors.del actorId).get? a).isSome = true
          rw [Dict.get?_del_ne _ haa]
          exact this.2
  | setActorPosition actorId mapId x y =>
    simp only [Op.run, Outcome.step, setActorPosition]
    cases ha : s.actors.get? actorId with
    | none => exact h
    | some actor =>
      cases hm : s.maps.get? mapId with
      | none => exact h
      | some map =>
        intro m a pos hb
        simp only [binding, binding_setActorPosition] at hb
        by_cases hma : mapId = m ∧ actorId = a
        · obtain ⟨rfl, rfl⟩ := hma
          exact ⟨by simp [hm], by simp [ha]⟩
        · simp only [hma, if_false] at hb
          exact h m a pos hb
  | importState upload => simp [Op.isStoreOp] at hop

theorem bindingsRefer_runOps (ops : List (Env × Op)) (s : GameState)
    (hok : OpsAdmissible (fun _ op => op.isStoreOp = true) s ops) (h : BindingsRefer s) :
    BindingsRefer (runOps s ops).1 := by
  induction ops generalizing s with
  | nil => exact h
  | cons eo rest ih =>
    obtain ⟨env, op⟩ := eo
    exact ih (op.run env s).state hok.2 (bindingsRefer_run env s op hok.1 h)

theorem opsAdmissible_imp {ok ok2 : GameState → Op → Prop}
    (himp : ∀ s op, ok s op → ok2 s op) (ops : List (Env × Op)) (s : GameState)
    (h : OpsAdmissible ok s ops) : OpsAdmissible ok2 s ops := by
  induction ops generalizing s with
  | nil => trivial
  | cons eo rest ih =>
    obtain ⟨env, op⟩ := eo
    exact ⟨himp s op h.1, ih _ h.2⟩

/-- Position bindings under requests with plain ids: in every state reached
from the initial state by `createMap`, `createActor`, `createPOI`,
`setPOIVisibility`, `setCurrentMap`, `setActorPosition`, `deleteMap` and
`deleteActor` requests whose ids are plain, every position binding
`(mapId, actorId)` refers to a stored map and a stored actor. (A request
`setActorPosition` for the actor id `valueOf` is not of this kind: the code
accepts it on every stored map and binds an actor that is not stored.) -/
theorem bindingsRefer_of_plain_ops (ops : List (Env × Op))
    (hok : OpsAdmissible (fun _ op => op.isStoreOp = true ∧ op.plainIds = true)
      GameState.initial ops) :
    BindingsRefer (runOps GameState.initial ops).1 :=
  bindingsRefer_runOps ops GameState.initial
    (opsAdmissible_imp (fun _ _ h => h.1) ops GameState.initial hok) (by
    intro m a pos hb
    simp [binding, GameState.initial] at hb)

/-- A concrete run with plain ids: an actor placed on two maps, then the first
map deleted; the one binding left refers to the second map and to the actor. -/
theorem bindingsRefer_sample_run :
    (runOps GameState.initial
        (placeOnTwoMaps ++ [(Env.healthy, .deleteMap "dungeon")])).1.actorPositions
      = [("forest", [("rogue", ⟨2, 2⟩)])] ∧
    BindingsRefer
      (runOps GameState.initial (placeOnTwoMaps ++ [(Env.healthy, .deleteMap "dungeon")])).1 := by
  refine ⟨by decide, ?_⟩
  exact bindingsRefer_of_plain_ops _
    ⟨by decide, by decide, by decide, by decide, by decide, by decide, trivial⟩

theorem tablesNodup_run (env : Env) (s : GameState) (op : Op) (hop : op.isStoreOp = true)
    (h : TablesNodup s) : TablesNodup (op.run env s).state := by
  cases op with
  | createMap mapId now name w ht file => exact h
  | createPOI poiId now mapId name x y d t => exact h
  | setPOIVisibility poiId visible =>
    simp only [Op.run, Outcome.step, setPOIVisibility]
    cases s.pointsOfInterest.get? poiId <;> exact h
  | setCurrentMap mapId =>
    simp only [Op.run, Outcome.step, setCurrentMap]
    cases s.maps.get? mapId <;> exact h
  | deleteMap mapId =>
    simp only [Op.run, Outcome.step, deleteMap]
    cases hm : s.maps.get? mapId with
    | none => exact h
    | some map =>
      intro m t ht
      simp only [Dict.get?_del] at ht
      by_cases hmm : mapId = m
      · simp [hmm] at ht
      · simp only [hmm, if_false] at ht
        exact h m t ht
  | createActor actorId now name color icon => exact h
  | deleteActor actorId =>
    simp only [Op.run, Outcome.step, deleteActor]
    cases ha : s.actors.get? actorId with
    | none => exact h
    | some actor =>
      intro m t ht
      simp only [deleteActor_positions_get?] at ht
      cases hm : s.actorPositions.get? m with
      | none => simp [hm] at ht
      | some t0 =>
        simp only [hm, Option.map_some', Option.some.injEq] at ht
        rw [← ht]
        exact Dict.nodup_keys_del actorId (h m t0 hm)
  | setActorPosition actorId mapId x y =>
    simp only [Op.run, Outcome.step, setActorPosition]
    cases ha : s.actors.get? actorId with
    | none => exact h
    | some actor =>
      cases hm : s.maps.get? mapId with
      | none => exact h
      | some map =>
        intro m t ht
        simp only [Dict.get?_set] at ht
        by_cases hmm : mapId = m
        · simp only [hmm, if_true, Option.some.injEq] at ht
          rw [← ht]
          apply Dict.nodup_keys_set
          cases hg : s.actorPositions.get? m with
          | none => simp [Dict.keys]
          | some t0 => exact h m t0 hg
        · simp only [hmm, if_false] at ht
          exact h m t ht
  | importState upload => simp [Op.isStoreOp] at hop

theorem tablesNodup_runOps (ops : List (Env × Op)) (s : GameState)
    (hok : OpsAdmissible (fun _ op => op.isStoreOp = true) s ops) (h : TablesNodup s) :
    TablesNodup (runOps s ops).1 := by
  induction ops generalizing s with
  | nil => exact h
  | cons eo rest ih =>
    obtain ⟨env, op⟩ := eo
    exact ih (op.run env s).state hok.2 (tablesNodup_run env s op hok.1 h)

/-- C15, in the form that holds: an actor has at most one position per map. In
every state reached from the initial state by the store operations each
position table lists an actor at most once, and `setActorPosition` on one map
leaves the actor's bindings on all other maps as they were: placing an actor
on a second map neither removes nor replaces its binding on the first. -/
theorem C15_one_position_per_map (ops : List (Env × Op))
    (hok : OpsAdmissible (fun _ op => op.isStoreOp = true) GameState.initial ops)
    (env : Env) (actorId mapId : String) (x y : Int) :
    TablesNodup (runOps GameState.initial ops).1 ∧
    ∀ m, m ≠ mapId →
      binding (setActorPosition env (runOps GameState.initial ops).1 actorId mapId x y).state
          m actorId
        = binding (runOps GameState.initial ops).1 m actorId := by
  refine ⟨tablesNodup_runOps ops GameState.initial hok (by
    intro m t ht
    simp [GameState.initial] at ht), ?_⟩
  intro m hm
  unfold setActorPosition
  cases (runOps GameState.initial ops).1.actors.get? actorId with
  | none => rfl
  | some actor =>
    cases (runOps GameState.initial ops).1.maps.get? mapId with
    | none => rfl
    | some map =>
      simp only [binding, binding_setActorPosition]
      have hmm : ¬ mapId = m := fun h => hm h.symm
      simp [hmm]

/-- C15 on a concrete run: after the actor was placed on the first map,
placing it on the second keeps the binding on the first. -/
theorem C15_one_position_per_map_witness :
    binding (setActorPosition Env.healthy (runOps GameState.initial placeOnFirstMap).1
        "rogue" "forest" 2 2).state "dungeon" "rogue" = some { x := 0, y := 0 } ∧
    TablesNodup (runOps GameState.initial placeOnFirstMap).1 := by
  refine ⟨by decide, ?_⟩
  exact (C15_one_position_per_map placeOnFirstMap ⟨rfl, rfl, rfl, rfl, trivial⟩ Env.healthy
    "rogue" "forest" 2 2).1

/-- C15, counterexample to the specification's statement: the actor stands on
the first map, placing it on the second map is accepted, and afterwards the
actor has a binding on both maps at once. -/
theorem C15_actor_on_two_maps :
    binding (runOps GameState.initial placeOnFirstMap).1 "dungeon" "rogue"
      = some { x := 0, y := 0 } ∧
    (Op.run Env.healthy (runOps GameState.initial placeOnFirstMap).1
      (.setActorPosition "rogue" "forest" 2 2)).status = 200 ∧
    binding (runOps GameState.initial placeOnTwoMaps).1 "dungeon" "rogue"
      = some { x := 0, y := 0 } ∧
    binding (runOps GameState.initial placeOnTwoMaps).1 "forest" "rogue"
      = some { x := 2, y := 2 } := by
  decide

/-! ## Who may change the fog settings -/

theorem run_fogSettings (env : Env) (s : GameState) (op : Op) :
    (op.run env s).state.fogSettings = s.fogSettings := by
  cases op with
  | createMap mapId now name w ht file => rfl
  | createPOI poiId now mapId name x y d t => rfl
  | setPOIVisibility poiId visible =>
    simp only [Op.run, Outcome.step, setPOIVisibility]
    cases s.pointsOfInterest.get? poiId <;> rfl
  | setCurrentMap mapId =>
    simp only [Op.run, Outcome.step, setCurrentMap]
    cases s.maps.get? mapId <;> rfl
  | deleteMap mapId =>
    simp only [Op.run, Outcome.step, deleteMap]
    cases s.maps.get? mapId <;> rfl
  | createActor actorId now name color icon => rfl
  | deleteActor actorId =>
    simp only [Op.run, Outcome.step, deleteActor]
    cases s.actors.get? actorId <;> rfl
  | setActorPosition actorId mapId x y =>
    simp only [Op.run, Outcome.step, setActorPosition]
    cases s.actors.get? actorId with
    | none => rfl
    | some actor => cases s.maps.get? mapId <;> rfl
  | importState upload =>
    simp only [Op.run, Outcome.step, importState]
    cases upload with
    | missing => rfl
    | file parsed =>
      cases parsed with
      | none => rfl
      | some doc =>
        dsimp only
        split
        · rfl
        · split
          · rfl
          · split <;> rfl

/-- C16, in the form that holds: the fog settings change through the
`dm-update-fog-settings` message only (no other socket message and no REST
request touches them), but the server applies that message whoever sends it:
the new state and the emissions do not depend on the sending session nor on the
rooms it joined, the settings are replaced and the two-key payload goes to the
players room. -/
theorem C16_fog_update_ignores_role (env : Env) (h : Hub) (sender other : String)
    (rooms : List (String × String)) (settings : FogSettings) (msg : SocketMsg)
    (s : GameState) (op : Op) :
    (onMessage env h sender (.dmUpdateFogSettings settings)).1.game.fogSettings =
      { fogEnabled := settings.fogEnabled, visionRadius := settings.visionRadius,
        showVisionCircles := settings.showVisionCircles.orElse (.bool true) } ∧
    emitted (onMessage env h sender (.dmUpdateFogSettings settings)).2 =
      [(.room "players", .playerFogSettings
        [("fogEnabled", settings.fogEnabled), ("visionRadius", settings.visionRadius)])] ∧
    (onMessage env h sender (.dmUpdateFogSettings settings)).1.game =
      (onMessage env { h with rooms := rooms } other (.dmUpdateFogSettings settings)).1.game ∧
    (onMessage env h sender (.dmUpdateFogSettings settings)).2 =
      (onMessage env { h with rooms := rooms } other (.dmUpdateFogSettings settings)).2 ∧
    ((∃ update, msg = .dmUpdateFogSettings update) ∨
      (onMessage env h sender msg).1.game = h.game) ∧
    (op.run env s).state.fogSettings = s.fogSettings := by
  refine ⟨rfl, ?_, rfl, rfl, ?_, run_fogSettings env s op⟩
  · simp [onMessage, saveGameState, emitted]
  · cases msg with
    | dmUpdateFogSettings update => exact Or.inl ⟨update, rfl⟩
    | joinAsDm => exact Or.inr rfl
    | dmRequestFogSettings => exact Or.inr rfl
    | joinAsPlayer => exact Or.inr rfl
    | playerRequestFogSettings => exact Or.inr rfl
    | disconnect => exact Or.inr rfl

/-- C16, counterexample to the specification's statement: a session that
joined as player, and one that joined nothing, send `dm-update-fog-settings`;
neither is in the director's room, the stored fog settings change and the new
values are sent to the players room, which the first session is in. -/
theorem C16_player_updates_fog :
    ("dm", "viewer") ∉ hubOneViewer.rooms ∧ ("dm", "stranger") ∉ hubOneViewer.rooms ∧
    hubOneViewer.game.fogSettings =
      { fogEnabled := .bool true, visionRadius := .num 5, showVisionCircles := .bool true } ∧
    (onMessage Env.healthy hubOneViewer "viewer"
      (.dmUpdateFogSettings ⟨.bool false, .num 3, .bool false⟩)).1.game.fogSettings =
      { fogEnabled := .bool false, visionRadius := .num 3, showVisionCircles := .bool true } ∧
    (onMessage Env.healthy hubOneViewer "stranger"
      (.dmUpdateFogSettings ⟨.bool false, .num 3, .bool false⟩)).1.game.fogSettings =
      { fogEnabled := .bool false, visionRadius := .num 3, showVisionCircles := .bool true } ∧
    emitted (onMessage Env.healthy hubOneViewer "stranger"
      (.dmUpdateFogSettings ⟨.bool false, .num 3, .bool false⟩)).2 =
      [(.room "players", .playerFogSettings
        [("fogEnabled", .bool false), ("visionRadius", .num 3)])] ∧
    receives hubOneViewer.rooms "viewer" (.room "players") = true := by
  decide

/-! ## The stored vision radius -/

theorem onMessage_radius (env : Env) (h : Hub) (sender : String) (msg : SocketMsg)
    (hmsg : msg.radiusOk = true)
    (hr : radiusInRange h.game.fogSettings.visionRadius = true) :
    radiusInRange (onMessage env h sender msg).1.game.fogSettings.visionRadius = true := by
  cases msg with
  | dmUpdateFogSettings update => exact hmsg
  | joinAsDm => exact hr
  | dmRequestFogSettings => exact hr
  | joinAsPlayer => exact hr
  | playerRequestFogSettings => exact hr
  | disconnect => exact hr

theorem runMessages_radius (env : Env) (msgs : List (String × SocketMsg)) (h : Hub)
    (hmsgs : ∀ m ∈ msgs, m.2.radiusOk = true)
    (hr : radiusInRange h.game.fogSettings.visionRadius = true) :
    radiusInRange (runMessages env h msgs).1.game.fogSettings.visionRadius = true := by
  induction msgs generalizing h with
  | nil => exact hr
  | cons m rest ih =>
    obtain ⟨sender, msg⟩ := m
    exact ih (onMessage env h sender msg).1
      (fun m hm => hmsgs m (List.mem_cons_of_mem _ hm))
      (onMessage_radius env h sender msg (hmsgs (sender, msg) (List.mem_cons_self _ _)) hr)

/-- C17, in the form that holds: the server stores the vision radius of a
`dm-update-fog-settings` message exactly as sent, without validation. The
initial radius is 5, and the stored radius is an integer in 2..10 after every
sequence of socket messages whose updates all carry a radius in that range,
which is what the director's slider sends. -/
theorem C17_radius_stored_as_sent (env : Env) (rooms : List (String × String))
    (msgs : List (String × SocketMsg)) (hmsgs : ∀ m ∈ msgs, m.2.radiusOk = true)
    (h : Hub) (sender : String) (settings : FogSettings) :
    GameState.initial.fogSettings.visionRadius = .num 5 ∧
    radiusInRange
      (runMessages env ⟨GameState.initial, rooms⟩ msgs).1.game.fogSettings.visionRadius = true ∧
    (onMessage env h sender (.dmUpdateFogSettings settings)).1.game.fogSettings.visionRadius
      = settings.visionRadius :=
  ⟨rfl, runMessages_radius env msgs ⟨GameState.initial, rooms⟩ hmsgs rfl, rfl⟩

/-- C17 on a concrete run: a director joins and moves the slider to 8, a
player joins. -/
theorem C17_radius_stored_as_sent_witness :
    (runMessages Env.healthy ⟨GameState.initial, []⟩
      [("dm", .joinAsDm), ("dm", .dmUpdateFogSettings ⟨.bool true, .num 8, .bool true⟩),
       ("viewer", .joinAsPlayer)]).1.game.fogSettings.visionRadius = .num 8 ∧
    radiusInRange (runMessages Env.healthy ⟨GameState.initial, []⟩
      [("dm", .joinAsDm), ("dm", .dmUpdateFogSettings ⟨.bool true, .num 8, .bool true⟩),
       ("viewer", .joinAsPlayer)]).1.game.fogSettings.visionRadius = true := by
  refine ⟨by decide, ?_⟩
  exact (C17_radius_stored_as_sent Env.healthy []
    [("dm", .joinAsDm), ("dm", .dmUpdateFogSettings ⟨.bool true, .num 8, .bool true⟩),
     ("viewer", .joinAsPlayer)] (by decide) ⟨GameState.initial, []⟩ "dm"
    ⟨.bool true, .num 8, .bool true⟩).2.1

/-- C17, counterexample to the specification's statement: updates carrying the
radius 50, the radius 0, a text or no radius at all are stored as they are. -/
theorem C17_radius_out_of_range_stored :
    (onMessage Env.healthy ⟨GameState.initial, [("dm", "dm")]⟩ "dm"
      (.dmUpdateFogSettings ⟨.bool true, .num 50, .bool true⟩)).1.game.fogSettings.visionRadius
      = .num 50 ∧
    (onMessage Env.healthy ⟨GameState.initial, [("dm", "dm")]⟩ "dm"
      (.dmUpdateFogSettings ⟨.bool true, .num 0, .bool true⟩)).1.game.fogSettings.visionRadius
      = .num 0 ∧
    (onMessage Env.healthy ⟨GameState.initial, [("dm", "dm")]⟩ "dm"
      (.dmUpdateFogSettings ⟨.bool true, .str "far", .bool true⟩)).1.game.fogSettings.visionRadius
      = .str "far" ∧
    (onMessage Env.healthy ⟨GameState.initial, [("dm", "dm")]⟩ "dm"
      (.dmUpdateFogSettings ⟨.bool true, .undefined, .bool true⟩)).1.game.fogSettings.visionRadius
      = .undefined ∧
    radiusInRange (.num 50) = false ∧ radiusInRange (.num 0) = false ∧
    radiusInRange (.str "far") = false ∧ radiusInRange .undefined = false := by
  decide

/-! ## The connect snapshot -/

theorem mem_filterMap_mergeActor (A : Dict Actor) (t : Dict Pos) (e : ActorOnMap) :
    e ∈ t.filterMap (mergeActor A) ↔
      ∃ a pos actor, (a, pos) ∈ t ∧ A.get? a = some actor ∧ e = actor.placed pos.x pos.y := by
  rw [List.mem_filterMap]
  constructor
  · rintro ⟨⟨a, pos⟩, hmem, hmerge⟩
    unfold mergeActor at hmerge
    cases hg : A.get? a with
    | none => simp [hg] at hmerge
    | some actor =>
      simp only [hg, Option.some.injEq] at hmerge
      exact ⟨a, pos, actor, hmem, hg, hmerge.symm⟩
  · rintro ⟨a, pos, actor, hmem, hg, rfl⟩
    exact ⟨(a, pos), hmem, by simp [mergeActor, hg]⟩

/-- C18: in a state whose `visiblePOIs` is the set of ids of the POIs flagged
visible (and whose current map is not the empty id), the one effect of a new
connection is the `'game-state'` payload sent to the new socket alone, and in
it `currentMap` is the state's, `map` is the record stored under it (none when
there is no current map), `visiblePOIs` has one entry per visible id and holds
exactly the stored POI records flagged visible, each a defined record, and
`actors` is built from the position table of the current map: one entry per
binding whose actor exists, the actor record merged with the binding's
`(x, y)`. -/
theorem C18_connect_snapshot (h : Hub) (socketId : String) (hinv : VisiblePOIsInv h.game)
    (hcur : h.game.currentMap ≠ some "") :
    (onConnection h socketId).2 =
      [.emit (.socket socketId) (.gameState (connectSnapshot h.game))] ∧
    (connectSnapshot h.game).currentMap = h.game.currentMap ∧
    (connectSnapshot h.game).map = h.game.currentMap.bind h.game.maps.get? ∧
    (connectSnapshot h.game).visiblePOIs.length = h.game.visiblePOIs.length ∧
    (∀ e, e ∈ (connectSnapshot h.game).visiblePOIs ↔
      ∃ id poi, h.game.pointsOfInterest.get? id = some poi ∧ poi.visible = .bool true ∧
        e = some poi) ∧
    (connectSnapshot h.game).actors =
      ((h.game.currentMap.bind h.game.actorPositions.get?).getD []).filterMap
        (mergeActor h.game.actors) ∧
    (∀ e, e ∈ (connectSnapshot h.game).actors ↔
      ∃ cm t a pos actor, h.game.currentMap = some cm ∧
        h.game.actorPositions.get? cm = some t ∧ (a, pos) ∈ t ∧
        h.game.actors.get? a = some actor ∧ e = actor.placed pos.x pos.y) := by
  have hsnap := connectSnapshot_of_wf hcur
  have hactors : (connectSnapshot h.game).actors =
      ((h.game.currentMap.bind h.game.actorPositions.get?).getD []).filterMap
        (mergeActor h.game.actors) := by
    rw [hsnap]
    cases h.game.currentMap with
    | none => rfl
    | some cm =>
      simp only [Option.map_some', Option.getD_some, Option.some_bind, mapActors]
      cases h.game.actorPositions.get? cm <;> rfl
  refine ⟨rfl, rfl, by rw [hsnap], by rw [hsnap]; simp, ?_, hactors, ?_⟩
  · intro e
    rw [hsnap]
    simp only [List.mem_map]
    constructor
    · rintro ⟨id, hid, rfl⟩
      obtain ⟨poi, hp, hv⟩ := (hinv id).mp hid
      exact ⟨id, poi, hp, hv, hp⟩
    · rintro ⟨id, poi, hp, hv, rfl⟩
      exact ⟨id, (hinv id).mpr ⟨poi, hp, hv⟩, hp⟩
  · intro e
    rw [hactors, mem_filterMap_mergeActor]
    constructor
    · rintro ⟨a, pos, actor, hmem, hg, he⟩
      cases hc : h.game.currentMap with
      | none => simp [hc] at hmem
      | some cm =>
        cases ht : h.game.actorPositions.get? cm with
        | none => simp [hc, ht] at hmem
        | some t =>
          simp only [hc, ht, Option.some_bind, Option.getD_some] at hmem
          exact ⟨cm, t, a, pos, actor, rfl, ht, hmem, hg, he⟩
    · rintro ⟨cm, t, a, pos, actor, hc, ht, hmem, hg, he⟩
      refine ⟨a, pos, actor, ?_, hg, he⟩
      simp [hc, ht, hmem]

/-- C18 on the sample scene: the snapshot names the first map, carries its
record, both visible POIs and the rogue at (0,0). -/
theorem C18_connect_snapshot_witness :
    connectSnapshot sceneTwoMaps =
      { currentMap := some "dungeon", map := some dungeonMap,
        visiblePOIs := [some chestPOI, some wellPOI], actors := [rogueActor.placed 0 0] } ∧
    (connectSnapshot sceneTwoMaps).map = some dungeonMap := by
  refine ⟨by decide, ?_⟩
  have hinv : VisiblePOIsInv sceneTwoMaps := by
    intro id
    constructor
    · intro hid
      simp only [sceneTwoMaps, List.mem_cons, List.mem_singleton, List.not_mem_nil,
        or_false] at hid
      rcases hid with h | h
      · exact ⟨chestPOI, by rw [h]; rfl, rfl⟩
      · exact ⟨wellPOI, by rw [h]; rfl, rfl⟩
    · rintro ⟨poi, hp, -⟩
      have := Dict.mem_keys_of_get? hp
      simpa [sceneTwoMaps, Dict.keys] using this
  exact (C18_connect_snapshot ⟨sceneTwoMaps, []⟩ "viewer" hinv (by decide)).2.2.1.trans
    (by decide)

/-! ## Hidden by default -/

/-- C19: in every state, when `uuidv4` returns an id that is not in
`visiblePOIs`, `createPOI` stores the POI with `visible = false`, keeps it out
of `visiblePOIs` and leaves the `visiblePOIs` list of the connect snapshot as it
was; a following `setPOIVisibility(poiId, true)` appends to that list the new
POI, with the coordinates and type it was created with and `visible = true`. -/
theorem C19_hidden_by_default (env env2 : Env) (s : GameState) (poiId now mapId : String)
    (name : JsVal) (x y : Int) (description type : JsVal) (hnew : poiId ∉ s.visiblePOIs) :
    (createPOI env s poiId now mapId name x y description type).state.pointsOfInterest.get? poiId
      = some { id := poiId, mapId := mapId, name := name, x := x, y := y,
               description := description, type := type.orElse (.str "generic"),
               visible := .bool false, createdAt := now } ∧
    poiId ∉ (createPOI env s poiId now mapId name x y description type).state.visiblePOIs ∧
    (connectSnapshot (createPOI env s poiId now mapId name x y description type).state).visiblePOIs
      = (connectSnapshot s).visiblePOIs ∧
    (connectSnapshot (setPOIVisibility env2
        (createPOI env s poiId now mapId name x y description type).state poiId
        (.bool true)).state).visiblePOIs
      = (connectSnapshot s).visiblePOIs ++
        [some { id := poiId, mapId := mapId, name := name, x := x, y := y,
                description := description, type := type.orElse (.str "generic"),
                visible := .bool true, createdAt := now }] := by
  have hne : ∀ id ∈ s.visiblePOIs, ¬ poiId = id := fun id hid h => hnew (h ▸ hid)
  refine ⟨by simp [createPOI], hnew, ?_, ?_⟩
  · simp only [connectSnapshot, createPOI]
    apply List.map_congr_left
    intro id hid
    rw [Dict.get?_set_ne _ _ (hne id hid)]
  · simp only [connectSnapshot, setPOIVisibility, createPOI, Dict.get?_set_self, JsVal.truthy,
      if_true, setAdd, hnew, if_false, List.map_append, List.map_cons, List.map_nil]
    congr 1
    apply List.map_congr_left
    intro id hid
    rw [Dict.get?_set_ne _ _ (hne id hid), Dict.get?_set_ne _ _ (hne id hid)]

/-- C19 on the scenario of the specification: after map, actor, placement and
the chest, the snapshot holds no POI; once the chest is made visible the
snapshot holds exactly the chest at (3,3) of type treasure, whose icon is the
treasure icon and not the default one. -/
theorem C19_hidden_by_default_witness :
    (connectSnapshot (runOps GameState.initial chestScenario).1).visiblePOIs = [] ∧
    (connectSnapshot (setPOIVisibility Env.healthy (runOps GameState.initial chestScenario).1
      "chest" (.bool true)).state).visiblePOIs = [some visibleChest] ∧
    binding (runOps GameState.initial chestScenario).1 "dungeon" "rogue"
      = some { x := 0, y := 0 } ∧
    getPOITypeIcon visibleChest.type = getPOITypeIcon (.str "treasure") ∧
    getPOITypeIcon (.str "treasure") ≠ getPOITypeIcon (.str "generic") ∧
    (connectSnapshot (createPOI Env.healthy (runOps GameState.initial (chestScenario.take 3)).1
      "chest" "t2" "dungeon" (.str "Chest") 3 3 (.str "") (.str "treasure")).state).visiblePOIs
      = (connectSnapshot (runOps GameState.initial (chestScenario.take 3)).1).visiblePOIs := by
  refine ⟨by decide, by decide, by decide, by decide, by decide, ?_⟩
  exact (C19_hidden_by_default Env.healthy Env.healthy
    (runOps GameState.initial (chestScenario.take 3)).1 "chest" "t2" "dungeon" (.str "Chest")
    3 3 (.str "") (.str "treasure") (by decide)).2.2.1

/-! ## Setting the same visibility twice -/

theorem Dict.set_set {α : Type} (d : Dict α) (k : String) (v v2 : α) :
    (d.set k v).set k v2 = d.set k v2 := by
  induction d with
  | nil => simp [Dict.set]
  | cons e rest ih =>
    obtain ⟨k', v'⟩ := e
    by_cases h : k' = k
    · simp [Dict.set, h]
    · simp [Dict.set, h, ih]

theorem setAdd_setAdd (s : List String) (id : String) : setAdd (setAdd s id) id = setAdd s id := by
  have h : id ∈ setAdd s id := (mem_setAdd s id id).mpr (Or.inr rfl)
  show (if id ∈ setAdd s id then setAdd s id else setAdd s id ++ [id]) = setAdd s id
  rw [if_pos h]

theorem setDelete_setDelete (s : List String) (id : String) :
    setDelete (setDelete s id) id = setDelete s id := by
  simp [setDelete, List.filter_filter]

/-- C20: for an existing POI and any flag `v`, a second `setPOIVisibility(poiId,
v)` right after the first leaves the state as the first left it (same POI
record, same `visiblePOIs`), answers the same, and emits the same
`'poi-visibility-changed'` payload: the id, `v`, and the POI with `visible = v`. -/
theorem C20_setPOIVisibility_idempotent (env : Env) (s : GameState) (poiId : String)
    (visible : JsVal) (poi : POI) (hpoi : s.pointsOfInterest.get? poiId = some poi) :
    (setPOIVisibility env (setPOIVisibility env s poiId visible).state poiId visible).state
      = (setPOIVisibility env s poiId visible).state ∧
    (setPOIVisibility env (setPOIVisibility env s poiId visible).state poiId visible).response
      = (setPOIVisibility env s poiId visible).response ∧
    emitted (setPOIVisibility env s poiId visible).effects
      = [(.all, .poiVisibilityChanged poiId visible { poi with visible := visible })] ∧
    emitted (setPOIVisibility env (setPOIVisibility env s poiId visible).state poiId
        visible).effects
      = [(.all, .poiVisibilityChanged poiId visible { poi with visible := visible })] := by
  have h1 : (setPOIVisibility env s poiId visible).state =
      { s with
        pointsOfInterest := s.pointsOfInterest.set poiId { poi with visible := visible }
        visiblePOIs :=
          if visible.truthy then setAdd s.visiblePOIs poiId
          else setDelete s.visiblePOIs poiId } := by
    simp [setPOIVisibility, hpoi]
  rw [h1]
  refine ⟨?_, ?_, ?_, ?_⟩
  · simp only [setPOIVisibility, Dict.get?_set_self, Dict.set_set]
    cases visible.truthy
    · simp [setDelete_setDelete]
    · simp [setAdd_setAdd]
  · simp [setPOIVisibility, hpoi]
  · simp [setPOIVisibility, hpoi, emitted, saveGameState]
  · simp [setPOIVisibility, emitted, saveGameState]

/-- C20 on the sample scene: hiding the visible chest twice. -/
theorem C20_setPOIVisibility_idempotent_witness :
    (setPOIVisibility Env.healthy (setPOIVisibility Env.healthy sceneTwoMaps "chest"
      (.bool false)).state "chest" (.bool false)).state.visiblePOIs = ["well"] ∧
    (setPOIVisibility Env.healthy (setPOIVisibility Env.healthy sceneTwoMaps "chest"
      (.bool false)).state "chest" (.bool false)).state
      = (setPOIVisibility Env.healthy sceneTwoMaps "chest" (.bool false)).state := by
  refine ⟨by decide, ?_⟩
  exact (C20_setPOIVisibility_idempotent Env.healthy sceneTwoMaps "chest" (.bool false)
    chestPOI (by decide)).1

/-! ## Full disclosure and empty maps -/

/-- C21: `isVisibleToPlayers` is true for every cell, every actor list and every
radius when the observer is the director, when no fog settings are supplied,
or when the supplied settings have fog disabled; the render filter then keeps
every POI. -/
theorem C21_full_disclosure (isDM : Bool) (fogSettings : Option FogProps)
    (actors : List ActorOnMap) (x y : Int) (pois : List POI)
    (hfull : isDM = true ∨ fogSettings = none ∨
      ∃ fog, fogSettings = some fog ∧ fog.fogEnabled.truthy = false) :
    isVisibleToPlayers isDM fogSettings actors x y = true ∧
    renderedPOIs isDM fogSettings actors pois = pois := by
  have hall : ∀ x y, isVisibleToPlayers isDM fogSettings actors x y = true := by
    intro x y
    rcases hfull with h | h | ⟨fog, h, hf⟩
    · simp [isVisibleToPlayers, h]
    · simp [isVisibleToPlayers, h, effectiveFogSettings, JsVal.truthy]
    · simp [isVisibleToPlayers, h, effectiveFogSettings, hf]
  refine ⟨hall x y, ?_⟩
  unfold renderedPOIs
  rw [List.filter_eq_self]
  intro poi _
  exact hall poi.x poi.y

/-- C21 on concrete props: a viewer without fog settings, a viewer with fog
disabled and radius 0, and the director with fog enabled, each with no actor on
the map, all see the cell (17, -4). -/
theorem C21_full_disclosure_witness :
    isVisibleToPlayers false none [] 17 (-4) = true ∧
    isVisibleToPlayers false (some { fogEnabled := .bool false, visionRadius := 0 }) [] 17 (-4)
      = true ∧
    isVisibleToPlayers true (some { fogEnabled := .bool true, visionRadius := 2 }) [] 17 (-4)
      = true :=
  ⟨(C21_full_disclosure false none [] 17 (-4) [] (Or.inr (Or.inl rfl))).1,
   (C21_full_disclosure false (some { fogEnabled := .bool false, visionRadius := 0 }) [] 17 (-4)
      [] (Or.inr (Or.inr ⟨_, rfl, rfl⟩))).1,
   (C21_full_disclosure true (some { fogEnabled := .bool true, visionRadius := 2 }) [] 17 (-4)
      [] (Or.inl rfl)).1⟩

/-- C22: for a viewer with fog enabled and no actor on the map,
`isVisibleToPlayers` is false for every cell and every vision radius, and the
render filter keeps no POI. -/
theorem C22_no_actor_nothing_visible (fog : FogProps) (x y : Int) (pois : List POI)
    (hfog : fog.fogEnabled.truthy = true) :
    isVisibleToPlayers false (some fog) [] x y = false ∧
    renderedPOIs false (some fog) [] pois = [] := by
  have hall : ∀ x y, isVisibleToPlayers false (some fog) [] x y = false := by
    intro x y
    simp [isVisibleToPlayers, effectiveFogSettings, hfog]
  refine ⟨hall x y, ?_⟩
  unfold renderedPOIs
  rw [List.filter_eq_nil_iff]
  intro poi _
  simp [hall poi.x poi.y]

/-- C22 on concrete props: radius 10, the two sample POIs, no actor. -/
theorem C22_no_actor_nothing_visible_witness :
    isVisibleToPlayers false (some { fogEnabled := .bool true, visionRadius := 10 }) [] 0 0
      = false ∧
    renderedPOIs false (some { fogEnabled := .bool true, visionRadius := 10 }) []
      [chestPOI, wellPOI] = [] :=
  ⟨(C22_no_actor_nothing_visible { fogEnabled := .bool true, visionRadius := 10 } 0 0 [] rfl).1,
   (C22_no_actor_nothing_visible { fogEnabled := .bool true, visionRadius := 10 } 0 0
      [chestPOI, wellPOI] rfl).2⟩

/-! ## Monotonicity of the fog test -/

/-- C30: for a viewer with fog enabled, a cell visible with radius `r` and
actor list `A` is visible with every radius `r2 ≥ r` and every actor list that
contains the actors of `A`. -/
theorem C30_disclosure_monotone (fogEnabled : JsVal) (r r2 x y : Int)
    (A A2 : List ActorOnMap) (hfog : fogEnabled.truthy = true) (hr : r ≤ r2)
    (hsub : ∀ a ∈ A, a ∈ A2)
    (hvis : isVisibleToPlayers false (some { fogEnabled := fogEnabled, visionRadius := r })
      A x y = true) :
    isVisibleToPlayers false (some { fogEnabled := fogEnabled, visionRadius := r2 }) A2 x y
      = true := by
  simp only [isVisibleToPlayers, effectiveFogSettings, Option.getD_some, hfog, Bool.not_true,
    Bool.or_self, Bool.false_eq_true, if_false, List.any_eq_true] at hvis ⊢
  obtain ⟨a, ha, h⟩ := hvis
  exact ⟨a, hsub a ha, distanceWithin_mono _ _ hr h⟩

/-- C30 on concrete props: the cell (10,5), seen from (5,5) with radius 5, is
still seen with radius 7 and a second actor at (0,0). -/
theorem C30_disclosure_monotone_witness :
    isVisibleToPlayers false (some { fogEnabled := .bool true, visionRadius := 7 })
      [sampleActorAt 0 0, sampleActorAt 5 5] 10 5 = true := by
  have h5 : isVisibleToPlayers false (some { fogEnabled := .bool true, visionRadius := 5 })
      [sampleActorAt 5 5] 10 5 = true := by
    simp only [isVisibleToPlayers, effectiveFogSettings, Option.getD_some, JsVal.truthy,
      Bool.not_true, Bool.or_self, Bool.false_eq_true, if_false, List.any_eq_true]
    refine ⟨sampleActorAt 5 5, List.mem_singleton.mpr rfl, ?_⟩
    rw [distanceWithin_iff_of_small _ _ _ (by simp [sampleActorAt, abs_lt])
      (by simp [sampleActorAt, abs_lt]) (by decide)]
    exact ⟨by decide, by decide⟩
  exact C30_disclosure_monotone (.bool true) 5 7 10 5 [sampleActorAt 5 5]
    [sampleActorAt 0 0, sampleActorAt 5 5] rfl (by decide)
    (fun a ha => List.mem_cons_of_mem _ ha) h5

/-! ## Changing the current map -/

/-- C23: `setCurrentMap` on an existing map sets `currentMap` to that id and
changes nothing else; its one emission is `'map-changed'` to every session,
carrying the id, the map's record and the actor list of that map, which is
built from the position table of that map alone: one entry per binding whose
actor exists, the actor record merged with the binding's `(x, y)`. -/
theorem C23_setCurrentMap (env : Env) (s : GameState) (mapId : String) (map : MapRec)
    (hmap : s.maps.get? mapId = some map) :
    (setCurrentMap env s mapId).state = { s with currentMap := some mapId } ∧
    (setCurrentMap env s mapId).response = .ok mapId ∧
    emitted (setCurrentMap env s mapId).effects =
      [(.all, .mapChanged mapId map
        (((s.actorPositions.get? mapId).getD []).filterMap (mergeActor s.actors)))] ∧
    (((s.actorPositions.get? mapId).getD []).filterMap (mergeActor s.actors)).length =
      (((s.actorPositions.get? mapId).getD []).filter
        (fun entry => (s.actors.get? entry.1).isSome)).length ∧
    (∀ e, e ∈ ((s.actorPositions.get? mapId).getD []).filterMap (mergeActor s.actors) ↔
      ∃ t a pos actor, s.actorPositions.get? mapId = some t ∧ (a, pos) ∈ t ∧
        s.actors.get? a = some actor ∧ e = actor.placed pos.x pos.y) := by
  refine ⟨by simp [setCurrentMap, hmap], by simp [setCurrentMap, hmap], ?_, ?_, ?_⟩
  · simp only [setCurrentMap, hmap, emitted, saveGameState, mapActors]
    cases s.actorPositions.get? mapId <;> simp
  · generalize (s.actorPositions.get? mapId).getD [] = t
    induction t with
    | nil => rfl
    | cons entry rest ih =>
      simp only [List.filterMap_cons, List.filter_cons, mergeActor]
      cases s.actors.get? entry.1 with
      | none => simpa using ih
      | some actor => simpa using ih
  · intro e
    rw [mem_filterMap_mergeActor]
    constructor
    · rintro ⟨a, pos, actor, hmem, hg, he⟩
      cases ht : s.actorPositions.get? mapId with
      | none => simp [ht] at hmem
      | some t =>
        simp only [ht, Option.getD_some] at hmem
        exact ⟨t, a, pos, actor, rfl, hmem, hg, he⟩
    · rintro ⟨t, a, pos, actor, ht, hmem, hg, he⟩
      exact ⟨a, pos, actor, by simpa [ht] using hmem, hg, he⟩

/-- C23 on the sample scene: switching to the second map announces its record
and the rogue at (2,2), its position on that map, not (0,0) of the first map. -/
theorem C23_setCurrentMap_witness :
    emitted (setCurrentMap Env.healthy sceneTwoMaps "forest").effects =
      [(.all, .mapChanged "forest" forestMap [rogueActor.placed 2 2])] ∧
    (setCurrentMap Env.healthy sceneTwoMaps "forest").state
      = { sceneTwoMaps with currentMap := some "forest" } := by
  refine ⟨by decide, ?_⟩
  exact (C23_setCurrentMap Env.healthy sceneTwoMaps "forest" forestMap (by decide)).1

/-! ## Import: upload stage and validation -/

/-- C24, divergence of the code from the specification: the import route runs
the same `fileFilter` as the image upload, which accepts a file exactly when its
content type starts with `image/`. An exported document uploaded as
`application/json` is refused by the upload stage: the answer is 500, the
handler is not run and the state is not replaced. The same document declared
as `image/png` is imported. -/
theorem C24_import_refuses_json_upload (mimetype : String) :
    (fileFilter mimetype = true ↔ "image/".toList <+: mimetype.toList) ∧
    fileFilter "application/json" = false ∧
    (importEndpoint Env.healthy GameState.initial
      (some { mimetype := "application/json", size := 2048,
              parsed := some (exportState sceneTwoMaps "t9") })).response
      = .error 500 "Only image files are allowed!" ∧
    (importEndpoint Env.healthy GameState.initial
      (some { mimetype := "application/json", size := 2048,
              parsed := some (exportState sceneTwoMaps "t9") })).state = GameState.initial ∧
    (importEndpoint Env.healthy GameState.initial
      (some { mimetype := "application/json", size := 2048,
              parsed := some (exportState sceneTwoMaps "t9") })).effects = [] ∧
    (importEndpoint Env.healthy GameState.initial
      (some { mimetype := "image/png", size := 2048,
              parsed := some (exportState sceneTwoMaps "t9") })).state = sceneTwoMaps := by
  refine ⟨?_, by decide, by decide, by decide, by decide, by decide⟩
  simp [fileFilter]

/-- C25: when no file was uploaded, when the content is not parseable JSON, or
when the document has no `maps` or no `pointsOfInterest`, the import handler
answers with an error (400, or 500 for unparseable content), leaves the whole
state as it was and has no effect at all: no backup, no save, no
`'game-state-imported'`. -/
theorem C25_import_validation_atomic (env : Env) (s : GameState) (upload : Upload)
    (hbad : upload = .missing ∨ upload = .file none ∨
      ∃ doc, upload = .file (some doc) ∧ (doc.maps = none ∨ doc.pointsOfInterest = none)) :
    ((importState env s upload).response.status = 400 ∨
      (importState env s upload).response.status = 500) ∧
    (importState env s upload).state = s ∧
    (importState env s upload).effects = [] := by
  rcases hbad with h | h | ⟨doc, h, hdoc⟩
  · subst h
    exact ⟨Or.inl rfl, rfl, rfl⟩
  · subst h
    exact ⟨Or.inr rfl, rfl, rfl⟩
  · subst h
    have hv : (doc.maps.isNone || doc.pointsOfInterest.isNone) = true := by
      rcases hdoc with h | h <;> simp [h]
    simp only [importState, hv, if_true]
    exact ⟨Or.inl rfl, trivial, trivial⟩

/-- C25 on concrete uploads over the sample scene: no file, unparseable
content, a document without `maps`, a document without `pointsOfInterest`. -/
theorem C25_import_validation_atomic_witness :
    (importState Env.healthy sceneTwoMaps .missing).response = .error 400 "No file uploaded" ∧
    (importState Env.healthy sceneTwoMaps (.file none)).state = sceneTwoMaps ∧
    (importState Env.healthy sceneTwoMaps
      (.file (some { exportState sceneUnplaced "t9" with maps := none }))).state
      = sceneTwoMaps ∧
    (importState Env.healthy sceneTwoMaps
      (.file (some { exportState sceneUnplaced "t9" with pointsOfInterest := none }))).effects
      = [] :=
  ⟨by decide,
   (C25_import_validation_atomic Env.healthy sceneTwoMaps (.file none) (Or.inr (Or.inl rfl))).2.1,
   (C25_import_validation_atomic Env.healthy sceneTwoMaps
      (.file (some { exportState sceneUnplaced "t9" with maps := none }))
      (Or.inr (Or.inr ⟨_, rfl, Or.inl rfl⟩))).2.1,
   (C25_import_validation_atomic Env.healthy sceneTwoMaps
      (.file (some { exportState sceneUnplaced "t9" with pointsOfInterest := none }))
      (Or.inr (Or.inr ⟨_, rfl, Or.inr rfl⟩))).2.2⟩

/-! ## The stored vision-circle flag -/

/-- C26: after a `dm-update-fog-settings` message the stored `fogEnabled` and
`visionRadius` are the message's, and the stored `showVisionCircles` is `true`
when the message carried `true`, `false` or nothing for it; whatever the
message carried, the stored flag is truthy, never `false`. -/
theorem C26_showVisionCircles_always_true (env : Env) (h : Hub) (sender : String)
    (fogEnabled visionRadius showVisionCircles : JsVal) (b : Bool) :
    (onMessage env h sender
      (.dmUpdateFogSettings ⟨fogEnabled, visionRadius, .bool b⟩)).1.game.fogSettings
      = ⟨fogEnabled, visionRadius, .bool true⟩ ∧
    (onMessage env h sender
      (.dmUpdateFogSettings ⟨fogEnabled, visionRadius, .undefined⟩)).1.game.fogSettings
      = ⟨fogEnabled, visionRadius, .bool true⟩ ∧
    (onMessage env h sender (.dmUpdateFogSettings
      ⟨fogEnabled, visionRadius, showVisionCircles⟩)).1.game.fogSettings.fogEnabled
      = fogEnabled ∧
    (onMessage env h sender (.dmUpdateFogSettings
      ⟨fogEnabled, visionRadius, showVisionCircles⟩)).1.game.fogSettings.visionRadius
      = visionRadius ∧
    (onMessage env h sender (.dmUpdateFogSettings
      ⟨fogEnabled, visionRadius, showVisionCircles⟩)).1.game.fogSettings.showVisionCircles.truthy
      = true ∧
    (onMessage env h sender (.dmUpdateFogSettings
      ⟨fogEnabled, visionRadius, showVisionCircles⟩)).1.game.fogSettings.showVisionCircles
      ≠ .bool false := by
  have htruthy : (showVisionCircles.orElse (.bool true)).truthy = true := by
    unfold JsVal.orElse
    split
    · assumption
    · rfl
  refine ⟨?_, rfl, rfl, rfl, htruthy, ?_⟩
  · cases b <;> rfl
  · intro hfalse
    have : (showVisionCircles.orElse (.bool true)) = .bool false := hfalse
    rw [this] at htruthy
    exact absurd htruthy (by decide)

/-! ## POIs of other maps in the snapshot -/

/-- C27, in the form that holds: the connect snapshot is not restricted to the
current map. In a state whose `visiblePOIs` is the set of ids of the POIs
flagged visible, every stored POI flagged visible is in the snapshot's
`visiblePOIs`, on whatever map it lies, and every entry of that list is such a
POI. -/
theorem C27_snapshot_holds_all_visible (s : GameState) (hinv : VisiblePOIsInv s) :
    (∀ id poi, s.pointsOfInterest.get? id = some poi → poi.visible = .bool true →
      some poi ∈ (connectSnapshot s).visiblePOIs) ∧
    (∀ e, e ∈ (connectSnapshot s).visiblePOIs →
      ∃ id poi, s.pointsOfInterest.get? id = some poi ∧ poi.visible = .bool true ∧
        e = some poi) := by
  constructor
  · intro id poi hp hv
    simp only [connectSnapshot, List.mem_map]
    exact ⟨id, (hinv id).mpr ⟨poi, hp, hv⟩, hp⟩
  · intro e he
    simp only [connectSnapshot, List.mem_map] at he
    obtain ⟨id, hid, rfl⟩ := he
    obtain ⟨poi, hp, hv⟩ := (hinv id).mp hid
    exact ⟨id, poi, hp, hv, hp⟩

theorem sceneTwoMaps_visibleInv : VisiblePOIsInv sceneTwoMaps := by
  intro id
  constructor
  · intro hid
    simp only [sceneTwoMaps, List.mem_cons, List.mem_singleton, List.not_mem_nil,
      or_false] at hid
    rcases hid with h | h
    · exact ⟨chestPOI, by rw [h]; rfl, rfl⟩
    · exact ⟨wellPOI, by rw [h]; rfl, rfl⟩
  · rintro ⟨poi, hp, -⟩
    have := Dict.mem_keys_of_get? hp
    simpa [sceneTwoMaps, Dict.keys] using this

/-- C27 on the sample scene: the well, visible on the second map, is in the
snapshot although the first map is current. -/
theorem C27_snapshot_holds_all_visible_witness :
    sceneTwoMaps.currentMap = some "dungeon" ∧ wellPOI.mapId = "forest" ∧
    some wellPOI ∈ (connectSnapshot sceneTwoMaps).visiblePOIs :=
  ⟨rfl, rfl,
   (C27_snapshot_holds_all_visible sceneTwoMaps sceneTwoMaps_visibleInv).1 "well" wellPOI
     (by decide) rfl⟩

/-- C27, counterexample to the specification's statement: with the first map
current, the snapshot carries the well, a POI of the second map. -/
theorem C27_other_map_poi_sent :
    (connectSnapshot sceneTwoMaps).currentMap = some "dungeon" ∧
    (connectSnapshot sceneTwoMaps).visiblePOIs = [some chestPOI, some wellPOI] ∧
    wellPOI.mapId = "forest" ∧
    sceneTwoMaps.pointsOfInterest.get? "well" = some wellPOI ∧
    sceneTwoMaps.maps.get? "forest" = some forestMap := by
  decide

/-! ## The client's `'actor-moved'` listener -/

/-- C28: the `'actor-moved'` listener of `App` never fails and touches the
actor list only; the new list has the length and order of the old one, each
entry whose id is `actorId` replaced by the event's actor record with the
event's `(x, y)` and every other entry kept; the event's `mapId` plays no part;
when no entry has that id the list is unchanged, so a newly placed actor is not
added. -/
theorem C28_actor_moved_listener (c : Snapshot) (actorId mapId otherMap : String) (x y : Int)
    (actor : Actor) :
    clientHandle c (.actorMoved actorId mapId x y actor) =
      some { c with actors :=
        c.actors.map (fun a => if a.id = actorId then actor.placed x y else a) } ∧
    (c.actors.map (fun a => if a.id = actorId then actor.placed x y else a)).length
      = c.actors.length ∧
    (∀ i : Nat, (c.actors.map (fun a => if a.id = actorId then actor.placed x y else a))[i]? =
      (c.actors[i]?).map (fun a => if a.id = actorId then actor.placed x y else a)) ∧
    clientHandle c (.actorMoved actorId otherMap x y actor) =
      clientHandle c (.actorMoved actorId mapId x y actor) ∧
    ((∃ a ∈ c.actors, a.id = actorId) ∨
      clientHandle c (.actorMoved actorId mapId x y actor) = some c) := by
  refine ⟨rfl, by simp, ?_, rfl, ?_⟩
  · intro i
    simp
  · by_cases hex : ∃ a ∈ c.actors, a.id = actorId
    · exact Or.inl hex
    · right
      have hmap : c.actors.map (fun a => if a.id = actorId then actor.placed x y else a)
          = c.actors := by
        conv_rhs => rw [← List.map_id c.actors]
        apply List.map_congr_left
        intro a ha
        have : ¬ a.id = actorId := fun h => hex ⟨a, ha, h⟩
        simp [this]
      show some { c with actors := _ } = some c
      rw [hmap]

/-! ## The current map exists -/

theorem currentMapStored_run (env : Env) (s : GameState) (op : Op) (hop : op.isStoreOp = true)
    (h : ∀ cm, s.currentMap = some cm → (s.maps.get? cm).isSome = true) :
    ∀ cm, (op.run env s).state.currentMap = some cm →
      ((op.run env s).state.maps.get? cm).isSome = true := by
  cases op with
  | createMap mapId now name w ht file =>
    intro cm hc
    exact Dict.isSome_get?_set _ _ _ _ (h cm hc)
  | createPOI poiId now mapId name x y d t => exact h
  | setPOIVisibility poiId visible =>
    simp only [Op.run, Outcome.step, setPOIVisibility]
    cases s.pointsOfInterest.get? poiId <;> exact h
  | setCurrentMap mapId =>
    simp only [Op.run, Outcome.step, setCurrentMap]
    cases hm : s.maps.get? mapId with
    | none => exact h
    | some map =>
      intro cm hc
      have : mapId = cm := Option.some.inj hc
      subst this
      show (s.maps.get? mapId).isSome = true
      simp [hm]
  | deleteMap mapId =>
    simp only [Op.run, Outcome.step, deleteMap]
    cases hm : s.maps.get? mapId with
    | none => exact h
    | some map =>
      intro cm hc
      have hc2 : (if s.currentMap = some mapId then none else s.currentMap) = some cm := hc
      by_cases hcur : s.currentMap = some mapId
      · simp [hcur] at hc2
      · simp only [hcur, if_false] at hc2
        have hne : ¬ mapId = cm := by
          intro heq
          exact hcur (by rw [hc2, heq])
        show ((s.maps.del mapId).get? cm).isSome = true
        rw [Dict.get?_del_ne _ hne]
        exact h cm hc2
  | createActor actorId now name color icon => exact h
  | deleteActor actorId =>
    simp only [Op.run, Outcome.step, deleteActor]
    cases s.actors.get? actorId <;> exact h
  | setActorPosition actorId mapId x y =>
    simp only [Op.run, Outcome.step, setActorPosition]
    cases s.actors.get? actorId with
    | none => exact h
    | some actor => cases s.maps.get? mapId <;> exact h
  | importState upload => simp [Op.isStoreOp] at hop

theorem currentMapStored_runOps (ops : List (Env × Op)) (s : GameState)
    (hok : OpsAdmissible (fun _ op => op.isStoreOp = true) s ops)
    (h : ∀ cm, s.currentMap = some cm → (s.maps.get? cm).isSome = true) :
    ∀ cm, (runOps s ops).1.currentMap = some cm →
      ((runOps s ops).1.maps.get? cm).isSome = true := by
  induction ops generalizing s with
  | nil => exact h
  | cons eo rest ih =>
    obtain ⟨env, op⟩ := eo
    exact ih (op.run env s).state hok.2 (currentMapStored_run env s op hok.1 h)

theorem noEmptyMapId_runOps (ops : List (Env × Op)) (s : GameState)
    (hok : OpsAdmissible (fun _ op => op.isStoreOp = true) s ops)
    (hid : OpsAdmissible (fun _ op => op.nonemptyMapId = true) s ops)
    (h : s.maps.get? "" = none) : (runOps s ops).1.maps.get? "" = none := by
  induction ops generalizing s with
  | nil => exact h
  | cons eo rest ih =>
    obtain ⟨env, op⟩ := eo
    refine ih (op.run env s).state hok.2 hid.2 ?_
    have hop := hid.1
    have hstore := hok.1
    cases op with
    | createMap mapId now name w ht file =>
      have hne : mapId ≠ "" := by simpa [Op.nonemptyMapId] using hop
      show (s.maps.set mapId _).get? "" = none
      rw [Dict.get?_set_ne _ _ hne]
      exact h
    | createPOI poiId now mapId name x y d t => exact h
    | setPOIVisibility poiId visible =>
      simp only [Op.run, Outcome.step, setPOIVisibility]
      cases s.pointsOfInterest.get? poiId <;> exact h
    | setCurrentMap mapId =>
      simp only [Op.run, Outcome.step, setCurrentMap]
      cases s.maps.get? mapId <;> exact h
    | deleteMap mapId =>
      simp only [Op.run, Outcome.step, deleteMap]
      cases hm : s.maps.get? mapId with
      | none => exact h
      | some map =>
        show (s.maps.del mapId).get? "" = none
        rw [Dict.get?_del]
        split
        · rfl
        · exact h
    | createActor actorId now name color icon => exact h
    | deleteActor actorId =>
      simp only [Op.run, Outcome.step, deleteActor]
      cases s.actors.get? actorId <;> exact h
    | setActorPosition actorId mapId x y =>
      simp only [Op.run, Outcome.step, setActorPosition]
      cases s.actors.get? actorId with
      | none => exact h
      | some actor => cases s.maps.get? mapId <;> exact h
    | importState upload => simp [Op.isStoreOp] at hstore

/-- The current map under requests with plain ids: in every state reached
from the initial state by `createMap` (with a generated id, which is never the
empty string), `createPOI`, `setPOIVisibility`, `setCurrentMap`, `deleteMap`,
`createActor`, `deleteActor` and `setActorPosition` requests whose ids are
plain, `currentMap` is null or the id of a stored map, and whenever the connect
snapshot's `currentMap` is not null its `map` is that stored record. (A request
`setCurrentMap` for the id `constructor` is not of this kind: the code accepts
it and makes current an id under which no map is stored.) -/
theorem currentMapStored_of_plain_ops (ops : List (Env × Op))
    (hok : OpsAdmissible (fun _ op => op.isStoreOp = true ∧ op.plainIds = true)
      GameState.initial ops)
    (hid : OpsAdmissible (fun _ op => op.nonemptyMapId = true) GameState.initial ops) :
    ((runOps GameState.initial ops).1.currentMap = none ∨
      ∃ cm map, (runOps GameState.initial ops).1.currentMap = some cm ∧
        (runOps GameState.initial ops).1.maps.get? cm = some map) ∧
    ((connectSnapshot (runOps GameState.initial ops).1).currentMap = none ∨
      ∃ cm map, (connectSnapshot (runOps GameState.initial ops).1).currentMap = some cm ∧
        (runOps GameState.initial ops).1.maps.get? cm = some map ∧
        (connectSnapshot (runOps GameState.initial ops).1).map = some map) := by
  have hstore : OpsAdmissible (fun _ op => op.isStoreOp = true) GameState.initial ops :=
    opsAdmissible_imp (fun _ _ h => h.1) ops GameState.initial hok
  have h := currentMapStored_runOps ops GameState.initial hstore (by
    intro cm hc
    simp [GameState.initial] at hc)
  have hempty := noEmptyMapId_runOps ops GameState.initial hstore hid rfl
  cases hc : (runOps GameState.initial ops).1.currentMap with
  | none => exact ⟨Or.inl rfl, Or.inl (by simp [connectSnapshot, hc])⟩
  | some cm =>
    obtain ⟨map, hmap⟩ := Option.isSome_iff_exists.mp (h cm hc)
    have hne : cm ≠ "" := by
      rintro rfl
      rw [hempty] at hmap
      cases hmap
    refine ⟨Or.inr ⟨cm, map, rfl, hmap⟩, Or.inr ⟨cm, map, ?_, hmap, ?_⟩⟩
    · simp [connectSnapshot, hc]
    · simp [connectSnapshot, hc, truthyId, hne, hmap]

/-- A concrete run with plain ids: two maps, the first made current and then
deleted (no current map is left), then the second made current. -/
theorem currentMapStored_sample_run :
    (runOps GameState.initial (currentMapRun.take 7)).1.currentMap = none ∧
    (connectSnapshot (runOps GameState.initial currentMapRun).1).map.map (fun m => m.id)
      = some "forest" ∧
    ((runOps GameState.initial currentMapRun).1.currentMap = none ∨
      ∃ cm map, (runOps GameState.initial currentMapRun).1.currentMap = some cm ∧
        (runOps GameState.initial currentMapRun).1.maps.get? cm = some map) := by
  refine ⟨by decide, by decide, ?_⟩
  exact (currentMapStored_of_plain_ops currentMapRun
    ⟨by decide, by decide, by decide, by decide, by decide, by decide, by decide, by decide,
      trivial⟩
    ⟨rfl, rfl, rfl, rfl, rfl, rfl, rfl, rfl, trivial⟩).1

end TT
